import Mathlib

/-!
# Helium: resource loader and deferred renderer

A shallow embedding of `src/Renderer.cpp` and `src/Loader.cpp`.

Conventions of the embedding.

* A `float` or `double` is carried as its IEEE-754 bit pattern (a natural number below
  `2^32` resp. `2^64`): the code under study only copies floats, compares doubles and hands
  them to the graphics and maths libraries.
* Floating-point arithmetic and the `glm` matrix library are not interpreted; they are the
  fields of `Ext`, over which every statement is universally quantified.
* A pointer is an address, `0` being `nullptr`; what pointers refer to is looked up in a `Heap`.
* Calls into the graphics API are recorded, in order, in a command list.
* `size_t` is 64 bits wide, `unsigned int` and `png_uint_32` are 32 bits wide, `char` is
  signed, the host is little-endian.
* Memory is unbounded: no allocation fails.
-/

namespace Helium

/-! ## Scalars, vectors and the external maths library -/

/-- Bit pattern of a `float`. -/
abbrev F32 := Nat

/-- Bit pattern of a `double`. -/
abbrev F64 := Nat

/-- An address; `0` is `nullptr`. -/
abbrev Ptr := Nat

/-- The type `glm::vec3`. -/
structure Vec3 where
  x : F32
  y : F32
  z : F32
deriving DecidableEq, Repr

/-- The type `glm::mat4`: its 16 floats in memory order. -/
abbrev Mat4 := List F32

/-- Floating-point operations and `glm` functions used by the renderer, left uninterpreted. -/
structure Ext where
  /-- The function `glm::perspective(fovy, aspect, near, far)` on doubles, converted to `glm::mat4`. -/
  perspective : F64 → F64 → F64 → F64 → Mat4
  /-- The function `glm::rotate(m, angle, axis)`. -/
  rotate : Mat4 → F32 → Vec3 → Mat4
  /-- The function `glm::translate(m, v)`. -/
  translate : Mat4 → Vec3 → Mat4
  /-- The product of two `glm::mat4`. -/
  matMul : Mat4 → Mat4 → Mat4
  /-- The matrix `glm::mat4(1.0)`. -/
  matIdentity : Mat4
  /-- Addition of doubles. -/
  f64Add : F64 → F64 → F64
  /-- The conversion `(float)d` of a double. -/
  f64ToF32 : F64 → F32
  /-- The conversion `(float)n` of an `int`. -/
  intToF32 : Int → F32

/-- The double `20.0`. -/
def f64_20 : F64 := 0x4034000000000000

/-- The double `16.0/9.0`. -/
def f64_16_9 : F64 := 0x3FFC71C71C71C71C

/-- The double `0.1`. -/
def f64_0_1 : F64 := 0x3FB999999999999A

/-- The double `100.0`. -/
def f64_100 : F64 := 0x4059000000000000

/-- The float `0.0f`. -/
def f32_0 : F32 := 0

/-- The float `1.0f`. -/
def f32_1 : F32 := 0x3F800000

/-! ## Renderer data -/

/-- The fields of `Mesh` that the renderer and the loader use (`Mesh.hpp` is not part of the
sources at hand; the fields are those named in `Renderer.cpp` and `Loader.cpp`). -/
structure Mesh where
  m_vaoConfig : Nat
  m_vboVertices : Nat
  m_vboIndices : Nat
  m_iNumTris : Nat
  m_iNumIndices : Nat
  m_iStride : Nat
  m_iOffPos : Nat
  m_iOffUV : Nat
  m_iOffNormal : Nat
deriving DecidableEq, Repr

/-- The fields of `Texture` used in the sources. -/
structure Texture where
  m_glTexture : Nat
  m_width : Nat
  m_height : Nat
deriving DecidableEq, Repr

/-- The fields of `Material`: two texture pointers, either of which may be null. -/
structure Material where
  m_pDiffuse : Ptr
  m_pNormal : Ptr
deriving DecidableEq, Repr

/-- What the pointers held by the renderer refer to. The frame interface is used on a renderer
whose `Init` has succeeded, with live meshes and materials, so every pointer that gets
dereferenced (`m_pPlane`, the queued meshes and materials, the textures of a material) is
taken to refer to an object. -/
structure Heap where
  mesh : Ptr → Mesh
  material : Ptr → Material
  texture : Ptr → Texture

/-- The per-frame entry `Model(pMesh, pMat, matPosition)`. -/
structure Model where
  mesh : Ptr
  mat : Ptr
  pos : Mat4
deriving DecidableEq, Repr

/-- Names of the shader uniforms that `Renderer.cpp` looks up. -/
inductive Uniform
  | matPos
  | matView
  | sampDiffuse
  | sampNormal
  | sampDepth
  | time
  | viewPos
  | screenSize
deriving DecidableEq, Repr

/-- The graphics-API calls issued by a frame. A uniform upload carries the program and the
uniform name that `glGetUniformLocation` was asked for. -/
inductive GLCall
  | glEnableVertexAttribArray (index : Nat)
  | glDisableVertexAttribArray (index : Nat)
  | glBindBuffer (buffer : Nat)
  | glVertexAttribPointer (index : Nat) (size : Nat) (stride : Nat) (pointer : Nat)
  | glUseProgram (program : Nat)
  | glUniformMatrix4fv (program : Nat) (name : Uniform) (value : Mat4)
  | glUniform1i (program : Nat) (name : Uniform) (v : Int)
  | glUniform1f (program : Nat) (name : Uniform) (v : F32)
  | glUniform2f (program : Nat) (name : Uniform) (v0 : F32) (v1 : F32)
  | glUniform3f (program : Nat) (name : Uniform) (v0 : F32) (v1 : F32) (v2 : F32)
  | glActiveTexture (unit : Nat)
  | glBindTexture (texture : Nat)
  | glDrawArrays (first : Nat) (count : Nat)
  | glBindFramebuffer (framebuffer : Nat)
  | glClearColor (r : F32) (g : F32) (b : F32) (a : F32)
  | glClear
deriving DecidableEq, Repr

/-- What `Renderer::EndFrame` does, in order: calls of the renderer's own helpers and direct
graphics-API calls. -/
inductive Cmd
  | SetupGeometryPass
  | DrawModel (model : Model)
  | SetupLightPass
  | gl (c : GLCall)
deriving DecidableEq, Repr

/-- The state of a `Renderer`. -/
structure Renderer where
  m_bIsInit : Bool
  m_bIsMidFrame : Bool
  m_width : Int
  m_height : Int
  m_curTime : F64
  m_viewPos : Vec3
  m_viewYaw : F32
  m_viewTilt : F32
  m_matProjection : Mat4
  m_shdMesh : Nat
  m_shdLight : Nat
  m_texDiffuse : Nat
  m_texNormal : Nat
  m_texDepth : Nat
  m_FBO : Nat
  m_pPlane : Ptr
  m_models : List Model
deriving DecidableEq, Repr

namespace Renderer

/-- The method `Renderer::BeginFrame`. -/
def BeginFrame (r : Renderer) : Renderer :=
  { r with m_bIsMidFrame := true, m_models := [] }

/-- The method `Renderer::EndFrame`: the new state and the commands issued, in order. -/
def EndFrame (heap : Heap) (r : Renderer) : Renderer × List Cmd :=
  let log : List Cmd := [Cmd.SetupGeometryPass]
  let log := r.m_models.foldl (fun acc model => acc ++ [Cmd.DrawModel model]) log
  let log := log ++ [Cmd.SetupLightPass]
  let plane := heap.mesh r.m_pPlane
  let log := log ++ [Cmd.gl (GLCall.glEnableVertexAttribArray 0)]
  let log := log ++ [Cmd.gl (GLCall.glBindBuffer plane.m_vboVertices)]
  let log := log ++ [Cmd.gl (GLCall.glVertexAttribPointer 0 3 plane.m_iStride plane.m_iOffPos)]
  let log := log ++ [Cmd.gl (GLCall.glDrawArrays 0 (plane.m_iNumTris * 3))]
  let log := log ++ [Cmd.gl (GLCall.glDisableVertexAttribArray 0)]
  ({ r with m_bIsMidFrame := false }, log)

/-- The method `Renderer::UpdateProjectionMatrix`. -/
def UpdateProjectionMatrix (ext : Ext) (r : Renderer) : Renderer :=
  let proj := ext.perspective f64_20 f64_16_9 f64_0_1 f64_100
  let rot := ext.matMul
    (ext.rotate ext.matIdentity r.m_viewTilt ⟨f32_1, f32_0, f32_0⟩)
    (ext.rotate ext.matIdentity r.m_viewYaw ⟨f32_0, f32_1, f32_0⟩)
  let tran := ext.translate ext.matIdentity r.m_viewPos
  { r with m_matProjection := ext.matMul (ext.matMul proj rot) tran }

/-- The method `Renderer::SetViewPosition`. -/
def SetViewPosition (ext : Ext) (r : Renderer) (pos : Vec3) (yaw tilt : F32) : Renderer :=
  if r.m_bIsMidFrame then r
  else UpdateProjectionMatrix ext { r with m_viewPos := pos, m_viewYaw := yaw, m_viewTilt := tilt }

/-- The method `Renderer::AddMesh`. -/
def AddMesh (r : Renderer) (pMesh pMat : Ptr) (matPosition : Mat4) : Renderer :=
  if pMesh = 0 ∨ pMat = 0 ∨ r.m_bIsMidFrame = false then r
  else { r with m_models := r.m_models ++ [⟨pMesh, pMat, matPosition⟩] }

/-- The method `Renderer::AddLight`: a stub. -/
def AddLight (r : Renderer) (_pos _rgb : Vec3) (_radius : F64) : Renderer := r

/-- The method `Renderer::AddTime`. -/
def AddTime (ext : Ext) (r : Renderer) (dt : F64) : Renderer :=
  { r with m_curTime := ext.f64Add r.m_curTime dt }

/-- The method `Renderer::DrawModel`: the graphics-API calls it issues. -/
def DrawModel (heap : Heap) (r : Renderer) (model : Model) : List GLCall :=
  let mesh := heap.mesh model.mesh
  let mat := heap.material model.mat
  [GLCall.glEnableVertexAttribArray 0, GLCall.glEnableVertexAttribArray 1, GLCall.glEnableVertexAttribArray 2,
   GLCall.glBindBuffer mesh.m_vboVertices,
   GLCall.glVertexAttribPointer 0 3 mesh.m_iStride mesh.m_iOffPos,
   GLCall.glVertexAttribPointer 1 2 mesh.m_iStride mesh.m_iOffUV,
   GLCall.glVertexAttribPointer 2 3 mesh.m_iStride mesh.m_iOffNormal,
   GLCall.glUseProgram r.m_shdMesh,
   GLCall.glUniformMatrix4fv r.m_shdMesh Uniform.matPos model.pos,
   GLCall.glUniformMatrix4fv r.m_shdMesh Uniform.matView r.m_matProjection]
  ++ (if mat.m_pDiffuse ≠ 0 then
        [GLCall.glActiveTexture 0, GLCall.glBindTexture (heap.texture mat.m_pDiffuse).m_glTexture,
         GLCall.glUniform1i r.m_shdMesh Uniform.sampDiffuse 0]
      else [])
  ++ (if mat.m_pNormal ≠ 0 then
        [GLCall.glActiveTexture 1, GLCall.glBindTexture (heap.texture mat.m_pNormal).m_glTexture,
         GLCall.glUniform1i r.m_shdMesh Uniform.sampNormal 1]
      else [])
  ++ [GLCall.glDrawArrays 0 (mesh.m_iNumTris * 3), GLCall.glBindTexture 0,
      GLCall.glDisableVertexAttribArray 0, GLCall.glDisableVertexAttribArray 1,
      GLCall.glDisableVertexAttribArray 2]

/-- The method `Renderer::SetupGeometryPass`. -/
def SetupGeometryPass (r : Renderer) : List GLCall :=
  [GLCall.glBindFramebuffer r.m_FBO, GLCall.glClearColor f32_0 f32_0 f32_0 f32_1, GLCall.glClear]

/-- The method `Renderer::SetupLightPass`. -/
def SetupLightPass (ext : Ext) (r : Renderer) : List GLCall :=
  [GLCall.glBindFramebuffer 0, GLCall.glClear, GLCall.glUseProgram r.m_shdLight,
   GLCall.glActiveTexture 0, GLCall.glBindTexture r.m_texDiffuse,
   GLCall.glActiveTexture 1, GLCall.glBindTexture r.m_texNormal,
   GLCall.glActiveTexture 2, GLCall.glBindTexture r.m_texDepth,
   GLCall.glUniform1f r.m_shdLight Uniform.time (ext.f64ToF32 r.m_curTime),
   GLCall.glUniform3f r.m_shdLight Uniform.viewPos r.m_viewPos.x r.m_viewPos.y r.m_viewPos.z,
   GLCall.glUniform2f r.m_shdLight Uniform.screenSize (ext.intToF32 r.m_width) (ext.intToF32 r.m_height),
   GLCall.glUniform1i r.m_shdLight Uniform.sampDiffuse 0,
   GLCall.glUniform1i r.m_shdLight Uniform.sampNormal 1,
   GLCall.glUniform1i r.m_shdLight Uniform.sampDepth 2,
   GLCall.glUniformMatrix4fv r.m_shdLight Uniform.matView r.m_matProjection]

/-- The graphics-API calls behind one command of `EndFrame`, in the state `r` in which
`EndFrame` runs. -/
def glOf (ext : Ext) (heap : Heap) (r : Renderer) : Cmd → List GLCall
  | Cmd.SetupGeometryPass => SetupGeometryPass r
  | Cmd.DrawModel model => DrawModel heap r model
  | Cmd.SetupLightPass => SetupLightPass ext r
  | Cmd.gl c => [c]

/-- All graphics-API calls of a command list. -/
def glTrace (ext : Ext) (heap : Heap) (r : Renderer) (cmds : List Cmd) : List GLCall :=
  (cmds.map (glOf ext heap r)).flatten

end Renderer

/-- A call of the renderer's frame interface. -/
inductive Call
  | BeginFrame
  | EndFrame
  | AddMesh (pMesh : Ptr) (pMat : Ptr) (matPosition : Mat4)
  | AddLight (pos : Vec3) (rgb : Vec3) (radius : F64)
  | SetViewPosition (pos : Vec3) (yaw : F32) (tilt : F32)
  | AddTime (dt : F64)
deriving DecidableEq, Repr

namespace Renderer

/-- The state after one call. -/
def step (ext : Ext) (heap : Heap) (r : Renderer) : Call → Renderer
  | Call.BeginFrame => BeginFrame r
  | Call.EndFrame => (EndFrame heap r).1
  | Call.AddMesh pMesh pMat matPosition => AddMesh r pMesh pMat matPosition
  | Call.AddLight pos rgb radius => AddLight r pos rgb radius
  | Call.SetViewPosition pos yaw tilt => SetViewPosition ext r pos yaw tilt
  | Call.AddTime dt => AddTime ext r dt

/-- The state after a sequence of calls. -/
def runState (ext : Ext) (heap : Heap) (r : Renderer) (calls : List Call) : Renderer :=
  calls.foldl (step ext heap) r

/-- The models for which a command list calls `DrawModel`, in order. -/
def drawnModels : List Cmd → List Model
  | [] => []
  | Cmd.DrawModel model :: rest => model :: drawnModels rest
  | _ :: rest => drawnModels rest

end Renderer

/-- The submissions accepted during the frame in progress at the start of a sequence of
calls, `recording` telling whether that frame is still open: an `EndFrame` closes it, the next
`BeginFrame` ends what belongs to it, and a submission counts when its mesh and its material
are present and the frame is open. -/
def acceptedSubmissions : Bool → List Call → List Model
  | _, [] => []
  | _, Call.BeginFrame :: _ => []
  | _, Call.EndFrame :: rest => acceptedSubmissions false rest
  | recording, Call.AddMesh pMesh pMat matPosition :: rest =>
      if pMesh ≠ 0 ∧ pMat ≠ 0 ∧ recording = true then
        ⟨pMesh, pMat, matPosition⟩ :: acceptedSubmissions recording rest
      else acceptedSubmissions recording rest
  | recording, _ :: rest => acceptedSubmissions recording rest

/-- The calls made since the most recent `BeginFrame` of a sequence; `none` when the
sequence holds no `BeginFrame`. -/
def sinceLastBeginFrame : List Call → Option (List Call)
  | [] => none
  | c :: rest =>
    match sinceLastBeginFrame rest with
    | some tail => some tail
    | none => if c = Call.BeginFrame then some rest else none

/-- The five direct graphics-API calls with which `EndFrame` draws the fullscreen plane. -/
def compositeDraw (heap : Heap) (r : Renderer) : List Cmd :=
  [Cmd.gl (GLCall.glEnableVertexAttribArray 0),
   Cmd.gl (GLCall.glBindBuffer (heap.mesh r.m_pPlane).m_vboVertices),
   Cmd.gl (GLCall.glVertexAttribPointer 0 3 (heap.mesh r.m_pPlane).m_iStride
     (heap.mesh r.m_pPlane).m_iOffPos),
   Cmd.gl (GLCall.glDrawArrays 0 ((heap.mesh r.m_pPlane).m_iNumTris * 3)),
   Cmd.gl (GLCall.glDisableVertexAttribArray 0)]

/-- Whether a command is a direct `glDrawArrays` call. -/
def isDirectDraw : Cmd → Bool
  | Cmd.gl (GLCall.glDrawArrays _ _) => true
  | _ => false

/-! ## Input streams (`std::istream`) -/

/-- A `std::ifstream`: the bytes not yet read, and whether no read has failed so far. -/
structure IStream where
  bytes : List Nat
  good : Bool
deriving DecidableEq, Repr

/-- The constructor `std::ifstream in(path)`: `file` is the content of the file at `path`, or
`none` when the file cannot be opened. -/
def ifstream (file : Option (List Nat)) : IStream :=
  match file with
  | some bytes => ⟨bytes, true⟩
  | none => ⟨[], false⟩

/-- The call `in.get()`: the next byte, or `EOF = -1` (the stream failing from then on) when
there is none or the stream has failed before. -/
def IStream.get (s : IStream) : Int × IStream :=
  if s.good then
    match s.bytes with
    | b :: rest => ((b : Int), ⟨rest, true⟩)
    | [] => (-1, ⟨[], false⟩)
  else (-1, s)

/-- The call `in.read(buf, num)` on a destination holding `buf`: the first bytes of `buf`
are overwritten with up to `num` bytes of the stream; with fewer than `num` bytes left the
stream fails, and a failed stream leaves `buf` as it is. -/
def IStream.read (s : IStream) (buf : List Nat) (num : Nat) : List Nat × IStream :=
  if s.good then
    ((s.bytes.take num) ++ buf.drop (s.bytes.take num).length,
      ⟨s.bytes.drop num, decide (num ≤ s.bytes.length)⟩)
  else (buf, s)

/-- The content of an uninitialised object of `n` bytes; `uninit k` is whatever byte the
memory holds at offset `k`. It is only ever seen when a read comes up short. -/
def freshBytes (uninit : Nat → Nat) (n : Nat) : List Nat :=
  (List.range n).map (fun k => uninit k % 256)

/-- The local `uint32_t ret` of `readU32` before the read: the locals of the four read
functions are four objects, each with a content of its own (offsets 0 to 3 of `uninit`). -/
def readU32_ret (uninit : Nat → Nat) : List Nat :=
  freshBytes uninit 4

/-- The local `float ret` of `readF32` before the read (offsets 4 to 7 of `uninit`). -/
def readF32_ret (uninit : Nat → Nat) : List Nat :=
  freshBytes (fun k => uninit (4 + k)) 4

/-- The local `double ret` of `readF64` before the read (offsets 8 to 15 of `uninit`). -/
def readF64_ret (uninit : Nat → Nat) : List Nat :=
  freshBytes (fun k => uninit (8 + k)) 8

/-- The local `glm::mat4 ret` of `readM44` before the read, that is what the default
constructor of `glm::mat4` leaves in it (offsets 16 to 79 of `uninit`). -/
def readM44_ret (uninit : Nat → Nat) : List Nat :=
  freshBytes (fun k => uninit (16 + k)) 64

/-- The number held, little-endian, in a list of bytes. -/
def leValue : List Nat → Nat
  | [] => 0
  | b :: rest => b + 256 * leValue rest

/-- The 4-byte words held in a list of bytes. -/
def leWords : List Nat → List Nat
  | b0 :: b1 :: b2 :: b3 :: rest => leValue [b0, b1, b2, b3] :: leWords rest
  | _ => []

/-- The function `readU8`: `in.get()` converted to `uint8_t`. -/
def readU8 (s : IStream) : Nat × IStream :=
  ((s.get.1 % 256).toNat, s.get.2)

/-- The function `readU32`. -/
def readU32 (uninit : Nat → Nat) (s : IStream) : Nat × IStream :=
  (leValue (s.read (readU32_ret uninit) 4).1, (s.read (readU32_ret uninit) 4).2)

/-- The function `readF32`: the float is carried as its bit pattern. -/
def readF32 (uninit : Nat → Nat) (s : IStream) : F32 × IStream :=
  (leValue (s.read (readF32_ret uninit) 4).1, (s.read (readF32_ret uninit) 4).2)

/-- The function `readF64`: the double is carried as its bit pattern. -/
def readF64 (uninit : Nat → Nat) (s : IStream) : F64 × IStream :=
  (leValue (s.read (readF64_ret uninit) 8).1, (s.read (readF64_ret uninit) 8).2)

/-- The function `readBytes`. -/
def readBytes (s : IStream) (buf : List Nat) (num : Nat) : List Nat × IStream :=
  s.read buf num

/-- The function `readM44`: 64 bytes read over a local `glm::mat4`, whose prior content only
shows when the read comes up short. -/
def readM44 (uninit : Nat → Nat) (s : IStream) : Mat4 × IStream :=
  (leWords (readBytes s (readM44_ret uninit) (16 * 4)).1,
    (readBytes s (readM44_ret uninit) (16 * 4)).2)

/-! ## Skeletons -/

/-- Four floats addressed by index, as in `b.localRot[0] .. b.localRot[3]`. -/
structure Vec4 where
  c0 : F32
  c1 : F32
  c2 : F32
  c3 : F32
deriving DecidableEq, Repr

/-- The fields of `Bone` that `LoadSkeleton` fills. -/
structure Bone where
  id : Nat
  localPos : Vec3
  localRot : Vec4
  invTransform : Mat4
  name : List Nat
  childIds : List Nat
deriving DecidableEq, Repr

/-- The type `Skeleton`. -/
structure Skeleton where
  bones : List Bone
deriving DecidableEq, Repr

/-- The inner loop of `LoadSkeleton`: `n` more child ids are read and pushed. -/
def LoadSkeleton_childLoop : Nat → IStream → List Nat → List Nat × IStream
  | 0, s, childIds => (childIds, s)
  | n + 1, s, childIds => LoadSkeleton_childLoop n (readU8 s).2 (childIds ++ [(readU8 s).1])

/-- The body of the outer loop of `LoadSkeleton`: one bone is read. -/
def LoadSkeleton_bone (uninit : Nat → Nat) (s0 : IStream) : Bone × IStream :=
  let id := readU8 s0
  let px := readF32 uninit id.2
  let py := readF32 uninit px.2
  let pz := readF32 uninit py.2
  let r0 := readF32 uninit pz.2
  let r1 := readF32 uninit r0.2
  let r2 := readF32 uninit r1.2
  let r3 := readF32 uninit r2.2
  let inv := readM44 uninit r3.2
  let len := readU8 inv.2
  let name := readBytes len.2 (List.replicate len.1 32) len.1
  let numChildren := readU8 name.2
  let children := LoadSkeleton_childLoop numChildren.1 numChildren.2 []
  ({ id := id.1, localPos := ⟨px.1, py.1, pz.1⟩, localRot := ⟨r0.1, r1.1, r2.1, r3.1⟩,
     invTransform := inv.1, name := name.1, childIds := children.1 }, children.2)

/-- The outer loop of `LoadSkeleton`: `n` more bones are read and pushed. -/
def LoadSkeleton_boneLoop (uninit : Nat → Nat) : Nat → IStream → List Bone → List Bone × IStream
  | 0, s, bones => (bones, s)
  | n + 1, s, bones =>
      LoadSkeleton_boneLoop uninit n (LoadSkeleton_bone uninit s).2
        (bones ++ [(LoadSkeleton_bone uninit s).1])

/-- The method `Loader::LoadSkeleton`; `none` is the null result. -/
def LoadSkeleton (uninit : Nat → Nat) (file : Option (List Nat)) : Option Skeleton :=
  let s := ifstream file
  if !s.good then none
  else
    let boneCount := readU32 uninit s
    some ⟨(LoadSkeleton_boneLoop uninit boneCount.1 boneCount.2 []).1⟩

/-- A number as 4 little-endian bytes. -/
def u32le (v : Nat) : List Nat :=
  [v % 256, v / 256 % 256, v / 65536 % 256, v / 16777216 % 256]

/-- A number as 8 little-endian bytes. -/
def u64le (v : Nat) : List Nat :=
  u32le (v % 4294967296) ++ u32le (v / 4294967296)

/-- The documented layout of one bone: 1-byte id, 3 + 4 floats, 16 matrix entries, 1-byte name
length and the name, 1-byte child count and the child ids. -/
def encodeBone (b : Bone) : List Nat :=
  [b.id] ++ u32le b.localPos.x ++ u32le b.localPos.y ++ u32le b.localPos.z
    ++ u32le b.localRot.c0 ++ u32le b.localRot.c1 ++ u32le b.localRot.c2 ++ u32le b.localRot.c3
    ++ b.invTransform.flatMap u32le
    ++ [b.name.length] ++ b.name ++ [b.childIds.length] ++ b.childIds

/-- The documented layout of a skeleton file: 4-byte bone count, then the bones. -/
def encodeSkeleton (bones : List Bone) : List Nat :=
  u32le bones.length ++ bones.flatMap encodeBone

/-- A bone whose fields fit the layout: a 1-byte id, 32-bit floats, a matrix of 16 entries,
a name of at most 255 bytes and at most 255 one-byte child ids. -/
def Bone.wf (b : Bone) : Prop :=
  b.id < 256 ∧ b.localPos.x < 2 ^ 32 ∧ b.localPos.y < 2 ^ 32 ∧ b.localPos.z < 2 ^ 32 ∧
  b.localRot.c0 < 2 ^ 32 ∧ b.localRot.c1 < 2 ^ 32 ∧ b.localRot.c2 < 2 ^ 32 ∧
  b.localRot.c3 < 2 ^ 32 ∧
  b.invTransform.length = 16 ∧ (∀ f ∈ b.invTransform, f < 2 ^ 32) ∧
  b.name.length ≤ 255 ∧ (∀ c ∈ b.name, c < 256) ∧
  b.childIds.length ≤ 255 ∧ (∀ c ∈ b.childIds, c < 256)

instance (b : Bone) : Decidable b.wf := by
  unfold Bone.wf
  infer_instance

/-- The identity matrix as 16 floats. -/
def mat4Identity : Mat4 :=
  [f32_1, 0, 0, 0, 0, f32_1, 0, 0, 0, 0, f32_1, 0, 0, 0, 0, f32_1]

/-- A sample root bone named `root`, with the single child 1. -/
def sampleBone0 : Bone where
  id := 0
  localPos := ⟨0, 0, 0⟩
  localRot := ⟨0, 0, 0, f32_1⟩
  invTransform := mat4Identity
  name := [114, 111, 111, 116]
  childIds := [1]

/-- A sample leaf bone named `arm`, at height `1.0f`, without children. -/
def sampleBone1 : Bone where
  id := 1
  localPos := ⟨0, f32_1, 0⟩
  localRot := ⟨0, 0, 0, f32_1⟩
  invTransform := mat4Identity
  name := [97, 114, 109]
  childIds := []

/-- The hand-built skeleton file of the two sample bones, byte by byte. -/
def sampleSkeletonBytes : List Nat :=
    [2, 0, 0, 0, 0, 0, 0, 0, 0, 0, 0, 0, 0, 0, 0, 0, 0, 0, 0, 0,
     0, 0, 0, 0, 0, 0, 0, 0, 0, 0, 0, 128, 63, 0, 0, 128, 63, 0, 0, 0,
     0, 0, 0, 0, 0, 0, 0, 0, 0, 0, 0, 0, 0, 0, 0, 128, 63, 0, 0, 0,
     0, 0, 0, 0, 0, 0, 0, 0, 0, 0, 0, 0, 0, 0, 0, 128, 63, 0, 0, 0,
     0, 0, 0, 0, 0, 0, 0, 0, 0, 0, 0, 0, 0, 0, 0, 128, 63, 4, 114, 111,
     111, 116, 1, 1, 1, 0, 0, 0, 0, 0, 0, 128, 63, 0, 0, 0, 0, 0, 0, 0,
     0, 0, 0, 0, 0, 0, 0, 0, 0, 0, 0, 128, 63, 0, 0, 128, 63, 0, 0, 0,
     0, 0, 0, 0, 0, 0, 0, 0, 0, 0, 0, 0, 0, 0, 0, 128, 63, 0, 0, 0,
     0, 0, 0, 0, 0, 0, 0, 0, 0, 0, 0, 0, 0, 0, 0, 128, 63, 0, 0, 0,
     0, 0, 0, 0, 0, 0, 0, 0, 0, 0, 0, 0, 0, 0, 0, 128, 63, 3, 97, 114,
     109, 0]

/-! ## Baked meshes -/

/-- The conversion of a `uint8_t` to `char` (8 bits, signed). -/
def toChar (b : Nat) : Int :=
  if b % 256 < 128 then ((b % 256 : Nat) : Int) else ((b % 256 : Nat) : Int) - 256

/-- The 32-bit two's complement pattern of an `int`, on which `&` works bit by bit. -/
def intBits (v : Int) : Nat := (v % 4294967296).toNat

/-- The size `sizeof(GLfloat)`. -/
def sizeofGLfloat : Nat := 4

/-- The size `sizeof(GLuint)`. -/
def sizeofGLuint : Nat := 4

/-- What `LoadBakedStaticMesh` builds: the layout fields of the `StaticMesh`, the bytes handed
to `glBufferData` for the vertex and the index buffer, and the attribute pointers set up.
The object names handed out by the driver are not modelled. -/
structure StaticMesh where
  m_iNumTris : Nat
  m_iNumIndices : Nat
  m_iStride : Nat
  m_iOffPos : Nat
  m_iOffNormal : Nat
  m_iOffUV : Nat
  vertexBuffer : List Nat
  indexBuffer : List Nat
  attribs : List GLCall
deriving DecidableEq, Repr

/-- What `LoadAnimatedMesh` builds, as for `StaticMesh`. -/
structure AnimatedMesh where
  m_iNumTris : Nat
  m_iNumIndices : Nat
  m_iStride : Nat
  m_iOffPos : Nat
  m_iOffNormal : Nat
  m_iOffUV : Nat
  m_iOffBoneWeights : Nat
  m_iOffBoneIds : Nat
  vertexBuffer : List Nat
  indexBuffer : List Nat
  attribs : List GLCall
deriving DecidableEq, Repr

/-- The method `Loader::LoadBakedStaticMesh`; `none` is the null result. The vertex vector is
created with `16 * numVerts` floats, `8 * sizeof(GLfloat) * numVerts` bytes are read over it,
and the whole vector is uploaded. -/
def LoadBakedStaticMesh (uninit : Nat → Nat) (file : Option (List Nat)) : Option StaticMesh :=
  let s := ifstream file
  if !s.good then none
  else
    let flags := readU8 s
    if intBits (toChar flags.1) &&& 1 ≠ 0 then none
    else
      let numVerts := readU32 uninit flags.2
      let numIndices := readU32 uninit numVerts.2
      let vertexData := readBytes numIndices.2
        (List.replicate (16 * numVerts.1 * sizeofGLfloat) 0) (8 * sizeofGLfloat * numVerts.1)
      let indexData := readBytes vertexData.2
        (List.replicate (numIndices.1 * sizeofGLuint) 0) (4 * numIndices.1)
      some
        { m_iNumTris := numVerts.1 / 3
          m_iNumIndices := numIndices.1
          m_iStride := 8 * sizeofGLfloat
          m_iOffPos := 0 * sizeofGLfloat
          m_iOffNormal := 3 * sizeofGLfloat
          m_iOffUV := 6 * sizeofGLfloat
          vertexBuffer := vertexData.1
          indexBuffer := indexData.1
          attribs :=
            [GLCall.glVertexAttribPointer 0 3 (8 * sizeofGLfloat) (0 * sizeofGLfloat),
             GLCall.glVertexAttribPointer 1 2 (8 * sizeofGLfloat) (6 * sizeofGLfloat),
             GLCall.glVertexAttribPointer 2 3 (8 * sizeofGLfloat) (3 * sizeofGLfloat)] }

/-- The method `Loader::LoadAnimatedMesh`; `none` is the null result. Its flag test is
`!flags & 1`, in which `!flags` is 1 for a zero flag byte and 0 otherwise. -/
def LoadAnimatedMesh (uninit : Nat → Nat) (file : Option (List Nat)) : Option AnimatedMesh :=
  let s := ifstream file
  if !s.good then none
  else
    let flags := readU8 s
    let notFlags : Int := if toChar flags.1 = 0 then 1 else 0
    if intBits notFlags &&& 1 ≠ 0 then none
    else
      let numVerts := readU32 uninit flags.2
      let numIndices := readU32 uninit numVerts.2
      let vertexData := readBytes numIndices.2
        (List.replicate (16 * numVerts.1 * sizeofGLfloat) 0) (16 * sizeofGLfloat * numVerts.1)
      let indexData := readBytes vertexData.2
        (List.replicate (numIndices.1 * sizeofGLuint) 0) (4 * numIndices.1)
      some
        { m_iNumTris := numVerts.1 / 3
          m_iNumIndices := numIndices.1
          m_iStride := 16 * sizeofGLfloat
          m_iOffPos := 0 * sizeofGLfloat
          m_iOffNormal := 3 * sizeofGLfloat
          m_iOffUV := 6 * sizeofGLfloat
          m_iOffBoneWeights := 8 * sizeofGLfloat
          m_iOffBoneIds := 12 * sizeofGLfloat
          vertexBuffer := vertexData.1
          indexBuffer := indexData.1
          attribs :=
            [GLCall.glVertexAttribPointer 0 3 (16 * sizeofGLfloat) (0 * sizeofGLfloat),
             GLCall.glVertexAttribPointer 1 3 (16 * sizeofGLfloat) (3 * sizeofGLfloat),
             GLCall.glVertexAttribPointer 2 2 (16 * sizeofGLfloat) (6 * sizeofGLfloat),
             GLCall.glVertexAttribPointer 3 4 (16 * sizeofGLfloat) (8 * sizeofGLfloat),
             GLCall.glVertexAttribPointer 4 4 (16 * sizeofGLfloat) (12 * sizeofGLfloat)] }

/-- A baked file with flag byte 2 (bit 0 clear), no vertices and no indices. -/
def sampleStaticFile : List Nat := [2, 0, 0, 0, 0, 0, 0, 0, 0]

/-- A baked file with flag byte 1 (bit 0 set), no vertices and no indices. -/
def sampleSkinnedFile : List Nat := [1, 0, 0, 0, 0, 0, 0, 0, 0]

/-! ## Animations -/

/-- Whether a double is a NaN: exponent all ones and a non-zero fraction. -/
def f64IsNaN (x : Nat) : Bool :=
  decide (x / 2 ^ 52 % 2048 = 2047 ∧ x % 2 ^ 52 ≠ 0)

/-- The place of a double that is not a NaN in the order of the doubles: its magnitude
bits, negated when the sign bit is set. Both zeros have place 0, and the order of the places
is the order of the values. -/
def f64Key (x : Nat) : Int :=
  if x / 2 ^ 63 % 2 = 1 then -((x % 2 ^ 63 : Nat) : Int) else ((x % 2 ^ 63 : Nat) : Int)

/-- The comparison `a < b` of doubles; false when either is a NaN. -/
def f64Lt (a b : Nat) : Bool :=
  !f64IsNaN a && !f64IsNaN b && decide (f64Key a < f64Key b)

/-- The comparison `a <= b` of doubles; false when either is a NaN. -/
def f64Le (a b : Nat) : Bool :=
  !f64IsNaN a && !f64IsNaN b && decide (f64Key a ≤ f64Key b)

/-- The comparison `a == b` of doubles; false when either is a NaN. -/
def f64Eq (a b : Nat) : Bool :=
  !f64IsNaN a && !f64IsNaN b && decide (f64Key a = f64Key b)

/-- The function `std::max` on doubles: `(a < b) ? b : a`. -/
def std_max (a b : Nat) : Nat := if f64Lt a b then b else a

/-- A double with clear sign bit that is not a NaN. -/
def f64Plain (d : Nat) : Prop := d < 2 ^ 63 ∧ f64IsNaN d = false

/-- The type `glm::quat`, by field name. -/
structure Quat where
  x : F32
  y : F32
  z : F32
  w : F32
deriving DecidableEq, Repr

/-- The type `Keyframe`. -/
structure Keyframe where
  time : F64
  position : Vec3
  rotation : Quat
deriving DecidableEq, Repr

/-- The type `AnimationChannel`. -/
structure AnimationChannel where
  boneId : Nat
  keyframes : List Keyframe
deriving DecidableEq, Repr

/-- The fields of `Animation` that `LoadAnimation` fills. -/
structure Animation where
  m_duration : F64
  m_channels : List AnimationChannel
deriving DecidableEq, Repr

/-- The reads of one pass of the keyframe loop of `LoadAnimation`. -/
def LoadAnimation_keyframe (uninit : Nat → Nat) (s0 : IStream) : Keyframe × IStream :=
  let time := readF64 uninit s0
  let px := readF32 uninit time.2
  let py := readF32 uninit px.2
  let pz := readF32 uninit py.2
  let rx := readF32 uninit pz.2
  let ry := readF32 uninit rx.2
  let rz := readF32 uninit ry.2
  let rw := readF32 uninit rz.2
  ({ time := time.1, position := ⟨px.1, py.1, pz.1⟩, rotation := ⟨rx.1, ry.1, rz.1, rw.1⟩ },
    rw.2)

/-- The keyframe loop of `LoadAnimation`: `n` more keyframes are read; each one updates the
duration of the animation with `std::max` and is pushed to the channel. -/
def LoadAnimation_keyLoop (uninit : Nat → Nat) :
    Nat → IStream → F64 → List Keyframe → (F64 × List Keyframe) × IStream
  | 0, s, duration, keyframes => ((duration, keyframes), s)
  | n + 1, s, duration, keyframes =>
      LoadAnimation_keyLoop uninit n (LoadAnimation_keyframe uninit s).2
        (std_max duration (LoadAnimation_keyframe uninit s).1.time)
        (keyframes ++ [(LoadAnimation_keyframe uninit s).1])

/-- One pass of the channel loop of `LoadAnimation`. -/
def LoadAnimation_channel (uninit : Nat → Nat) (s0 : IStream) (anim : Animation) :
    Animation × IStream :=
  let boneId := readU8 s0
  let numKeys := readU32 uninit boneId.2
  let keys := LoadAnimation_keyLoop uninit numKeys.1 numKeys.2 anim.m_duration []
  ({ m_duration := keys.1.1, m_channels := anim.m_channels ++ [⟨boneId.1, keys.1.2⟩] }, keys.2)

/-- The channel loop of `LoadAnimation`: `n` more channels are read and pushed. -/
def LoadAnimation_channelLoop (uninit : Nat → Nat) :
    Nat → IStream → Animation → Animation × IStream
  | 0, s, anim => (anim, s)
  | n + 1, s, anim =>
      LoadAnimation_channelLoop uninit n (LoadAnimation_channel uninit s anim).2
        (LoadAnimation_channel uninit s anim).1

/-- The method `Loader::LoadAnimation`; `none` is the null result. `durationInit` is the
duration that the constructor `Animation()` leaves in a new animation (`Animation.hpp` is not
part of the sources at hand). -/
def LoadAnimation (uninit : Nat → Nat) (durationInit : F64) (file : Option (List Nat)) :
    Option Animation :=
  let s := ifstream file
  if !s.good then none
  else
    let numChannels := readU32 uninit s
    some (LoadAnimation_channelLoop uninit numChannels.1 numChannels.2 ⟨durationInit, []⟩).1

/-- The documented layout of a keyframe: 8-byte time, 3 + 4 floats. -/
def encodeKeyframe (k : Keyframe) : List Nat :=
  u64le k.time ++ u32le k.position.x ++ u32le k.position.y ++ u32le k.position.z
    ++ u32le k.rotation.x ++ u32le k.rotation.y ++ u32le k.rotation.z ++ u32le k.rotation.w

/-- The documented layout of a channel: 1-byte bone id, 4-byte keyframe count, keyframes. -/
def encodeChannel (c : AnimationChannel) : List Nat :=
  [c.boneId] ++ u32le c.keyframes.length ++ c.keyframes.flatMap encodeKeyframe

/-- The documented layout of an animation file: 4-byte channel count, then the channels. -/
def encodeAnimation (channels : List AnimationChannel) : List Nat :=
  u32le channels.length ++ channels.flatMap encodeChannel

/-- A keyframe whose fields fit the layout. -/
def Keyframe.wf (k : Keyframe) : Prop :=
  k.time < 2 ^ 64 ∧ k.position.x < 2 ^ 32 ∧ k.position.y < 2 ^ 32 ∧ k.position.z < 2 ^ 32 ∧
  k.rotation.x < 2 ^ 32 ∧ k.rotation.y < 2 ^ 32 ∧ k.rotation.z < 2 ^ 32 ∧ k.rotation.w < 2 ^ 32

instance (k : Keyframe) : Decidable k.wf := by
  unfold Keyframe.wf
  infer_instance

/-- A channel that fits the layout: 1-byte bone id, fewer than `2^32` keyframes. -/
def AnimationChannel.wf (c : AnimationChannel) : Prop :=
  c.boneId < 256 ∧ c.keyframes.length < 2 ^ 32 ∧ ∀ k ∈ c.keyframes, k.wf

instance (c : AnimationChannel) : Decidable c.wf := by
  unfold AnimationChannel.wf
  infer_instance

/-- The times of all keyframes of all channels, in file order. -/
def allTimes (channels : List AnimationChannel) : List F64 :=
  channels.flatMap (fun c => c.keyframes.map Keyframe.time)

/-- The double `1.5`. -/
def f64_1_5 : F64 := 0x3FF8000000000000

/-- The double `3.2`. -/
def f64_3_2 : F64 := 0x400999999999999A

/-- The double `0.5`. -/
def f64_0_5 : F64 := 0x3FE0000000000000

/-- A sample channel with keyframes at the times 0.0, 1.5 and 3.2. -/
def sampleChannel0 : AnimationChannel where
  boneId := 0
  keyframes := [⟨0, ⟨0, 0, 0⟩, ⟨0, 0, 0, f32_1⟩⟩, ⟨f64_1_5, ⟨0, f32_1, 0⟩, ⟨0, 0, 0, f32_1⟩⟩,
    ⟨f64_3_2, ⟨0, 0, 0⟩, ⟨0, 0, 0, f32_1⟩⟩]

/-- A sample channel with a single keyframe at the time 0.5. -/
def sampleChannel1 : AnimationChannel where
  boneId := 1
  keyframes := [⟨f64_0_5, ⟨f32_1, 0, 0⟩, ⟨0, 0, 0, f32_1⟩⟩]

/-! ## Textures: the row inversion of `LoadTexture` -/

/-- The call `memcpy(dst + off, src, n)` on a destination holding `dst`; `none` when the copy
would leave the destination or the source (undefined behaviour). -/
def memcpy (dst : List Nat) (off : Nat) (src : List Nat) (n : Nat) : Option (List Nat) :=
  if off + n ≤ dst.length ∧ n ≤ src.length then
    some (dst.take off ++ src.take n ++ dst.drop (off + n))
  else none

/-- The loop `for (unsigned int i = 0; i < height; i++) memcpy(...)` of `LoadTexture`, with
`n` passes left and the counter at `i`. The offset `bytesPerRow * (height-1-i)` is computed in
`unsigned int`, that is modulo `2^32`. -/
def LoadTexture_rowLoop (bytesPerRow height : Nat) (rowPointers : List (List Nat)) :
    Nat → Nat → List Nat → Option (List Nat)
  | 0, _, data => some data
  | n + 1, i, data =>
    (rowPointers[i]?).bind fun row =>
      (memcpy data (bytesPerRow * (height - 1 - i) % 2 ^ 32) row bytesPerRow).bind fun data' =>
        LoadTexture_rowLoop bytesPerRow height rowPointers n (i + 1) data'

/-- The pixel buffer that `LoadTexture` builds from the decoded image: `height` and
`bytesPerRow` are what `png_get_IHDR` and `png_get_rowbytes` report (both `unsigned int`),
`rowPointers` are the rows that `png_get_rows` returns. The vector is created with
`bytesPerRow*height` bytes, a product computed in `unsigned int`, that is modulo `2^32`. -/
def LoadTexture_pixels (bytesPerRow height : Nat) (rowPointers : List (List Nat)) :
    Option (List Nat) :=
  LoadTexture_rowLoop bytesPerRow height rowPointers height 0
    (List.replicate (bytesPerRow * height % 2 ^ 32) 0)

/-- The bytes of row `k` of a buffer whose rows hold `bytesPerRow` bytes. -/
def bufferRow (bytesPerRow : Nat) (data : List Nat) (k : Nat) : List Nat :=
  (data.drop (bytesPerRow * k)).take bytesPerRow

/-- A sample decoded image of 2 pixels by 3 rows (6 bytes per row). -/
def sampleImage : List (List Nat) :=
  [[1, 2, 3, 4, 5, 6], [7, 8, 9, 10, 11, 12], [13, 14, 15, 16, 17, 18]]

/-- A decoded image of 1000000 pixels by 1432 rows (3000000 bytes per row), all black. -/
def hugeImage : List (List Nat) :=
  List.replicate 1432 (List.replicate 3000000 0)

/-! ## The loader: caches, objects and the outside world -/

/-- The type `std::unordered_map<std::string, T*>` of the loader's caches, as the list of
its entries. -/
abbrev PtrMap := List (String × Ptr)

/-- The lookup `m.find(key)`: the pointer stored under `key`, or `none` for `m.end()`. -/
def cacheFind : PtrMap → String → Option Ptr
  | [], _ => none
  | (k, v) :: rest, key => if k = key then some v else cacheFind rest key

/-- The assignment `m[key] = value`: the entry of `key` is overwritten, or created. -/
def cacheAssign : PtrMap → String → Ptr → PtrMap
  | [], key, value => [(key, value)]
  | (k, v) :: rest, key, value =>
      if k = key then (k, value) :: rest else (k, v) :: cacheAssign rest key value

/-- The values of `enum TextureFormat` that `LoadTexture` names. -/
inductive TextureFormat
  | Color
  | Normal
  | Map
deriving DecidableEq, Repr

/-- The internal formats that `LoadTexture` hands to `glTexImage2D`. -/
inductive GLenum
  | GL_SRGB8
  | GL_RGB8
  | GL_R8
deriving DecidableEq, Repr

/-- What `LoadTexture` builds: the fields `m_width` and `m_height` of the `Texture`, and the
image handed to `glTexImage2D` (internal format, width, height, pixel data). The texture name
handed out by the driver is not modelled. -/
structure LoadedTexture where
  m_width : Nat
  m_height : Nat
  internalFormat : GLenum
  imageWidth : Nat
  imageHeight : Nat
  pixels : List Nat
deriving DecidableEq, Repr

/-- The fields of `StaticModel`: the meshes and the materials, as pointers. -/
structure StaticModel where
  m_meshes : List Ptr
  m_materials : List Ptr
deriving DecidableEq, Repr

/-- An object created by the loader with `new`. -/
inductive Obj
  | texture (t : LoadedTexture)
  | staticMesh (m : StaticMesh)
  | material (m : Material)
  | staticModel (m : StaticModel)
deriving DecidableEq, Repr

/-- The state of a `Loader`: its three caches, and the objects it has created with `new`.
Nothing is deleted before the loader is, so `new` is modelled as handing out the addresses
1, 2, 3, ... in turn: the object at address `k + 1` is `objects[k]`. -/
structure Loader where
  m_textures : PtrMap
  m_staticModels : PtrMap
  m_animatedModels : PtrMap
  objects : List Obj
deriving DecidableEq, Repr

/-- The constructor `Loader::Loader()`. -/
def Loader.init : Loader := ⟨[], [], [], []⟩

/-- The expression `new T(...)`: the address of the new object, and the loader that holds it. -/
def Loader.alloc (l : Loader) (o : Obj) : Ptr × Loader :=
  (l.objects.length + 1, { l with objects := l.objects ++ [o] })

/-- The object at an address, if there is one. -/
def Loader.deref (l : Loader) (p : Ptr) : Option Obj :=
  if p = 0 then none else l.objects[p - 1]?

/-- A change made to the `StaticModel` at address `p`. -/
def Loader.updateModel (l : Loader) (p : Ptr) (f : StaticModel → StaticModel) : Loader :=
  match l.deref p with
  | some (Obj.staticModel m) => { l with objects := l.objects.set (p - 1) (Obj.staticModel (f m)) }
  | _ => l

/-- What `libpng` reports of an image after `png_read_png`: the width and height of
`png_get_IHDR`, the row size of `png_get_rowbytes`, the rows of `png_get_rows`. -/
structure PngImage where
  width : Nat
  height : Nat
  rowbytes : Nat
  rows : List (List Nat)
deriving DecidableEq, Repr

/-- A file that `fopen` opens, as `LoadTexture` gets to see it: whether
`png_create_read_struct` and `png_create_info_struct` succeed, and the decoded image, `none`
when `libpng` finds an error in the file (it then aborts the program). -/
structure PngFile where
  readStruct : Bool
  infoStruct : Bool
  image : Option PngImage
deriving DecidableEq, Repr

/-- The type `aiMesh` of the scene importer, as far as the loader reads it; `mNumVertices` is
the length of `mVertices`, `mTextureCoords0` is `mTextureCoords[0]` (`none` for a null
pointer), a face is the list of its indices. -/
structure aiMesh where
  mVertices : List Vec3
  mTextureCoords0 : Option (List Vec3)
  mNormals : List Vec3
  mFaces : List (List Nat)
  mMaterialIndex : Nat
deriving DecidableEq, Repr

/-- The type `aiMaterial`, as far as the loader reads it: the paths of its textures of type
`aiTextureType_DIFFUSE` and of type `aiTextureType_AMBIENT`. -/
structure aiMaterial where
  diffuse : List String
  ambient : List String
deriving DecidableEq, Repr

/-- The type `aiNode`: the indices of its meshes, and its children. -/
inductive aiNode where
  | mk (mMeshes : List Nat) (mChildren : List aiNode)

/-- The type `aiScene`; `mRootNode` is `none` for a null pointer. -/
structure aiScene where
  mFlags : Nat
  mRootNode : Option aiNode
  mMeshes : List aiMesh
  mMaterials : List aiMaterial

/-- The flag `AI_SCENE_FLAGS_INCOMPLETE`. -/
def AI_SCENE_FLAGS_INCOMPLETE : Nat := 1

/-- The outside world of the loader: what `fopen` finds at a path (`none` when the file cannot
be opened), and what `Assimp::Importer::ReadFile` returns for a path (`none` for a null
scene). -/
structure World where
  fopen : String → Option PngFile
  ReadFile : String → Option aiScene

/-- The calls by which the loader reaches the outside world. -/
inductive Event
  | fopen (path : String)
  | png_read_png (path : String)
  | ReadFile (path : String)
deriving DecidableEq, Repr

/-- What a call of the loader leaves behind: the pointer returned (0 for `nullptr`), the new
state of the loader, and the calls made to the outside world. -/
structure Ret where
  value : Ptr
  loader : Loader
  events : List Event
deriving DecidableEq, Repr

/-- The `switch` of `LoadTexture` that picks the internal format. -/
def LoadTexture_internalFormat : TextureFormat → GLenum
  | TextureFormat.Color => GLenum.GL_SRGB8
  | TextureFormat.Normal => GLenum.GL_RGB8
  | TextureFormat.Map => GLenum.GL_R8

/-- The method `Loader::LoadTexture`. The result is `none` when the call does not return:
`libpng` aborts on a broken file, or the row copy leaves the pixel buffer. -/
def LoadTexture (w : World) (l : Loader) (path : String) (format : TextureFormat) :
    Option Ret :=
  match cacheFind l.m_textures path with
  | some p => some ⟨p, l, []⟩
  | none =>
    match w.fopen path with
    | none => some ⟨0, l, [Event.fopen path]⟩
    | some file =>
      if !file.readStruct then some ⟨0, l, [Event.fopen path]⟩
      else if !file.infoStruct then some ⟨0, l, [Event.fopen path]⟩
      else
        match file.image with
        | none => none
        | some img =>
          (LoadTexture_pixels (img.rowbytes % 2 ^ 32) img.height img.rows).bind fun data =>
            some
              { value := (l.alloc (Obj.texture
                  { m_width := img.width
                    m_height := img.width
                    internalFormat := LoadTexture_internalFormat format
                    imageWidth := img.width
                    imageHeight := img.height
                    pixels := data })).1
                loader :=
                  { (l.alloc (Obj.texture
                      { m_width := img.width
                        m_height := img.width
                        internalFormat := LoadTexture_internalFormat format
                        imageWidth := img.width
                        imageHeight := img.height
                        pixels := data })).2 with
                    m_textures := cacheAssign l.m_textures path (l.objects.length + 1) }
                events := [Event.fopen path, Event.png_read_png path] }

/-- The vector `data` of `LoadStaticMesh`: 8 floats per vertex, position, first UV channel
(zero when the mesh has none) and normal. -/
def LoadStaticMesh_data (mesh : aiMesh) : List F32 :=
  (List.range mesh.mVertices.length).flatMap fun i =>
    [(mesh.mVertices.getD i ⟨0, 0, 0⟩).x, (mesh.mVertices.getD i ⟨0, 0, 0⟩).y,
     (mesh.mVertices.getD i ⟨0, 0, 0⟩).z]
    ++ (match mesh.mTextureCoords0 with
        | some uv => [(uv.getD i ⟨0, 0, 0⟩).x, (uv.getD i ⟨0, 0, 0⟩).y]
        | none => [f32_0, f32_0])
    ++ [(mesh.mNormals.getD i ⟨0, 0, 0⟩).x, (mesh.mNormals.getD i ⟨0, 0, 0⟩).y,
        (mesh.mNormals.getD i ⟨0, 0, 0⟩).z]

/-- The method `Loader::LoadStaticMesh`: the mesh built from an imported mesh. -/
def LoadStaticMesh (mesh : aiMesh) : StaticMesh where
  m_iNumTris := (LoadStaticMesh_data mesh).length / 24
  m_iNumIndices := mesh.mFaces.flatten.length
  m_iStride := 8 * sizeofGLfloat
  m_iOffPos := 0 * sizeofGLfloat
  m_iOffUV := 3 * sizeofGLfloat
  m_iOffNormal := 5 * sizeofGLfloat
  vertexBuffer := (LoadStaticMesh_data mesh).flatMap u32le
  indexBuffer := mesh.mFaces.flatten.flatMap u32le
  attribs :=
    [GLCall.glVertexAttribPointer 0 3 (8 * sizeofGLfloat) (0 * sizeofGLfloat),
     GLCall.glVertexAttribPointer 1 2 (8 * sizeofGLfloat) (3 * sizeofGLfloat),
     GLCall.glVertexAttribPointer 2 3 (8 * sizeofGLfloat) (5 * sizeofGLfloat)]

/-- The texture of a material in `ProcessModelNode`: a null pointer when the material has no
texture of the type asked for, else what `LoadTexture` returns for the first one. -/
def ProcessModelNode_texture (w : World) (l : Loader) (paths : List String)
    (format : TextureFormat) : Option Ret :=
  match paths with
  | [] => some ⟨0, l, []⟩
  | path :: _ => LoadTexture w l path format

/-- One pass of the mesh loop of `ProcessModelNode`, for the mesh index `meshIndex` of the
node; `none` when an index leaves `mMeshes` or `mMaterials`, or a texture load does not
return. -/
def ProcessModelNode_mesh (w : World) (scene : aiScene) (model : Ptr) (meshIndex : Nat)
    (st : Loader × List Event) : Option (Loader × List Event) :=
  (scene.mMeshes[meshIndex]?).bind fun mesh =>
    (scene.mMaterials[mesh.mMaterialIndex]?).bind fun material =>
      (ProcessModelNode_texture w
        (((st.1.alloc (Obj.staticMesh (LoadStaticMesh mesh))).2).updateModel model
          (fun m => { m with m_meshes := m.m_meshes
            ++ [(st.1.alloc (Obj.staticMesh (LoadStaticMesh mesh))).1] }))
        material.diffuse TextureFormat.Color).bind fun lambert =>
        (ProcessModelNode_texture w lambert.loader material.ambient
          TextureFormat.Normal).bind fun normal =>
          some
            (((normal.loader.alloc (Obj.material ⟨lambert.value, normal.value⟩)).2).updateModel
              model (fun m => { m with m_materials := m.m_materials
                ++ [(normal.loader.alloc (Obj.material ⟨lambert.value, normal.value⟩)).1] }),
              st.2 ++ lambert.events ++ normal.events)

/-- The mesh loop of `ProcessModelNode`. -/
def ProcessModelNode_meshLoop (w : World) (scene : aiScene) (model : Ptr) :
    List Nat → Loader × List Event → Option (Loader × List Event)
  | [], st => some st
  | meshIndex :: rest, st =>
      (ProcessModelNode_mesh w scene model meshIndex st).bind
        (ProcessModelNode_meshLoop w scene model rest)

mutual
/-- The method `Loader::ProcessModelNode`: the meshes of the node, then its children. -/
def ProcessModelNode (w : World) (scene : aiScene) (model : Ptr) :
    aiNode → Loader × List Event → Option (Loader × List Event)
  | aiNode.mk mMeshes mChildren, st =>
    match ProcessModelNode_meshLoop w scene model mMeshes st with
    | none => none
    | some st1 => ProcessModelNode_children w scene model mChildren st1
/-- The loop of `ProcessModelNode` over the children of a node. -/
def ProcessModelNode_children (w : World) (scene : aiScene) (model : Ptr) :
    List aiNode → Loader × List Event → Option (Loader × List Event)
  | [], st => some st
  | child :: rest, st =>
    match ProcessModelNode w scene model child st with
    | none => none
    | some st1 => ProcessModelNode_children w scene model rest st1
end

/-- The method `Loader::LoadStaticModel`; `none` when the call does not return. -/
def LoadStaticModel (w : World) (l : Loader) (path : String) : Option Ret :=
  match cacheFind l.m_staticModels path with
  | some p => some ⟨p, l, []⟩
  | none =>
    match w.ReadFile path with
    | none => some ⟨0, l, [Event.ReadFile path]⟩
    | some scene =>
      if scene.mFlags &&& AI_SCENE_FLAGS_INCOMPLETE ≠ 0 then
        some ⟨0, l, [Event.ReadFile path]⟩
      else
        match scene.mRootNode with
        | none => some ⟨0, l, [Event.ReadFile path]⟩
        | some root =>
          (ProcessModelNode w scene (l.alloc (Obj.staticModel ⟨[], []⟩)).1 root
            ((l.alloc (Obj.staticModel ⟨[], []⟩)).2, [Event.ReadFile path])).bind fun st =>
            some
              { value := (l.alloc (Obj.staticModel ⟨[], []⟩)).1
                loader := { st.1 with
                  m_staticModels := cacheAssign st.1.m_staticModels path
                    (l.alloc (Obj.staticModel ⟨[], []⟩)).1 }
                events := st.2 }

/-- The method `Loader::LoadAnimatedModel`: not implemented, it returns `nullptr`. -/
def LoadAnimatedModel (l : Loader) (_path : String) : Ret := ⟨0, l, []⟩

/-- A call of one of the caching methods of the loader. -/
inductive LoaderCall
  | LoadTexture (path : String) (format : TextureFormat)
  | LoadStaticModel (path : String)
  | LoadAnimatedModel (path : String)
deriving DecidableEq, Repr

/-- The state of the loader after one call, `none` when the call does not return. -/
def Loader.step (w : World) (l : Loader) : LoaderCall → Option Loader
  | LoaderCall.LoadTexture path format => (LoadTexture w l path format).map Ret.loader
  | LoaderCall.LoadStaticModel path => (LoadStaticModel w l path).map Ret.loader
  | LoaderCall.LoadAnimatedModel path => some (LoadAnimatedModel l path).loader

/-- The state of the loader after a sequence of calls. -/
def Loader.run (w : World) : Loader → List LoaderCall → Option Loader
  | l, [] => some l
  | l, c :: rest => (Loader.step w l c).bind fun l1 => Loader.run w l1 rest

/-- The paths under which a cache holds an entry. -/
def cacheKeys (m : PtrMap) : List String := m.map Prod.fst

/-- What holds of the model cache of a loader however it has been used: a cached pointer is
the address of an object the loader has created, and two paths never share a pointer. -/
def Loader.modelsOk (l : Loader) : Prop :=
  (∀ path p, cacheFind l.m_staticModels path = some p → 0 < p ∧ p ≤ l.objects.length) ∧
  (∀ path1 path2 p, cacheFind l.m_staticModels path1 = some p →
    cacheFind l.m_staticModels path2 = some p → path1 = path2)

/-- Every pointer of the texture cache is the address of a texture. -/
def Loader.texturesOk (l : Loader) : Prop :=
  ∀ path p, cacheFind l.m_textures path = some p → ∃ t, l.deref p = some (Obj.texture t)

/-- The state `l2` is a later state of `l1` as far as texture loads can tell: the model cache
is the same, every texture cached is still cached under its path, no path has got a second
entry, no object has gone, the textures are unchanged, and cached pointers still refer to
textures. -/
def Loader.texLe (l1 l2 : Loader) : Prop :=
  l2.m_staticModels = l1.m_staticModels ∧
  (∀ path p, cacheFind l1.m_textures path = some p → cacheFind l2.m_textures path = some p) ∧
  ((cacheKeys l1.m_textures).Nodup → (cacheKeys l2.m_textures).Nodup) ∧
  l1.objects.length ≤ l2.objects.length ∧
  (∀ p t, l1.deref p = some (Obj.texture t) → l2.deref p = some (Obj.texture t)) ∧
  (l1.texturesOk → l2.texturesOk)

/-- The state `l2` is a later state of `l1`: what either cache held it still holds under the
same path, and the textures created are still there, unchanged. -/
def Loader.le (l1 l2 : Loader) : Prop :=
  (∀ path p, cacheFind l1.m_textures path = some p → cacheFind l2.m_textures path = some p) ∧
  (∀ path p, cacheFind l1.m_staticModels path = some p →
    cacheFind l2.m_staticModels path = some p) ∧
  (∀ p t, l1.deref p = some (Obj.texture t) → l2.deref p = some (Obj.texture t))

/-- What holds of the caches of a loader however it has been used: the model cache is as
`Loader.modelsOk` says, the texture cache has at most one entry for a path, and its pointers
refer to textures. -/
def Loader.ok (l : Loader) : Prop :=
  l.modelsOk ∧ (cacheKeys l.m_textures).Nodup ∧ l.texturesOk

/-- The path of the sample image. -/
def sampleTexturePath : String := "tall.png"

/-- The path of a sample model. -/
def sampleModelPathA : String := "a.obj"

/-- The path of a second sample model. -/
def sampleModelPathB : String := "b.obj"

/-- A path at which there is no file. -/
def sampleMissingPath : String := "missing.obj"

/-- A sample imported mesh: one triangle, no UV channel. -/
def sampleMesh : aiMesh where
  mVertices := [⟨f32_0, f32_0, f32_0⟩, ⟨f32_1, f32_0, f32_0⟩, ⟨f32_0, f32_1, f32_0⟩]
  mTextureCoords0 := none
  mNormals := [⟨f32_0, f32_0, f32_1⟩, ⟨f32_0, f32_0, f32_1⟩, ⟨f32_0, f32_0, f32_1⟩]
  mFaces := [[0, 1, 2]]
  mMaterialIndex := 0

/-- A sample imported scene: a root node with one mesh and one empty child; the material of
the mesh has the sample image as its diffuse texture and no ambient texture. -/
def sampleScene : aiScene where
  mFlags := 0
  mRootNode := some (aiNode.mk [0] [aiNode.mk [] []])
  mMeshes := [sampleMesh]
  mMaterials := [⟨[sampleTexturePath], []⟩]

/-- A sample outside world: the sample image of 2 pixels by 3 rows at `sampleTexturePath`,
the sample scene at `sampleModelPathA` and at `sampleModelPathB`, and nothing else. -/
def sampleWorld : World where
  fopen path :=
    if path = sampleTexturePath then some ⟨true, true, some ⟨2, 3, 6, sampleImage⟩⟩ else none
  ReadFile path :=
    if path = sampleModelPathA then some sampleScene
    else if path = sampleModelPathB then some sampleScene
    else none

/-- The texture that `LoadTexture` builds of the sample image for the format `Color`. -/
def sampleTexture : LoadedTexture where
  m_width := 2
  m_height := 2
  internalFormat := GLenum.GL_SRGB8
  imageWidth := 2
  imageHeight := 3
  pixels := [13, 14, 15, 16, 17, 18, 7, 8, 9, 10, 11, 12, 1, 2, 3, 4, 5, 6]

/-- The loader after the sample image has been loaded into a new loader. -/
def sampleTextureLoader : Loader where
  m_textures := [(sampleTexturePath, 1)]
  m_staticModels := []
  m_animatedModels := []
  objects := [Obj.texture sampleTexture]

/-- The loader after the sample model A has been loaded into a new loader: the model at
address 1, its mesh at 2, its texture at 3, its material at 4. -/
def sampleModelLoader : Loader where
  m_textures := [(sampleTexturePath, 3)]
  m_staticModels := [(sampleModelPathA, 1)]
  m_animatedModels := []
  objects := [Obj.staticModel ⟨[2], [4]⟩, Obj.staticMesh (LoadStaticMesh sampleMesh),
    Obj.texture sampleTexture, Obj.material ⟨3, 0⟩]

/-- The loader after the sample image and then the sample model A have been loaded into a
new loader: the texture at address 1, the model at 2, its mesh at 3, its material at 4. -/
def sampleLaterLoader : Loader where
  m_textures := [(sampleTexturePath, 1)]
  m_staticModels := [(sampleModelPathA, 2)]
  m_animatedModels := []
  objects := [Obj.texture sampleTexture, Obj.staticModel ⟨[3], [4]⟩,
    Obj.staticMesh (LoadStaticMesh sampleMesh), Obj.material ⟨1, 0⟩]

/-- The loader after the sample models A and B have been loaded into a new loader: the
second model at address 5, its mesh at 6, its material at 7, its texture the one at 3. -/
def sampleTwoModelsLoader : Loader where
  m_textures := [(sampleTexturePath, 3)]
  m_staticModels := [(sampleModelPathA, 1), (sampleModelPathB, 5)]
  m_animatedModels := []
  objects := [Obj.staticModel ⟨[2], [4]⟩, Obj.staticMesh (LoadStaticMesh sampleMesh),
    Obj.texture sampleTexture, Obj.material ⟨3, 0⟩,
    Obj.staticModel ⟨[6], [7]⟩, Obj.staticMesh (LoadStaticMesh sampleMesh),
    Obj.material ⟨3, 0⟩]

/-! ## The generated sphere -/

/-- The floating-point expressions of `GenerateSphere`, left uninterpreted. -/
structure SphereExt where
  /-- The value `2.0 * glm::pi<float>() / numCols`. -/
  colInc : F32
  /-- The value `0.5 * cos(i / glm::pi<float>())`. -/
  ringY : Nat → F32
  /-- The value `glm::sqrt(r * r - y * y)` for `r = 0.5`. -/
  ringWidth : F32 → F32
  /-- The value `sin(j * colInc) * width`. -/
  sinTimes : Nat → F32 → F32 → F32
  /-- The value `cos(j * colInc) * width`. -/
  cosTimes : Nat → F32 → F32 → F32
  /-- The function `glm::normalize` on `glm::vec3`. -/
  normalize : Vec3 → Vec3

/-- The float `0.5f`. -/
def f32_half : F32 := 0x3F000000

/-- The float `-0.5f`. -/
def f32_negHalf : F32 := 0xBF000000

/-- The float `-1.0f`. -/
def f32_neg1 : F32 := 0xBF800000

/-- The constant `numRows` of `GenerateSphere`. -/
def numRows : Nat := 12

/-- The constant `numCols` of `GenerateSphere`. -/
def numCols : Nat := 18

/-- The constant `firstRingBaseIndex` of `GenerateSphere`. -/
def firstRingBaseIndex : Nat := 2

/-- The constant `lastRingBaseIndex` of `GenerateSphere`. -/
def lastRingBaseIndex : Nat := firstRingBaseIndex + (numRows - 2) * numCols

/-- The vector `verts` that `GenerateSphere` fills: the two poles, then for `i` from 1 up to
`numRows - 1` and `j` from 1 up to `numCols` one vertex of 8 floats. -/
def GenerateSphere_verts (ext : SphereExt) : List F32 :=
  [f32_0, f32_half, f32_0, f32_0, f32_0, f32_0, f32_1, f32_0]
  ++ [f32_0, f32_negHalf, f32_0, f32_0, f32_0, f32_0, f32_neg1, f32_0]
  ++ (List.range' 1 (numRows - 0 - 1)).flatMap fun i =>
      (List.range' 1 numCols).flatMap fun j =>
        [ext.sinTimes j ext.colInc (ext.ringWidth (ext.ringY i)),
         ext.ringY i,
         ext.cosTimes j ext.colInc (ext.ringWidth (ext.ringY i)),
         f32_0, f32_0,
         (ext.normalize ⟨ext.sinTimes j ext.colInc (ext.ringWidth (ext.ringY i)), ext.ringY i,
           ext.cosTimes j ext.colInc (ext.ringWidth (ext.ringY i))⟩).x,
         (ext.normalize ⟨ext.sinTimes j ext.colInc (ext.ringWidth (ext.ringY i)), ext.ringY i,
           ext.cosTimes j ext.colInc (ext.ringWidth (ext.ringY i))⟩).y,
         (ext.normalize ⟨ext.sinTimes j ext.colInc (ext.ringWidth (ext.ringY i)), ext.ringY i,
           ext.cosTimes j ext.colInc (ext.ringWidth (ext.ringY i))⟩).z]

/-- The vector `indices` that `GenerateSphere` fills: the fan of the top pole, the bands
between consecutive rings, the fan of the bottom pole. -/
def GenerateSphere_indices : List Nat :=
  ((List.range numCols).flatMap fun i =>
      [0, i + firstRingBaseIndex, (i + 1) % numCols + firstRingBaseIndex])
  ++ ((List.range (numRows - 2)).flatMap fun i =>
      (List.range numCols).flatMap fun j =>
        [j + (firstRingBaseIndex + numCols * (i + 0)),
         j + (firstRingBaseIndex + numCols * (i + 1)),
         (j + 1) % numCols + (firstRingBaseIndex + numCols * (i + 0)),
         (j + 1) % numCols + (firstRingBaseIndex + numCols * (i + 0)),
         j + (firstRingBaseIndex + numCols * (i + 1)),
         (j + 1) % numCols + (firstRingBaseIndex + numCols * (i + 1))])
  ++ ((List.range numCols).flatMap fun i =>
      [1, i + lastRingBaseIndex, (i + 1) % numCols + lastRingBaseIndex])

/-- The method `Loader::GenerateSphere`: the mesh built from `verts` and `indices`. -/
def GenerateSphere (ext : SphereExt) : StaticMesh where
  m_iNumTris := GenerateSphere_indices.length / 3
  m_iNumIndices := GenerateSphere_indices.length
  m_iStride := 8 * sizeofGLfloat
  m_iOffPos := 0 * sizeofGLfloat
  m_iOffUV := 3 * sizeofGLfloat
  m_iOffNormal := 5 * sizeofGLfloat
  vertexBuffer := (GenerateSphere_verts ext).flatMap u32le
  indexBuffer := GenerateSphere_indices.flatMap u32le
  attribs :=
    [GLCall.glVertexAttribPointer 0 3 (8 * sizeofGLfloat) (0 * sizeofGLfloat),
     GLCall.glVertexAttribPointer 1 2 (8 * sizeofGLfloat) (3 * sizeofGLfloat),
     GLCall.glVertexAttribPointer 2 3 (8 * sizeofGLfloat) (5 * sizeofGLfloat)]

/-- A sample bone that names bone 5 as its child. -/
def strayBone : Bone where
  id := 0
  localPos := ⟨0, 0, 0⟩
  localRot := ⟨0, 0, 0, f32_1⟩
  invTransform := mat4Identity
  name := [114, 111, 111, 116]
  childIds := [5]

/-- The skeleton file that holds the single bone `strayBone`, byte by byte. -/
def strayBoneBytes : List Nat :=
    [1, 0, 0, 0, 0, 0, 0, 0, 0, 0, 0, 0, 0, 0, 0, 0, 0, 0, 0, 0,
     0, 0, 0, 0, 0, 0, 0, 0, 0, 0, 0, 128, 63, 0, 0, 128, 63, 0, 0, 0,
     0, 0, 0, 0, 0, 0, 0, 0, 0, 0, 0, 0, 0, 0, 0, 128, 63, 0, 0, 0,
     0, 0, 0, 0, 0, 0, 0, 0, 0, 0, 0, 0, 0, 0, 0, 128, 63, 0, 0, 0,
     0, 0, 0, 0, 0, 0, 0, 0, 0, 0, 0, 0, 0, 0, 0, 128, 63, 4, 114, 111,
     111, 116, 1, 5]

/-- A sample content of uninitialised memory in which the four locals of the read functions
differ: 7 in the `uint32_t` of `readU32`, the bit pattern 32767 in the `float` of `readF32`,
0.5 in the `double` of `readF64` and the identity in the `glm::mat4` of `readM44`. -/
def sampleUninit : Nat → Nat :=
  fun k => (u32le 7 ++ u32le 32767 ++ u64le f64_0_5 ++ mat4Identity.flatMap u32le).getD k 0

/-- The 96 bytes of vertex data of the sample triangle file. -/
def sampleTriangleVertexBytes : List Nat := (List.range 96).map (fun k => k + 1)

/-- A baked static mesh file: flag byte 0, 3 vertices, 3 indices, 3 x 32 bytes of vertex data
and the indices 0, 1, 2. -/
def sampleTriangleFile : List Nat :=
  [0] ++ u32le 3 ++ u32le 3 ++ sampleTriangleVertexBytes ++ (u32le 0 ++ u32le 1 ++ u32le 2)

/-- A sample external library that spells out the expression it is asked to compute: the
product of `a` and `b` is written `30 a b 31`, `perspective` as `20 fovy aspect near far 21`,
`rotate` as `22 m angle axis 23`, `translate` as `24 m v 25`, the identity matrix as `10`. -/
def symbolicExt : Ext where
  perspective := fun a b c d => [20, a, b, c, d, 21]
  rotate := fun m angle axis => [22] ++ m ++ [angle, axis.x, axis.y, axis.z, 23]
  translate := fun m v => [24] ++ m ++ [v.x, v.y, v.z, 25]
  matMul := fun a b => [30] ++ a ++ b ++ [31]
  matIdentity := [10]
  f64Add := fun a _ => a
  f64ToF32 := fun a => a
  intToF32 := fun _ => 0

/-- The call that submits a model. -/
def submit (m : Model) : Call := Call.AddMesh m.mesh m.mat m.pos

/-- The direct graphics-API calls of the fullscreen draw. -/
def compositeGL (heap : Heap) (r : Renderer) : List GLCall :=
  [GLCall.glEnableVertexAttribArray 0,
   GLCall.glBindBuffer (heap.mesh r.m_pPlane).m_vboVertices,
   GLCall.glVertexAttribPointer 0 3 (heap.mesh r.m_pPlane).m_iStride
     (heap.mesh r.m_pPlane).m_iOffPos,
   GLCall.glDrawArrays 0 ((heap.mesh r.m_pPlane).m_iNumTris * 3),
   GLCall.glDisableVertexAttribArray 0]

/-- A sample external library, for concrete instances: every matrix is empty, every
operation returns its first argument. -/
def sampleExt : Ext where
  perspective := fun _ _ _ _ => []
  rotate := fun m _ _ => m
  translate := fun m _ => m
  matMul := fun a _ => a
  matIdentity := []
  f64Add := fun a _ => a
  f64ToF32 := fun a => a
  intToF32 := fun _ => 0

/-- A sample heap, for concrete instances: the plane of `GeneratePlane` at every mesh address. -/
def sampleHeap : Heap where
  mesh := fun _ => ⟨1, 1, 0, 2, 0, 32, 0, 12, 20⟩
  material := fun _ => ⟨0, 0⟩
  texture := fun _ => ⟨0, 0, 0⟩

/-- A sample renderer in the Ready state, for concrete instances. -/
def sampleRenderer : Renderer where
  m_bIsInit := true
  m_bIsMidFrame := false
  m_width := 1280
  m_height := 720
  m_curTime := 0
  m_viewPos := ⟨0, 0, 0⟩
  m_viewYaw := 0
  m_viewTilt := 0
  m_matProjection := []
  m_shdMesh := 1
  m_shdLight := 2
  m_texDiffuse := 1
  m_texNormal := 2
  m_texDepth := 3
  m_FBO := 1
  m_pPlane := 1
  m_models := []

/-! # Theorems -/

/-! ## Renderer: auxiliary facts -/

theorem foldl_snoc_map {α β : Type} (f : α → β) (l : List α) (init : List β) :
    l.foldl (fun acc a => acc ++ [f a]) init = init ++ l.map f := by
  induction l generalizing init with
  | nil => simp
  | cons a l ih => simp [ih]

theorem Renderer.EndFrame_cmds (heap : Heap) (r : Renderer) :
    (Renderer.EndFrame heap r).2 =
      Cmd.SetupGeometryPass :: (r.m_models.map Cmd.DrawModel
        ++ Cmd.SetupLightPass :: compositeDraw heap r) := by
  simp [Renderer.EndFrame, foldl_snoc_map, compositeDraw]

theorem Renderer.EndFrame_state (heap : Heap) (r : Renderer) :
    (Renderer.EndFrame heap r).1 = { r with m_bIsMidFrame := false } := rfl

theorem Renderer.drawnModels_append (a b : List Cmd) :
    Renderer.drawnModels (a ++ b) = Renderer.drawnModels a ++ Renderer.drawnModels b := by
  induction a with
  | nil => rfl
  | cons c a ih => cases c <;> simp [Renderer.drawnModels, ih]

theorem Renderer.drawnModels_map (ms : List Model) :
    Renderer.drawnModels (ms.map Cmd.DrawModel) = ms := by
  induction ms with
  | nil => rfl
  | cons m ms ih => simp [Renderer.drawnModels, ih]

theorem Renderer.drawnModels_EndFrame (heap : Heap) (r : Renderer) :
    Renderer.drawnModels (Renderer.EndFrame heap r).2 = r.m_models := by
  rw [Renderer.EndFrame_cmds]
  simp [Renderer.drawnModels, Renderer.drawnModels_append, Renderer.drawnModels_map,
    compositeDraw]

theorem Renderer.runState_append (ext : Ext) (heap : Heap) (r : Renderer) (a b : List Call) :
    Renderer.runState ext heap r (a ++ b)
      = Renderer.runState ext heap (Renderer.runState ext heap r a) b := by
  simp [Renderer.runState, List.foldl_append]

theorem Renderer.runState_cons (ext : Ext) (heap : Heap) (r : Renderer) (c : Call)
    (cs : List Call) :
    Renderer.runState ext heap r (c :: cs)
      = Renderer.runState ext heap (Renderer.step ext heap r c) cs := rfl

/-- Without a `BeginFrame`, the queue grows by exactly the accepted submissions. -/
theorem Renderer.runState_models (ext : Ext) (heap : Heap) (calls : List Call) :
    ∀ r : Renderer, Call.BeginFrame ∉ calls →
      (Renderer.runState ext heap r calls).m_models
        = r.m_models ++ acceptedSubmissions r.m_bIsMidFrame calls := by
  induction calls with
  | nil => intro r _; simp [Renderer.runState, acceptedSubmissions]
  | cons c cs ih =>
    intro r h
    have hc : c ≠ Call.BeginFrame := fun e => h (by simp [e])
    have hcs : Call.BeginFrame ∉ cs := fun e => h (by simp [e])
    rw [Renderer.runState_cons, ih _ hcs]
    cases c with
    | BeginFrame => exact absurd rfl hc
    | EndFrame => simp [Renderer.step, Renderer.EndFrame, acceptedSubmissions]
    | AddMesh pMesh pMat pos =>
      by_cases hg : pMesh = 0 ∨ pMat = 0 ∨ r.m_bIsMidFrame = false
      · have hn : ¬(pMesh ≠ 0 ∧ pMat ≠ 0 ∧ r.m_bIsMidFrame = true) := by
          rcases hg with h1 | h1 | h1 <;> simp [h1]
        simp [Renderer.step, Renderer.AddMesh, acceptedSubmissions, hg, hn]
      · have hp : pMesh ≠ 0 ∧ pMat ≠ 0 ∧ r.m_bIsMidFrame = true := by
          simp only [not_or] at hg
          exact ⟨hg.1, hg.2.1, by simpa using hg.2.2⟩
        simp [Renderer.step, Renderer.AddMesh, acceptedSubmissions, hg, hp]
    | AddLight pos rgb radius => simp [Renderer.step, Renderer.AddLight, acceptedSubmissions]
    | SetViewPosition pos yaw tilt =>
      by_cases hm : r.m_bIsMidFrame = true <;>
        simp [Renderer.step, Renderer.SetViewPosition, Renderer.UpdateProjectionMatrix,
          acceptedSubmissions, hm]
    | AddTime dt => simp [Renderer.step, Renderer.AddTime, acceptedSubmissions]

/-- A recording renderer stays recording, with its camera untouched, as long as no `EndFrame`
is called. -/
theorem Renderer.runState_camera_frozen (ext : Ext) (heap : Heap) (calls : List Call) :
    ∀ r : Renderer, r.m_bIsMidFrame = true → Call.EndFrame ∉ calls →
      (Renderer.runState ext heap r calls).m_bIsMidFrame = true ∧
      (Renderer.runState ext heap r calls).m_viewPos = r.m_viewPos ∧
      (Renderer.runState ext heap r calls).m_viewYaw = r.m_viewYaw ∧
      (Renderer.runState ext heap r calls).m_viewTilt = r.m_viewTilt ∧
      (Renderer.runState ext heap r calls).m_matProjection = r.m_matProjection := by
  induction calls with
  | nil => intro r h _; simp [Renderer.runState, h]
  | cons c cs ih =>
    intro r hr h
    have hc : c ≠ Call.EndFrame := fun e => h (by simp [e])
    have hcs : Call.EndFrame ∉ cs := fun e => h (by simp [e])
    rw [Renderer.runState_cons]
    cases c with
    | EndFrame => exact absurd rfl hc
    | BeginFrame => simpa [Renderer.step, Renderer.BeginFrame] using ih (Renderer.BeginFrame r) rfl hcs
    | AddMesh pMesh pMat pos =>
      have h1 := ih (Renderer.AddMesh r pMesh pMat pos)
        (by unfold Renderer.AddMesh; split <;> simp [hr]) hcs
      have h2 : ∀ q : Renderer, Renderer.AddMesh r pMesh pMat pos = q →
          q.m_viewPos = r.m_viewPos ∧ q.m_viewYaw = r.m_viewYaw ∧ q.m_viewTilt = r.m_viewTilt ∧
          q.m_matProjection = r.m_matProjection := by
        intro q hq; subst hq; unfold Renderer.AddMesh; split <;> simp
      obtain ⟨a, b, c, d⟩ := h2 _ rfl
      simpa [Renderer.step, a, b, c, d] using h1
    | AddLight pos rgb radius => simpa [Renderer.step, Renderer.AddLight] using ih r hr hcs
    | SetViewPosition pos yaw tilt =>
      simpa [Renderer.step, Renderer.SetViewPosition, hr] using ih r hr hcs
    | AddTime dt =>
      simpa [Renderer.step, Renderer.AddTime] using ih (Renderer.AddTime ext r dt) hr hcs

/-- A renderer that is not recording stays so as long as no `BeginFrame` is called. -/
theorem Renderer.runState_not_recording (ext : Ext) (heap : Heap) (calls : List Call) :
    ∀ r : Renderer, r.m_bIsMidFrame = false → Call.BeginFrame ∉ calls →
      (Renderer.runState ext heap r calls).m_bIsMidFrame = false := by
  induction calls with
  | nil => intro r h _; simp [Renderer.runState, h]
  | cons c cs ih =>
    intro r hr h
    have hc : c ≠ Call.BeginFrame := fun e => h (by simp [e])
    have hcs : Call.BeginFrame ∉ cs := fun e => h (by simp [e])
    rw [Renderer.runState_cons]
    apply ih _ _ hcs
    cases c with
    | BeginFrame => exact absurd rfl hc
    | EndFrame => rfl
    | AddMesh pMesh pMat pos => simp [Renderer.step, Renderer.AddMesh, hr]
    | AddLight pos rgb radius => simpa [Renderer.step, Renderer.AddLight] using hr
    | SetViewPosition pos yaw tilt =>
      simp [Renderer.step, Renderer.SetViewPosition, hr, Renderer.UpdateProjectionMatrix]
    | AddTime dt => simpa [Renderer.step, Renderer.AddTime] using hr

/-- The place of `SetupLightPass` in the commands of `EndFrame` is unique. -/
theorem Renderer.EndFrame_split (heap : Heap) (r : Renderer) (pre post : List Cmd)
    (h : (Renderer.EndFrame heap r).2 = pre ++ Cmd.SetupLightPass :: post) :
    pre = Cmd.SetupGeometryPass :: r.m_models.map Cmd.DrawModel ∧ post = compositeDraw heap r := by
  rw [Renderer.EndFrame_cmds] at h
  have hA : Cmd.SetupLightPass ∉ Cmd.SetupGeometryPass :: r.m_models.map Cmd.DrawModel := by
    simp
  have hT : Cmd.SetupLightPass ∉ compositeDraw heap r := by simp [compositeDraw]
  have h2 : (Cmd.SetupGeometryPass :: r.m_models.map Cmd.DrawModel)
      ++ Cmd.SetupLightPass :: compositeDraw heap r = pre ++ Cmd.SetupLightPass :: post := by
    simpa using h
  rcases List.append_eq_append_iff.1 h2 with ⟨a, ha, hb⟩ | ⟨c, hc, hd⟩
  · cases a with
    | nil =>
      simp at ha hb
      exact ⟨by rw [ha], by rw [hb]⟩
    | cons x a =>
      simp at hb
      exact absurd (by rw [hb.2]; simp) hT
  · cases c with
    | nil =>
      simp at hc hd
      exact ⟨by rw [hc], by rw [hd]⟩
    | cons x c =>
      simp at hd
      exact absurd (by rw [hc, ← hd.1]; simp) hA

theorem acceptedSubmissions_submit (ms : List Model) (h : ∀ m ∈ ms, m.mesh ≠ 0 ∧ m.mat ≠ 0) :
    acceptedSubmissions true (ms.map submit) = ms := by
  induction ms with
  | nil => rfl
  | cons m ms ih =>
    have hm := h m (by simp)
    have ih2 := ih (fun x hx => h x (by simp [hx]))
    simp [submit, acceptedSubmissions, hm.1, hm.2] at ih2 ⊢
    exact ih2

theorem submit_ne_BeginFrame (ms : List Model) : Call.BeginFrame ∉ ms.map submit := by
  simp [submit]

theorem Renderer.glTrace_append (ext : Ext) (heap : Heap) (r : Renderer) (a b : List Cmd) :
    Renderer.glTrace ext heap r (a ++ b)
      = Renderer.glTrace ext heap r a ++ Renderer.glTrace ext heap r b := by
  simp [Renderer.glTrace]

theorem Renderer.glTrace_EndFrame (ext : Ext) (heap : Heap) (r : Renderer) :
    Renderer.glTrace ext heap r (Renderer.EndFrame heap r).2
      = Renderer.SetupGeometryPass r ++ (r.m_models.map (Renderer.DrawModel heap r)).flatten
        ++ Renderer.SetupLightPass ext r ++ compositeGL heap r := by
  rw [Renderer.EndFrame_cmds]
  simp [Renderer.glTrace, Renderer.glOf, compositeDraw, compositeGL, Function.comp_def]

/-- The lighting shader is never replaced by the frame interface. -/
theorem Renderer.runState_shdLight (ext : Ext) (heap : Heap) (calls : List Call) :
    ∀ r : Renderer, (Renderer.runState ext heap r calls).m_shdLight = r.m_shdLight := by
  induction calls with
  | nil => intro r; rfl
  | cons c cs ih =>
    intro r
    rw [Renderer.runState_cons, ih]
    cases c with
    | BeginFrame => rfl
    | EndFrame => rfl
    | AddMesh pMesh pMat pos => simp only [Renderer.step, Renderer.AddMesh]; split <;> rfl
    | AddLight pos rgb radius => rfl
    | SetViewPosition pos yaw tilt =>
      simp only [Renderer.step, Renderer.SetViewPosition]; split <;> rfl
    | AddTime dt => rfl

theorem sinceLastBeginFrame_none (calls : List Call) :
    sinceLastBeginFrame calls = none → Call.BeginFrame ∉ calls := by
  induction calls with
  | nil => intro _; simp
  | cons c cs ih =>
    intro h
    rw [sinceLastBeginFrame] at h
    split at h
    · exact absurd h (by simp)
    · rename_i hn
      split at h
      · exact absurd h (by simp)
      · rename_i hc
        simp only [List.mem_cons, not_or]
        exact ⟨fun e => hc e.symm, ih hn⟩

/-- A sequence splits at its most recent `BeginFrame`. -/
theorem sinceLastBeginFrame_some (calls : List Call) :
    ∀ tail, sinceLastBeginFrame calls = some tail →
      ∃ pre, calls = pre ++ Call.BeginFrame :: tail ∧ Call.BeginFrame ∉ tail := by
  induction calls with
  | nil => intro tail h; simp [sinceLastBeginFrame] at h
  | cons c cs ih =>
    intro tail h
    rw [sinceLastBeginFrame] at h
    split at h
    · rename_i t ht
      injection h with h
      subst h
      obtain ⟨pre, e, hno⟩ := ih _ ht
      exact ⟨c :: pre, by rw [e]; rfl, hno⟩
    · rename_i hn
      split at h
      · rename_i hc
        injection h with h
        subst h hc
        exact ⟨[], rfl, sinceLastBeginFrame_none _ hn⟩
      · exact absurd h (by simp)

/-! ## Renderer: the claims -/

/-- C1: `AddMesh` leaves the whole renderer state unchanged (so the next `EndFrame` issues the
same commands) when the mesh is null, the material is null, or the renderer is not recording;
otherwise it appends exactly the model `(mesh, material, transform)` at the end of the queue
and changes nothing else. -/
theorem AddMesh_contract (heap : Heap) (r : Renderer) (pMesh pMat : Ptr) (matPosition : Mat4) :
    ((pMesh = 0 ∨ pMat = 0 ∨ r.m_bIsMidFrame = false) →
      Renderer.AddMesh r pMesh pMat matPosition = r ∧
      Renderer.EndFrame heap (Renderer.AddMesh r pMesh pMat matPosition)
        = Renderer.EndFrame heap r) ∧
    ((pMesh ≠ 0 ∧ pMat ≠ 0 ∧ r.m_bIsMidFrame = true) →
      Renderer.AddMesh r pMesh pMat matPosition
        = { r with m_models := r.m_models ++ [⟨pMesh, pMat, matPosition⟩] }) := by
  constructor
  · intro h
    have e : Renderer.AddMesh r pMesh pMat matPosition = r := by
      simp [Renderer.AddMesh, h]
    exact ⟨e, by rw [e]⟩
  · rintro ⟨h1, h2, h3⟩
    simp [Renderer.AddMesh, h1, h2, h3]

theorem AddMesh_contract_witness :
    ((0 : Ptr) = 0 ∨ (7 : Ptr) = 0 ∨ sampleRenderer.m_bIsMidFrame = false) ∧
    Renderer.AddMesh sampleRenderer 0 7 [] = sampleRenderer ∧
    ((5 : Ptr) ≠ 0 ∧ (7 : Ptr) ≠ 0 ∧ (Renderer.BeginFrame sampleRenderer).m_bIsMidFrame = true) ∧
    Renderer.AddMesh (Renderer.BeginFrame sampleRenderer) 5 7 []
      = { Renderer.BeginFrame sampleRenderer with m_models := [⟨5, 7, []⟩] } :=
  ⟨Or.inl rfl,
   ((AddMesh_contract sampleHeap sampleRenderer 0 7 []).1 (Or.inl rfl)).1,
   ⟨by decide, by decide, rfl⟩,
   (AddMesh_contract sampleHeap (Renderer.BeginFrame sampleRenderer) 5 7 []).2
     ⟨by decide, by decide, rfl⟩⟩

/-- C2: whatever the queue held, `BeginFrame` leaves it empty and the renderer recording;
hence for every sequence of calls that holds a `BeginFrame`, an `EndFrame` after it draws
exactly the submissions accepted since the most recent `BeginFrame`, in order. In particular
a frame submitting the models `ms` (present mesh and material) draws `ms`, and the empty frame
that follows it draws nothing. -/
theorem BeginFrame_clears_queue (ext : Ext) (heap : Heap) (r : Renderer)
    (calls tail : List Call) (ms : List Model)
    (hcalls : sinceLastBeginFrame calls = some tail)
    (hms : ∀ m ∈ ms, m.mesh ≠ 0 ∧ m.mat ≠ 0) :
    (Renderer.BeginFrame r).m_models = [] ∧
    (Renderer.BeginFrame r).m_bIsMidFrame = true ∧
    Renderer.drawnModels (Renderer.EndFrame heap (Renderer.runState ext heap r calls)).2
      = acceptedSubmissions true tail ∧
    Renderer.drawnModels (Renderer.EndFrame heap
        (Renderer.runState ext heap r (Call.BeginFrame :: ms.map submit))).2 = ms ∧
    Renderer.drawnModels (Renderer.EndFrame heap
        (Renderer.runState ext heap r
          (Call.BeginFrame :: ms.map submit ++ [Call.EndFrame, Call.BeginFrame]))).2 = [] := by
  obtain ⟨pre, hsplit, htail⟩ := sinceLastBeginFrame_some calls tail hcalls
  refine ⟨rfl, rfl, ?_, ?_, ?_⟩
  · rw [hsplit, Renderer.drawnModels_EndFrame, Renderer.runState_append,
      Renderer.runState_cons, Renderer.runState_models ext heap tail _ htail]
    simp [Renderer.step, Renderer.BeginFrame]
  · rw [Renderer.drawnModels_EndFrame, Renderer.runState_cons,
      Renderer.runState_models ext heap _ _ (submit_ne_BeginFrame ms)]
    simp [Renderer.step, Renderer.BeginFrame, acceptedSubmissions_submit ms hms]
  · rw [Renderer.drawnModels_EndFrame, Renderer.runState_append]
    simp [Renderer.runState, Renderer.step, Renderer.BeginFrame]

theorem BeginFrame_clears_queue_witness :
    sinceLastBeginFrame [Call.AddMesh 9 9 [], Call.BeginFrame, Call.AddMesh 1 2 [],
        Call.EndFrame, Call.AddMesh 3 4 []]
      = some [Call.AddMesh 1 2 [], Call.EndFrame, Call.AddMesh 3 4 []] ∧
    (∀ m ∈ List.replicate 5 (⟨1, 2, []⟩ : Model), m.mesh ≠ 0 ∧ m.mat ≠ 0) ∧
    Renderer.drawnModels (Renderer.EndFrame sampleHeap
        (Renderer.runState sampleExt sampleHeap sampleRenderer
          [Call.AddMesh 9 9 [], Call.BeginFrame, Call.AddMesh 1 2 [], Call.EndFrame,
            Call.AddMesh 3 4 []])).2
      = acceptedSubmissions true [Call.AddMesh 1 2 [], Call.EndFrame, Call.AddMesh 3 4 []] ∧
    acceptedSubmissions true [Call.AddMesh 1 2 [], Call.EndFrame, Call.AddMesh 3 4 []]
      = [⟨1, 2, []⟩] ∧
    Renderer.drawnModels (Renderer.EndFrame sampleHeap
        (Renderer.runState sampleExt sampleHeap sampleRenderer
          (Call.BeginFrame :: (List.replicate 5 (⟨1, 2, []⟩ : Model)).map submit))).2
      = List.replicate 5 ⟨1, 2, []⟩ ∧
    Renderer.drawnModels (Renderer.EndFrame sampleHeap
        (Renderer.runState sampleExt sampleHeap sampleRenderer
          (Call.BeginFrame :: (List.replicate 5 (⟨1, 2, []⟩ : Model)).map submit
            ++ [Call.EndFrame, Call.BeginFrame]))).2 = [] :=
  have h1 : sinceLastBeginFrame [Call.AddMesh 9 9 [], Call.BeginFrame, Call.AddMesh 1 2 [],
        Call.EndFrame, Call.AddMesh 3 4 []]
      = some [Call.AddMesh 1 2 [], Call.EndFrame, Call.AddMesh 3 4 []] := by decide
  have h2 : ∀ m ∈ List.replicate 5 (⟨1, 2, []⟩ : Model), m.mesh ≠ 0 ∧ m.mat ≠ 0 := by
    intro m hm
    rw [List.eq_of_mem_replicate hm]
    exact ⟨by decide, by decide⟩
  have h := BeginFrame_clears_queue sampleExt sampleHeap sampleRenderer _ _
    (List.replicate 5 ⟨1, 2, []⟩) h1 h2
  ⟨h1, h2, h.2.2.1, by decide, h.2.2.2.1, h.2.2.2.2⟩

/-- C3: for every queue `[m_1, ..., m_n]` the commands of `EndFrame` are the geometry-pass
setup, then `DrawModel m_1`, ..., `DrawModel m_n` in queue order, then the lighting-pass setup,
then the fullscreen draw, which holds exactly one `glDrawArrays`; the models drawn are the
queue itself, and whatever follows the lighting-pass setup draws no model. The graphics-API
calls behind these commands follow the same order. -/
theorem EndFrame_draw_order (ext : Ext) (heap : Heap) (r : Renderer) :
    (Renderer.EndFrame heap r).2
      = [Cmd.SetupGeometryPass] ++ r.m_models.map Cmd.DrawModel ++ [Cmd.SetupLightPass]
        ++ compositeDraw heap r ∧
    Renderer.drawnModels (Renderer.EndFrame heap r).2 = r.m_models ∧
    ((compositeDraw heap r).filter isDirectDraw).length = 1 ∧
    (∀ pre post : List Cmd, (Renderer.EndFrame heap r).2 = pre ++ Cmd.SetupLightPass :: post →
      Renderer.drawnModels pre = r.m_models ∧ Renderer.drawnModels post = [] ∧
      (post.filter isDirectDraw).length = 1) ∧
    Renderer.glTrace ext heap r (Renderer.EndFrame heap r).2
      = Renderer.SetupGeometryPass r ++ (r.m_models.map (Renderer.DrawModel heap r)).flatten
        ++ Renderer.SetupLightPass ext r ++ compositeGL heap r := by
  refine ⟨?_, Renderer.drawnModels_EndFrame heap r, ?_, ?_, Renderer.glTrace_EndFrame ext heap r⟩
  · rw [Renderer.EndFrame_cmds]; simp
  · simp [compositeDraw, isDirectDraw]
  · intro pre post h
    obtain ⟨h1, h2⟩ := Renderer.EndFrame_split heap r pre post h
    subst h1 h2
    refine ⟨?_, ?_, ?_⟩
    · simp [Renderer.drawnModels, Renderer.drawnModels_map]
    · simp [compositeDraw, Renderer.drawnModels]
    · simp [compositeDraw, isDirectDraw]

theorem EndFrame_draw_order_witness :
    (Renderer.EndFrame sampleHeap { sampleRenderer with m_models := [⟨1, 2, []⟩, ⟨3, 4, []⟩] }).2
      = [Cmd.SetupGeometryPass, Cmd.DrawModel ⟨1, 2, []⟩, Cmd.DrawModel ⟨3, 4, []⟩]
        ++ Cmd.SetupLightPass :: compositeDraw sampleHeap sampleRenderer ∧
    Renderer.drawnModels (compositeDraw sampleHeap sampleRenderer) = [] ∧
    ((compositeDraw sampleHeap sampleRenderer).filter isDirectDraw).length = 1 :=
  have e : (Renderer.EndFrame sampleHeap
      { sampleRenderer with m_models := [⟨1, 2, []⟩, ⟨3, 4, []⟩] }).2
      = [Cmd.SetupGeometryPass, Cmd.DrawModel ⟨1, 2, []⟩, Cmd.DrawModel ⟨3, 4, []⟩]
        ++ Cmd.SetupLightPass :: compositeDraw sampleHeap sampleRenderer := by decide
  have h := (EndFrame_draw_order sampleExt sampleHeap
      { sampleRenderer with m_models := [⟨1, 2, []⟩, ⟨3, 4, []⟩] }).2.2.2.1
      [Cmd.SetupGeometryPass, Cmd.DrawModel ⟨1, 2, []⟩, Cmd.DrawModel ⟨3, 4, []⟩]
      (compositeDraw sampleHeap sampleRenderer) e
  ⟨e, h.2.1, h.2.2⟩

/-- C4: while the renderer is recording, `SetViewPosition` changes nothing (camera position,
yaw, tilt and projection matrix included); hence after `BeginFrame` and any calls that do not
close the frame, the projection matrix is still the one `BeginFrame` found, and it is the only
matrix that the closing `EndFrame` uploads as `matView` (which it does at least once). -/
theorem SetViewPosition_frozen (ext : Ext) (heap : Heap) (r r0 : Renderer) (pos : Vec3)
    (yaw tilt : F32) (mid : List Call) (hr : r.m_bIsMidFrame = true)
    (hmid : Call.EndFrame ∉ mid) :
    Renderer.SetViewPosition ext r pos yaw tilt = r ∧
    (Renderer.runState ext heap (Renderer.BeginFrame r0) mid).m_matProjection
      = r0.m_matProjection ∧
    (∀ (program : Nat) (value : Mat4),
      GLCall.glUniformMatrix4fv program Uniform.matView value
          ∈ Renderer.glTrace ext heap (Renderer.runState ext heap (Renderer.BeginFrame r0) mid)
              (Renderer.EndFrame heap
                (Renderer.runState ext heap (Renderer.BeginFrame r0) mid)).2 →
        value = r0.m_matProjection) ∧
    GLCall.glUniformMatrix4fv r0.m_shdLight Uniform.matView r0.m_matProjection
      ∈ Renderer.glTrace ext heap (Renderer.runState ext heap (Renderer.BeginFrame r0) mid)
          (Renderer.EndFrame heap (Renderer.runState ext heap (Renderer.BeginFrame r0) mid)).2 := by
  obtain ⟨-, -, -, -, hp⟩ :=
    Renderer.runState_camera_frozen ext heap mid (Renderer.BeginFrame r0) rfl hmid
  have hp2 : (Renderer.runState ext heap (Renderer.BeginFrame r0) mid).m_matProjection
      = r0.m_matProjection := by rw [hp]; rfl
  have hl : (Renderer.runState ext heap (Renderer.BeginFrame r0) mid).m_shdLight
      = r0.m_shdLight := Renderer.runState_shdLight ext heap _ _
  refine ⟨by simp [Renderer.SetViewPosition, hr], hp2, ?_, ?_⟩
  · intro program value hmem
    rw [Renderer.glTrace_EndFrame] at hmem
    simp only [List.mem_append, List.mem_flatten, List.mem_map] at hmem
    rcases hmem with ((hmem | ⟨l, ⟨m, -, rfl⟩, hmem⟩) | hmem) | hmem
    · simp [Renderer.SetupGeometryPass] at hmem
    · rw [← hp2]
      unfold Renderer.DrawModel at hmem
      simp only [List.mem_append, List.mem_cons, List.mem_singleton] at hmem
      rcases hmem with ((hmem | hmem) | hmem) | hmem
      · simp at hmem
        exact hmem.2
      · split at hmem <;> simp at hmem
      · split at hmem <;> simp at hmem
      · simp at hmem
    · rw [← hp2]
      simp [Renderer.SetupLightPass] at hmem
      exact hmem.2
    · simp [compositeGL] at hmem
  · rw [Renderer.glTrace_EndFrame]
    simp [Renderer.SetupLightPass, hp2, hl]

theorem SetViewPosition_frozen_witness :
    (Renderer.BeginFrame sampleRenderer).m_bIsMidFrame = true ∧
    Call.EndFrame ∉ [Call.SetViewPosition ⟨1, 2, 3⟩ 4 5, Call.AddMesh 1 2 []] ∧
    Renderer.SetViewPosition sampleExt (Renderer.BeginFrame sampleRenderer) ⟨1, 2, 3⟩ 4 5
      = Renderer.BeginFrame sampleRenderer ∧
    (Renderer.runState sampleExt sampleHeap
      (Renderer.BeginFrame { sampleRenderer with m_matProjection := [7] })
      [Call.SetViewPosition ⟨1, 2, 3⟩ 4 5, Call.AddMesh 1 2 []]).m_matProjection = [7] :=
  have h1 : (Renderer.BeginFrame sampleRenderer).m_bIsMidFrame = true := rfl
  have h2 : Call.EndFrame ∉ [Call.SetViewPosition ⟨1, 2, 3⟩ 4 5, Call.AddMesh 1 2 []] := by
    decide
  have h := SetViewPosition_frozen sampleExt sampleHeap (Renderer.BeginFrame sampleRenderer)
    { sampleRenderer with m_matProjection := [7] } ⟨1, 2, 3⟩ 4 5
    [Call.SetViewPosition ⟨1, 2, 3⟩ 4 5, Call.AddMesh 1 2 []] h1 h2
  ⟨h1, h2, h.1, h.2.1⟩

/-- C5: `EndFrame` leaves the renderer not recording and keeps the queue and the camera state;
hence, as long as no `BeginFrame` follows, every `AddMesh` is ignored and every
`SetViewPosition` stores its arguments and recomputes the projection matrix. -/
theorem EndFrame_back_to_ready (ext : Ext) (heap : Heap) (r : Renderer) (calls : List Call)
    (pMesh pMat : Ptr) (matPosition : Mat4) (pos : Vec3) (yaw tilt : F32)
    (hcalls : Call.BeginFrame ∉ calls) :
    (Renderer.EndFrame heap r).1.m_bIsMidFrame = false ∧
    (Renderer.EndFrame heap r).1.m_models = r.m_models ∧
    (Renderer.EndFrame heap r).1.m_viewPos = r.m_viewPos ∧
    (Renderer.EndFrame heap r).1.m_viewYaw = r.m_viewYaw ∧
    (Renderer.EndFrame heap r).1.m_viewTilt = r.m_viewTilt ∧
    (Renderer.EndFrame heap r).1.m_matProjection = r.m_matProjection ∧
    Renderer.AddMesh (Renderer.runState ext heap (Renderer.EndFrame heap r).1 calls)
        pMesh pMat matPosition
      = Renderer.runState ext heap (Renderer.EndFrame heap r).1 calls ∧
    Renderer.SetViewPosition ext (Renderer.runState ext heap (Renderer.EndFrame heap r).1 calls)
        pos yaw tilt
      = { Renderer.runState ext heap (Renderer.EndFrame heap r).1 calls with
          m_viewPos := pos, m_viewYaw := yaw, m_viewTilt := tilt,
          m_matProjection := ext.matMul
            (ext.matMul (ext.perspective f64_20 f64_16_9 f64_0_1 f64_100)
              (ext.matMul (ext.rotate ext.matIdentity tilt ⟨f32_1, f32_0, f32_0⟩)
                (ext.rotate ext.matIdentity yaw ⟨f32_0, f32_1, f32_0⟩)))
            (ext.translate ext.matIdentity pos) } := by
  have hs := Renderer.runState_not_recording ext heap calls (Renderer.EndFrame heap r).1 rfl
    hcalls
  refine ⟨rfl, rfl, rfl, rfl, rfl, rfl, ?_, ?_⟩
  · simp [Renderer.AddMesh, hs]
  · simp [Renderer.SetViewPosition, hs, Renderer.UpdateProjectionMatrix]

theorem EndFrame_back_to_ready_witness :
    Call.BeginFrame ∉ [Call.AddMesh 1 2 [], Call.EndFrame] ∧
    Renderer.AddMesh (Renderer.runState sampleExt sampleHeap
        (Renderer.EndFrame sampleHeap (Renderer.BeginFrame sampleRenderer)).1
        [Call.AddMesh 1 2 [], Call.EndFrame]) 3 4 []
      = Renderer.runState sampleExt sampleHeap
        (Renderer.EndFrame sampleHeap (Renderer.BeginFrame sampleRenderer)).1
        [Call.AddMesh 1 2 [], Call.EndFrame] :=
  have h1 : Call.BeginFrame ∉ [Call.AddMesh 1 2 [], Call.EndFrame] := by decide
  ⟨h1, (EndFrame_back_to_ready sampleExt sampleHeap (Renderer.BeginFrame sampleRenderer)
    [Call.AddMesh 1 2 [], Call.EndFrame] 3 4 [] ⟨1, 2, 3⟩ 4 5 h1).2.2.2.2.2.2.1⟩

/-! ## Streams: auxiliary facts -/

theorem readU8_cons (b : Nat) (rest : List Nat) (hb : b < 256) :
    readU8 ⟨b :: rest, true⟩ = (b, ⟨rest, true⟩) := by
  simp only [readU8, IStream.get, if_true]
  refine Prod.ext ?_ rfl
  show ((b : Int) % 256).toNat = b
  omega

theorem read_append (xs rest buf : List Nat) (n : Nat) (hx : xs.length = n)
    (hb : buf.length ≤ n) :
    IStream.read ⟨xs ++ rest, true⟩ buf n = (xs, ⟨rest, true⟩) := by
  subst hx
  simp [IStream.read, List.drop_of_length_le hb]

theorem leValue_u32le (v : Nat) (hv : v < 2 ^ 32) : leValue (u32le v) = v := by
  simp only [leValue, u32le]
  omega

theorem length_u32le (v : Nat) : (u32le v).length = 4 := rfl

theorem length_freshBytes (uninit : Nat → Nat) (n : Nat) : (freshBytes uninit n).length = n := by
  simp [freshBytes]

theorem readU32_u32le (uninit : Nat → Nat) (v : Nat) (rest : List Nat) (hv : v < 2 ^ 32) :
    readU32 uninit ⟨u32le v ++ rest, true⟩ = (v, ⟨rest, true⟩) := by
  simp only [readU32, read_append (u32le v) rest (readU32_ret uninit) 4 rfl
    (le_of_eq (length_freshBytes _ 4)), leValue_u32le v hv]

theorem readF32_u32le (uninit : Nat → Nat) (v : Nat) (rest : List Nat) (hv : v < 2 ^ 32) :
    readF32 uninit ⟨u32le v ++ rest, true⟩ = (v, ⟨rest, true⟩) := by
  simp only [readF32, read_append (u32le v) rest (readF32_ret uninit) 4 rfl
    (le_of_eq (length_freshBytes _ 4)), leValue_u32le v hv]

theorem leWords_u32le_append (v : Nat) (tail : List Nat) (hv : v < 2 ^ 32) :
    leWords (u32le v ++ tail) = v :: leWords tail := by
  have h := leValue_u32le v hv
  simp only [u32le] at h
  simp only [u32le, List.cons_append, List.nil_append, leWords, h]
  rfl

theorem leWords_flatMap (m : List Nat) (hm : ∀ f ∈ m, f < 2 ^ 32) :
    leWords (m.flatMap u32le) = m := by
  induction m with
  | nil => rfl
  | cons f m ih =>
    rw [List.flatMap_cons, leWords_u32le_append f _ (hm f (by simp)),
      ih (fun g hg => hm g (by simp [hg]))]

theorem length_flatMap_u32le (m : List Nat) : (m.flatMap u32le).length = 4 * m.length := by
  induction m with
  | nil => rfl
  | cons f m ih => simp [List.flatMap_cons, ih, length_u32le]; omega

theorem readM44_flatMap (uninit : Nat → Nat) (m : List Nat) (rest : List Nat)
    (hl : m.length = 16) (hm : ∀ f ∈ m, f < 2 ^ 32) :
    readM44 uninit ⟨m.flatMap u32le ++ rest, true⟩ = (m, ⟨rest, true⟩) := by
  have h64 : (m.flatMap u32le).length = 16 * 4 := by rw [length_flatMap_u32le, hl]
  simp only [readM44, readBytes, read_append (m.flatMap u32le) rest (readM44_ret uninit) (16 * 4)
    h64 (le_of_eq (length_freshBytes _ 64)), leWords_flatMap m hm]

theorem readBytes_append (xs rest buf : List Nat) (n : Nat) (hx : xs.length = n)
    (hb : buf.length ≤ n) :
    readBytes ⟨xs ++ rest, true⟩ buf n = (xs, ⟨rest, true⟩) :=
  read_append xs rest buf n hx hb

/-! ## Skeleton decoding: auxiliary facts -/

theorem LoadSkeleton_childLoop_append (cs : List Nat) :
    ∀ (rest acc : List Nat), (∀ c ∈ cs, c < 256) →
      LoadSkeleton_childLoop cs.length ⟨cs ++ rest, true⟩ acc = (acc ++ cs, ⟨rest, true⟩) := by
  induction cs with
  | nil => intro rest acc _; simp [LoadSkeleton_childLoop]
  | cons c cs ih =>
    intro rest acc h
    simp only [List.length_cons, LoadSkeleton_childLoop, List.cons_append,
      readU8_cons c _ (h c (by simp))]
    rw [ih rest _ (fun d hd => h d (by simp [hd]))]
    simp

theorem LoadSkeleton_bone_encode (uninit : Nat → Nat) (b : Bone) (rest : List Nat)
    (hb : b.wf) :
    LoadSkeleton_bone uninit ⟨encodeBone b ++ rest, true⟩ = (b, ⟨rest, true⟩) := by
  obtain ⟨hid, hx, hy, hz, h0, h1, h2, h3, hml, hm, hnl, hn, hcl, hc⟩ := hb
  have hname : b.name.length < 256 := by omega
  have hkids : b.childIds.length < 256 := by omega
  simp only [encodeBone, List.append_assoc, List.cons_append, List.nil_append,
    LoadSkeleton_bone, readU8_cons _ _ hid, readF32_u32le _ _ _ hx, readF32_u32le _ _ _ hy,
    readF32_u32le _ _ _ hz, readF32_u32le _ _ _ h0, readF32_u32le _ _ _ h1,
    readF32_u32le _ _ _ h2, readF32_u32le _ _ _ h3, readM44_flatMap _ _ _ hml hm,
    readU8_cons _ _ hname,
    readBytes_append b.name _ (List.replicate b.name.length 32) b.name.length rfl (by simp),
    readU8_cons _ _ hkids]
  rw [LoadSkeleton_childLoop_append b.childIds rest [] hc]
  simp

theorem LoadSkeleton_boneLoop_encode (uninit : Nat → Nat) (bones : List Bone) :
    ∀ (rest : List Nat) (acc : List Bone), (∀ b ∈ bones, b.wf) →
      LoadSkeleton_boneLoop uninit bones.length ⟨bones.flatMap encodeBone ++ rest, true⟩ acc
        = (acc ++ bones, ⟨rest, true⟩) := by
  induction bones with
  | nil => intro rest acc _; simp [LoadSkeleton_boneLoop]
  | cons b bones ih =>
    intro rest acc h
    simp only [List.length_cons, LoadSkeleton_boneLoop, List.flatMap_cons, List.append_assoc,
      LoadSkeleton_bone_encode uninit b _ (h b (by simp))]
    rw [ih rest _ (fun d hd => h d (by simp [hd]))]
    simp

/-! ## Skeleton decoding: the claim -/

/-- C8: for every list of fewer than `2^32` bones that fit the documented layout (1-byte id,
32-bit floats, 16 matrix entries, a name of at most 255 bytes, at most 255 one-byte child
ids), `LoadSkeleton` applied to the file that encodes it returns a skeleton with exactly these
bones, in the same order, each with the encoded id, position, rotation, matrix, name and child
ids. -/
theorem LoadSkeleton_decodes_layout (uninit : Nat → Nat) (bones : List Bone)
    (hcount : bones.length < 2 ^ 32) (hwf : ∀ b ∈ bones, b.wf) :
    LoadSkeleton uninit (some (encodeSkeleton bones)) = some ⟨bones⟩ := by
  simp only [LoadSkeleton, ifstream, encodeSkeleton, Bool.not_true, Bool.false_eq_true,
    if_false, readU32_u32le uninit _ _ hcount]
  have h := LoadSkeleton_boneLoop_encode uninit bones [] [] hwf
  simp only [List.append_nil, List.nil_append] at h
  rw [h]

theorem LoadSkeleton_decodes_layout_witness :
    [sampleBone0, sampleBone1].length < 2 ^ 32 ∧
    (∀ b ∈ [sampleBone0, sampleBone1], b.wf) ∧
    encodeSkeleton [sampleBone0, sampleBone1] = sampleSkeletonBytes ∧
    LoadSkeleton (fun _ => 0) (some sampleSkeletonBytes) = some ⟨[sampleBone0, sampleBone1]⟩ ∧
    (([sampleBone0, sampleBone1] : List Bone).map Bone.childIds) = [[1], []] :=
  have h1 : [sampleBone0, sampleBone1].length < 2 ^ 32 := by decide
  have h2 : ∀ b ∈ [sampleBone0, sampleBone1], b.wf := by decide
  have h3 : encodeSkeleton [sampleBone0, sampleBone1] = sampleSkeletonBytes := rfl
  ⟨h1, h2, h3,
   h3 ▸ LoadSkeleton_decodes_layout (fun _ => 0) [sampleBone0, sampleBone1] h1 h2, rfl⟩

/-! ## Baked meshes: the flag byte -/

set_option maxRecDepth 100000 in
theorem flag_bit_set : ∀ b : Nat, b < 256 → b % 2 = 1 → intBits (toChar b) &&& 1 ≠ 0 := by
  decide

set_option maxRecDepth 100000 in
theorem flag_bit_clear : ∀ b : Nat, b < 256 → b % 2 = 0 → intBits (toChar b) &&& 1 = 0 := by
  decide

set_option maxRecDepth 100000 in
theorem toChar_eq_zero : ∀ b : Nat, b < 256 → (toChar b = 0 ↔ b = 0) := by
  decide

/-- The animated-mesh decoder rejects a file exactly when its flag byte is zero. -/
theorem LoadAnimatedMesh_none_iff (uninit : Nat → Nat) (b : Nat) (rest : List Nat)
    (hb : b < 256) :
    LoadAnimatedMesh uninit (some (b :: rest)) = none ↔ b = 0 := by
  by_cases h0 : b = 0
  · subst h0
    simp [LoadAnimatedMesh, ifstream, readU8, IStream.get, toChar, intBits]
  · have hc : toChar b ≠ 0 := fun e => h0 ((toChar_eq_zero b hb).1 e)
    simp [LoadAnimatedMesh, ifstream, readU8_cons b rest hb, hc, intBits, h0]

/-- C6: for every file that opens and whose first byte has bit 0 set, `LoadBakedStaticMesh`
returns no result, while `LoadAnimatedMesh` on the same bytes passes its flag test and returns
a mesh (with the 16-float stride). -/
theorem skinned_flag_static_rejects_animated_accepts (uninit : Nat → Nat) (b : Nat)
    (rest : List Nat) (hb : b < 256) (hbit : b % 2 = 1) :
    LoadBakedStaticMesh uninit (some (b :: rest)) = none ∧
    ∃ mesh, LoadAnimatedMesh uninit (some (b :: rest)) = some mesh ∧ mesh.m_iStride = 64 := by
  constructor
  · have hflag := flag_bit_set b hb hbit
    simp only [LoadBakedStaticMesh, ifstream, readU8_cons b rest hb, Bool.not_true,
      Bool.false_eq_true, if_false, if_pos hflag]
  · have h0 : b ≠ 0 := by rintro rfl; simp at hbit
    have hc : toChar b ≠ 0 := fun e => h0 ((toChar_eq_zero b hb).1 e)
    simp [LoadAnimatedMesh, ifstream, readU8_cons b rest hb, hc, intBits, sizeofGLfloat]

theorem skinned_flag_static_rejects_animated_accepts_witness :
    (1 : Nat) < 256 ∧ 1 % 2 = 1 ∧
    LoadBakedStaticMesh (fun _ => 0) (some sampleSkinnedFile) = none ∧
    ∃ mesh, LoadAnimatedMesh (fun _ => 0) (some sampleSkinnedFile) = some mesh ∧
      mesh.m_iStride = 64 :=
  have h := skinned_flag_static_rejects_animated_accepts (fun _ => 0) 1
    [0, 0, 0, 0, 0, 0, 0, 0] (by decide) (by decide)
  ⟨by decide, by decide, h.1, h.2⟩

/-- C7, at the failing input: a file whose flag byte is 2 (bit 0 clear) is not rejected by
`LoadAnimatedMesh`, which returns a mesh for it; `LoadBakedStaticMesh` accepts the same file. -/
theorem LoadAnimatedMesh_accepts_even_flag :
    (2 : Nat) % 2 = 0 ∧
    LoadAnimatedMesh (fun _ => 0) (some sampleStaticFile) ≠ none ∧
    (∃ mesh, LoadAnimatedMesh (fun _ => 0) (some sampleStaticFile) = some mesh ∧
      mesh.m_iStride = 64 ∧ mesh.m_iNumTris = 0) ∧
    LoadBakedStaticMesh (fun _ => 0) (some sampleStaticFile) ≠ none := by
  refine ⟨rfl, by decide, ⟨_, rfl, rfl, rfl⟩, by decide⟩

/-! ## Animation decoding: auxiliary facts -/

theorem leValue_u64le (v : Nat) (hv : v < 2 ^ 64) : leValue (u64le v) = v := by
  simp only [leValue, u64le, u32le, List.cons_append, List.nil_append]
  omega

theorem readF64_u64le (uninit : Nat → Nat) (v : Nat) (rest : List Nat) (hv : v < 2 ^ 64) :
    readF64 uninit ⟨u64le v ++ rest, true⟩ = (v, ⟨rest, true⟩) := by
  simp only [readF64, read_append (u64le v) rest (readF64_ret uninit) 8 rfl
    (le_of_eq (length_freshBytes _ 8)), leValue_u64le v hv]

theorem LoadAnimation_keyframe_encode (uninit : Nat → Nat) (k : Keyframe) (rest : List Nat)
    (hk : k.wf) :
    LoadAnimation_keyframe uninit ⟨encodeKeyframe k ++ rest, true⟩ = (k, ⟨rest, true⟩) := by
  obtain ⟨ht, hx, hy, hz, h0, h1, h2, h3⟩ := hk
  simp only [encodeKeyframe, List.append_assoc, LoadAnimation_keyframe,
    readF64_u64le _ _ _ ht, readF32_u32le _ _ _ hx, readF32_u32le _ _ _ hy,
    readF32_u32le _ _ _ hz, readF32_u32le _ _ _ h0, readF32_u32le _ _ _ h1,
    readF32_u32le _ _ _ h2, readF32_u32le _ _ _ h3]

theorem LoadAnimation_keyLoop_encode (uninit : Nat → Nat) (ks : List Keyframe) :
    ∀ (rest : List Nat) (duration : F64) (acc : List Keyframe), (∀ k ∈ ks, k.wf) →
      LoadAnimation_keyLoop uninit ks.length ⟨ks.flatMap encodeKeyframe ++ rest, true⟩
          duration acc
        = (((ks.map Keyframe.time).foldl std_max duration, acc ++ ks), ⟨rest, true⟩) := by
  induction ks with
  | nil => intro rest duration acc _; simp [LoadAnimation_keyLoop]
  | cons k ks ih =>
    intro rest duration acc h
    simp only [List.length_cons, LoadAnimation_keyLoop, List.flatMap_cons, List.append_assoc,
      LoadAnimation_keyframe_encode uninit k _ (h k (by simp))]
    rw [ih rest _ _ (fun d hd => h d (by simp [hd]))]
    simp

theorem LoadAnimation_channel_encode (uninit : Nat → Nat) (c : AnimationChannel)
    (rest : List Nat) (anim : Animation) (hc : c.wf) :
    LoadAnimation_channel uninit ⟨encodeChannel c ++ rest, true⟩ anim
      = (⟨(c.keyframes.map Keyframe.time).foldl std_max anim.m_duration,
          anim.m_channels ++ [c]⟩, ⟨rest, true⟩) := by
  obtain ⟨hid, hlen, hks⟩ := hc
  simp only [encodeChannel, List.append_assoc, List.cons_append, List.nil_append,
    LoadAnimation_channel, readU8_cons _ _ hid, readU32_u32le _ _ _ hlen,
    LoadAnimation_keyLoop_encode uninit c.keyframes rest anim.m_duration [] hks]

theorem LoadAnimation_channelLoop_encode (uninit : Nat → Nat) (chs : List AnimationChannel) :
    ∀ (rest : List Nat) (anim : Animation), (∀ c ∈ chs, c.wf) →
      LoadAnimation_channelLoop uninit chs.length ⟨chs.flatMap encodeChannel ++ rest, true⟩ anim
        = (⟨(allTimes chs).foldl std_max anim.m_duration, anim.m_channels ++ chs⟩,
            ⟨rest, true⟩) := by
  induction chs with
  | nil => intro rest anim _; simp [LoadAnimation_channelLoop, allTimes]
  | cons c chs ih =>
    intro rest anim h
    simp only [List.length_cons, LoadAnimation_channelLoop, List.flatMap_cons,
      List.append_assoc, LoadAnimation_channel_encode uninit c _ anim (h c (by simp))]
    rw [ih rest _ (fun d hd => h d (by simp [hd]))]
    simp [allTimes, List.foldl_append]

theorem LoadAnimation_encode (uninit : Nat → Nat) (d0 : F64) (chs : List AnimationChannel)
    (hcount : chs.length < 2 ^ 32) (hwf : ∀ c ∈ chs, c.wf) :
    LoadAnimation uninit d0 (some (encodeAnimation chs))
      = some ⟨(allTimes chs).foldl std_max d0, chs⟩ := by
  simp only [LoadAnimation, ifstream, encodeAnimation, Bool.not_true, Bool.false_eq_true,
    if_false, readU32_u32le uninit _ _ hcount]
  have h := LoadAnimation_channelLoop_encode uninit chs [] ⟨d0, []⟩ hwf
  simp only [List.append_nil, List.nil_append] at h
  rw [h]

/-! ## Doubles: the order of bit patterns -/

theorem pow_52 : (2 : Nat) ^ 52 = 4503599627370496 := by norm_num

theorem pow_63 : (2 : Nat) ^ 63 = 9223372036854775808 := by norm_num

theorem pow_64 : (2 : Nat) ^ 64 = 18446744073709551616 := by norm_num

theorem f64Key_sign_clear (x : Nat) (h : x / 2 ^ 63 % 2 = 0) :
    f64Key x = ((x % 2 ^ 63 : Nat) : Int) := by
  unfold f64Key
  rw [if_neg (by rw [h]; decide)]

theorem f64Key_sign_set (x : Nat) (h : x / 2 ^ 63 % 2 = 1) :
    f64Key x = -((x % 2 ^ 63 : Nat) : Int) := by
  unfold f64Key
  rw [if_pos h]

theorem f64Key_plain (d : Nat) (h : f64Plain d) : f64Key d = (d : Int) := by
  obtain ⟨h1, -⟩ := h
  rw [f64Key_sign_clear d (by rw [Nat.div_eq_of_lt h1])]
  rw [Nat.mod_eq_of_lt h1]

theorem f64_nonneg (t : Nat) (ht : t < 2 ^ 64) (h : f64Le 0 t = true) :
    f64IsNaN t = false ∧ f64Key t = ((t % 2 ^ 63 : Nat) : Int) ∧ f64Plain (t % 2 ^ 63) ∧
    (t % 2 ^ 63 ≠ 0 → t % 2 ^ 63 = t) := by
  simp only [f64Le, Bool.and_eq_true, Bool.not_eq_true', decide_eq_true_eq] at h
  obtain ⟨⟨-, hn⟩, hk⟩ := h
  have hk0 : f64Key 0 = 0 := by decide
  rw [hk0] at hk
  have hn2 := hn
  simp only [f64IsNaN, decide_eq_false_iff_not, pow_52] at hn2
  have hplain : f64Plain (t % 2 ^ 63) := by
    refine ⟨Nat.mod_lt _ (by norm_num), ?_⟩
    simp only [f64IsNaN, decide_eq_false_iff_not, pow_52, pow_63]
    rintro ⟨h1, h2⟩
    exact hn2 ⟨by omega, by omega⟩
  rcases Nat.mod_two_eq_zero_or_one (t / 2 ^ 63) with hs | hs
  · refine ⟨hn, f64Key_sign_clear t hs, hplain, ?_⟩
    intro _
    have h63 : t < 2 ^ 63 := by
      simp only [pow_63, pow_64] at hs ht ⊢
      omega
    exact Nat.mod_eq_of_lt h63
  · have hk1 := f64Key_sign_set t hs
    have hz : t % 2 ^ 63 = 0 := by
      rw [hk1] at hk
      have h0 : ((t % 2 ^ 63 : Nat) : Int) ≤ 0 := by linarith
      exact Nat.eq_zero_of_le_zero (by exact_mod_cast h0)
    refine ⟨hn, ?_, hplain, ?_⟩
    · rw [hk1, hz]; rfl
    · intro hne; exact absurd hz hne

theorem std_max_plain (d t : Nat) (hd : f64Plain d) (ht : t < 2 ^ 64) (h : f64Le 0 t = true) :
    std_max d t = max d (t % 2 ^ 63) := by
  obtain ⟨hn, hk, hp, hz⟩ := f64_nonneg t ht h
  have hkd := f64Key_plain d hd
  unfold std_max f64Lt
  rw [hn, hd.2, hk, hkd]
  simp only [Bool.not_false, Bool.true_and, decide_eq_true_eq, Nat.cast_lt]
  split <;> rename_i hlt
  · have hne : t % 2 ^ 63 ≠ 0 := fun e => by rw [e] at hlt; exact Nat.not_lt_zero _ hlt
    rw [max_eq_right (le_of_lt hlt)]
    exact (hz hne).symm
  · rw [max_eq_left (not_lt.1 hlt)]

theorem f64Plain_zero : f64Plain 0 := ⟨by norm_num, by decide⟩

theorem f64Plain_max (a b : Nat) (ha : f64Plain a) (hb : f64Plain b) : f64Plain (max a b) := by
  rcases max_choice a b with h | h <;> rw [h] <;> assumption

theorem foldl_std_max (ts : List Nat) :
    ∀ d : Nat, f64Plain d → (∀ t ∈ ts, t < 2 ^ 64 ∧ f64Le 0 t = true) →
      ts.foldl std_max d = (ts.map (fun t => t % 2 ^ 63)).foldl max d := by
  induction ts with
  | nil => intro d _ _; rfl
  | cons t ts ih =>
    intro d hd h
    obtain ⟨ht, hn⟩ := h t (by simp)
    rw [List.foldl_cons, List.map_cons, List.foldl_cons, std_max_plain d t hd ht hn]
    exact ih _ (f64Plain_max _ _ hd (f64_nonneg t ht hn).2.2.1) (fun u hu => h u (by simp [hu]))

theorem le_foldl_max (ms : List Nat) : ∀ d : Nat, d ≤ ms.foldl max d := by
  induction ms with
  | nil => intro d; exact le_refl d
  | cons m ms ih => intro d; exact le_trans (le_max_left d m) (ih _)

theorem mem_le_foldl_max (ms : List Nat) : ∀ d : Nat, ∀ m ∈ ms, m ≤ ms.foldl max d := by
  induction ms with
  | nil => intro d m hm; simp at hm
  | cons a ms ih =>
    intro d m hm
    rcases List.mem_cons.1 hm with rfl | h
    · exact le_trans (le_max_right d m) (le_foldl_max ms _)
    · exact ih _ m h

theorem foldl_max_mem (ms : List Nat) : ∀ d : Nat, ms.foldl max d = d ∨ ms.foldl max d ∈ ms := by
  induction ms with
  | nil => intro d; exact Or.inl rfl
  | cons a ms ih =>
    intro d
    rcases ih (max d a) with h | h
    · rcases max_choice d a with e | e
      · left; rw [List.foldl_cons, h, e]
      · right; rw [List.foldl_cons, h, e]; simp
    · right; rw [List.foldl_cons]; exact List.mem_cons_of_mem _ h

theorem foldl_max_perm (l1 l2 : List Nat) (d : Nat) (h : l1.Perm l2) :
    l1.foldl max d = l2.foldl max d := by
  haveI : RightCommutative (max : Nat → Nat → Nat) := ⟨fun a b c => by omega⟩
  exact h.foldl_eq d

/-! ## Animation decoding: the claim -/

theorem allTimes_lt (chs : List AnimationChannel) (hwf : ∀ c ∈ chs, c.wf) :
    ∀ t ∈ allTimes chs, t < 2 ^ 64 := by
  intro t ht
  simp only [allTimes, List.mem_flatMap, List.mem_map] at ht
  obtain ⟨c, hc, k, hk, rfl⟩ := ht
  exact ((hwf c hc).2.2 k hk).1

theorem allTimes_perm (chs chs' : List AnimationChannel) (h : chs'.Perm chs) :
    (allTimes chs').Perm (allTimes chs) :=
  List.Perm.flatMap_right _ h

/-- With an initial duration of `0.0` and keyframe times that are not negative, the duration
accumulated by `std::max` is the largest magnitude among the times. -/
theorem duration_fold (chs : List AnimationChannel) (hwf : ∀ c ∈ chs, c.wf)
    (hnonneg : ∀ t ∈ allTimes chs, f64Le 0 t = true) :
    (allTimes chs).foldl std_max 0
      = ((allTimes chs).map (fun t => t % 2 ^ 63)).foldl max 0 :=
  foldl_std_max (allTimes chs) 0 f64Plain_zero
    (fun t ht => ⟨allTimes_lt chs hwf t ht, hnonneg t ht⟩)

theorem duration_plain (ts : List Nat) (h : ∀ t ∈ ts, t < 2 ^ 64 ∧ f64Le 0 t = true) :
    f64Plain ((ts.map (fun t => t % 2 ^ 63)).foldl max 0) := by
  rcases foldl_max_mem (ts.map (fun t => t % 2 ^ 63)) 0 with e | e
  · rw [e]; exact f64Plain_zero
  · obtain ⟨t, ht, e2⟩ := List.mem_map.1 e
    rw [← e2]
    exact (f64_nonneg t (h t ht).1 (h t ht).2).2.2.1

theorem duration_ge (ts : List Nat) (h : ∀ t ∈ ts, t < 2 ^ 64 ∧ f64Le 0 t = true) :
    ∀ t ∈ ts, f64Le t ((ts.map (fun t => t % 2 ^ 63)).foldl max 0) = true := by
  intro t ht
  obtain ⟨hn, hk, -, -⟩ := f64_nonneg t (h t ht).1 (h t ht).2
  have hp := duration_plain ts h
  have hle : t % 2 ^ 63 ≤ (ts.map (fun t => t % 2 ^ 63)).foldl max 0 :=
    mem_le_foldl_max _ 0 _ (List.mem_map.2 ⟨t, ht, rfl⟩)
  simp only [f64Le, hn, hp.2, hk, f64Key_plain _ hp, Bool.not_false, Bool.true_and,
    decide_eq_true_eq, Nat.cast_le]
  exact hle

theorem duration_attained (ts : List Nat) (h : ∀ t ∈ ts, t < 2 ^ 64 ∧ f64Le 0 t = true)
    (hne : ts ≠ []) :
    ∃ t ∈ ts, f64Eq ((ts.map (fun t => t % 2 ^ 63)).foldl max 0) t = true := by
  have hp := duration_plain ts h
  rcases foldl_max_mem (ts.map (fun t => t % 2 ^ 63)) 0 with e | e
  · obtain ⟨t, ht⟩ := List.exists_mem_of_ne_nil ts hne
    obtain ⟨hn, hk, -, -⟩ := f64_nonneg t (h t ht).1 (h t ht).2
    have hle : t % 2 ^ 63 ≤ (ts.map (fun t => t % 2 ^ 63)).foldl max 0 :=
      mem_le_foldl_max _ 0 _ (List.mem_map.2 ⟨t, ht, rfl⟩)
    rw [e] at hle
    have hz : t % 2 ^ 63 = 0 := Nat.eq_zero_of_le_zero hle
    refine ⟨t, ht, ?_⟩
    rw [e]
    simp only [f64Eq, hn, hk, hz]
    decide
  · obtain ⟨t, ht, e2⟩ := List.mem_map.1 e
    obtain ⟨hn, hk, -, -⟩ := f64_nonneg t (h t ht).1 (h t ht).2
    refine ⟨t, ht, ?_⟩
    simp only [f64Eq, hn, hp.2, hk, f64Key_plain _ hp, Bool.not_false, Bool.true_and,
      decide_eq_true_eq, Nat.cast_inj]
    exact e2.symm

/-- C9: for a well-formed animation file with at least one keyframe and no negative keyframe
time, read into an animation whose duration starts at `0.0`, `LoadAnimation` returns the
encoded channels with their keyframes in file order, and a duration that equals one of the
keyframe times and is not below any of them; every permutation of the channels gives the same
duration. -/
theorem LoadAnimation_duration_is_max (uninit : Nat → Nat) (d0 : F64)
    (chs chs' : List AnimationChannel) (hd0 : d0 = 0) (hcount : chs.length < 2 ^ 32)
    (hwf : ∀ c ∈ chs, c.wf) (hnonneg : ∀ t ∈ allTimes chs, f64Le 0 t = true)
    (hne : allTimes chs ≠ []) (hperm : chs'.Perm chs) :
    ∃ anim anim' : Animation,
      LoadAnimation uninit d0 (some (encodeAnimation chs)) = some anim ∧
      anim.m_channels = chs ∧
      (∃ t ∈ allTimes chs, f64Eq anim.m_duration t = true) ∧
      (∀ t ∈ allTimes chs, f64Le t anim.m_duration = true) ∧
      LoadAnimation uninit d0 (some (encodeAnimation chs')) = some anim' ∧
      anim'.m_channels = chs' ∧ anim'.m_duration = anim.m_duration := by
  subst hd0
  have hts : ∀ t ∈ allTimes chs, t < 2 ^ 64 ∧ f64Le 0 t = true :=
    fun t ht => ⟨allTimes_lt chs hwf t ht, hnonneg t ht⟩
  have hwf' : ∀ c ∈ chs', c.wf := fun c hc => hwf c (hperm.mem_iff.1 hc)
  have hcount' : chs'.length < 2 ^ 32 := by rw [hperm.length_eq]; exact hcount
  have hpt := allTimes_perm chs chs' hperm
  have hnonneg' : ∀ t ∈ allTimes chs', f64Le 0 t = true :=
    fun t ht => hnonneg t (hpt.mem_iff.1 ht)
  refine ⟨_, _, LoadAnimation_encode uninit 0 chs hcount hwf, rfl, ?_, ?_,
    LoadAnimation_encode uninit 0 chs' hcount' hwf', rfl, ?_⟩
  · show ∃ t ∈ allTimes chs, f64Eq ((allTimes chs).foldl std_max 0) t = true
    rw [duration_fold chs hwf hnonneg]
    exact duration_attained (allTimes chs) hts hne
  · show ∀ t ∈ allTimes chs, f64Le t ((allTimes chs).foldl std_max 0) = true
    rw [duration_fold chs hwf hnonneg]
    exact duration_ge (allTimes chs) hts
  · show (allTimes chs').foldl std_max 0 = (allTimes chs).foldl std_max 0
    rw [duration_fold chs hwf hnonneg, duration_fold chs' hwf' hnonneg']
    exact foldl_max_perm _ _ 0 (hpt.map _)

theorem LoadAnimation_duration_is_max_witness :
    [sampleChannel0, sampleChannel1].length < 2 ^ 32 ∧
    (∀ c ∈ [sampleChannel0, sampleChannel1], c.wf) ∧
    (∀ t ∈ allTimes [sampleChannel0, sampleChannel1], f64Le 0 t = true) ∧
    allTimes [sampleChannel0, sampleChannel1] = [0, f64_1_5, f64_3_2, f64_0_5] ∧
    [sampleChannel1, sampleChannel0].Perm [sampleChannel0, sampleChannel1] ∧
    (∃ anim anim' : Animation,
      LoadAnimation (fun _ => 0) 0 (some (encodeAnimation [sampleChannel0, sampleChannel1]))
        = some anim ∧
      anim.m_channels = [sampleChannel0, sampleChannel1] ∧
      (∃ t ∈ allTimes [sampleChannel0, sampleChannel1], f64Eq anim.m_duration t = true) ∧
      (∀ t ∈ allTimes [sampleChannel0, sampleChannel1], f64Le t anim.m_duration = true) ∧
      LoadAnimation (fun _ => 0) 0 (some (encodeAnimation [sampleChannel1, sampleChannel0]))
        = some anim' ∧
      anim'.m_channels = [sampleChannel1, sampleChannel0] ∧
      anim'.m_duration = anim.m_duration) ∧
    LoadAnimation (fun _ => 0) 0 (some (encodeAnimation [sampleChannel0]))
      = some ⟨f64_3_2, [sampleChannel0]⟩ :=
  have h1 : [sampleChannel0, sampleChannel1].length < 2 ^ 32 := by decide
  have h2 : ∀ c ∈ [sampleChannel0, sampleChannel1], c.wf := by decide
  have h3 : ∀ t ∈ allTimes [sampleChannel0, sampleChannel1], f64Le 0 t = true := by decide
  have h4 : [sampleChannel1, sampleChannel0].Perm [sampleChannel0, sampleChannel1] :=
    List.Perm.swap sampleChannel0 sampleChannel1 []
  ⟨h1, h2, h3, rfl, h4,
   LoadAnimation_duration_is_max (fun _ => 0) 0 [sampleChannel0, sampleChannel1]
     [sampleChannel1, sampleChannel0] rfl h1 h2 h3 (by decide) h4,
   (LoadAnimation_encode (fun _ => 0) 0 [sampleChannel0] (by decide) (by decide)).trans rfl⟩

/-! ## Textures: auxiliary facts -/

theorem length_flatten_uniform (bytesPerRow : Nat) (rows : List (List Nat))
    (h : ∀ r ∈ rows, r.length = bytesPerRow) :
    rows.flatten.length = bytesPerRow * rows.length := by
  induction rows with
  | nil => simp
  | cons r rows ih =>
    rw [List.flatten_cons, List.length_append, h r (by simp),
      ih (fun x hx => h x (by simp [hx])), List.length_cons]
    ring

/-- Row `k` of a buffer made of rows of equal length is the `k`-th of these rows. -/
theorem bufferRow_flatten (bytesPerRow : Nat) (rows : List (List Nat))
    (h : ∀ r ∈ rows, r.length = bytesPerRow) :
    ∀ k : Nat, k < rows.length → rows[k]? = some (bufferRow bytesPerRow rows.flatten k) := by
  induction rows with
  | nil => intro k hk; simp at hk
  | cons r rows ih =>
    intro k hk
    have hr : r.length = bytesPerRow := h r (by simp)
    cases k with
    | zero =>
      simp [bufferRow, List.flatten_cons, ← hr]
    | succ k =>
      have hk2 : k < rows.length := by simpa using hk
      have h2 := ih (fun x hx => h x (by simp [hx])) k hk2
      rw [List.getElem?_cons_succ, h2]
      unfold bufferRow
      rw [List.flatten_cons, Nat.mul_succ, Nat.add_comm, ← hr, List.drop_append]

theorem memcpy_middle (a b c src : List Nat) (hb : b.length = src.length) :
    memcpy (a ++ b ++ c) a.length src src.length = some (a ++ src ++ c) := by
  unfold memcpy
  rw [if_pos ⟨by simp [hb], le_refl _⟩, List.append_assoc a b c, List.take_left,
    List.take_length, List.drop_append, ← hb, List.drop_left]

/-- The state of the pixel buffer after `i` passes of the row loop, as long as nothing
overflows: zeros where no row has been copied yet, followed by the rows copied so far, the
last one first. -/
theorem LoadTexture_rowLoop_spec (bytesPerRow : Nat) (rows : List (List Nat))
    (hrows : ∀ r ∈ rows, r.length = bytesPerRow)
    (hsize : bytesPerRow * rows.length < 2 ^ 32) :
    ∀ n i : Nat, n + i = rows.length →
      LoadTexture_rowLoop bytesPerRow rows.length rows n i
          (List.replicate (bytesPerRow * n) 0 ++ (rows.take i).reverse.flatten)
        = some rows.reverse.flatten := by
  intro n
  induction n with
  | zero =>
    intro i hi
    have : i = rows.length := by omega
    subst this
    simp [LoadTexture_rowLoop]
  | succ n ih =>
    intro i hi
    have hlt : i < rows.length := by omega
    obtain ⟨row, hrow⟩ : ∃ row, rows[i]? = some row := ⟨_, List.getElem?_eq_getElem hlt⟩
    have hmem : row ∈ rows := List.getElem?_mem hrow
    have hlen : row.length = bytesPerRow := hrows row hmem
    have hoff : rows.length - 1 - i = n := by omega
    have hle : bytesPerRow * n ≤ bytesPerRow * rows.length :=
      Nat.mul_le_mul_left _ (by omega)
    have hmod : bytesPerRow * n % 2 ^ 32 = bytesPerRow * n :=
      Nat.mod_eq_of_lt (lt_of_le_of_lt hle hsize)
    have htake : (rows.take (i + 1)).reverse.flatten
        = row ++ (rows.take i).reverse.flatten := by
      rw [List.take_succ, hrow]
      simp
    have hcopy : memcpy (List.replicate (bytesPerRow * (n + 1)) 0
          ++ (rows.take i).reverse.flatten) (bytesPerRow * n) row bytesPerRow
        = some (List.replicate (bytesPerRow * n) 0 ++ (rows.take (i + 1)).reverse.flatten) := by
      have hsplit : List.replicate (bytesPerRow * (n + 1)) 0
          = List.replicate (bytesPerRow * n) 0 ++ List.replicate bytesPerRow 0 := by
        rw [Nat.mul_succ, List.replicate_add]
      have h := memcpy_middle (List.replicate (bytesPerRow * n) 0)
        (List.replicate bytesPerRow 0) (rows.take i).reverse.flatten row (by simp [hlen])
      rw [List.length_replicate, hlen] at h
      rw [hsplit, h, htake, List.append_assoc]
    rw [LoadTexture_rowLoop, hrow, Option.some_bind, hoff, hmod, hcopy, Option.some_bind]
    exact ih (i + 1) (by omega)

/-- Within the range of `unsigned int`, the pixel buffer is the rows of the decoded image in
reverse order. -/
theorem LoadTexture_pixels_eq (bytesPerRow : Nat) (rows : List (List Nat))
    (hrows : ∀ r ∈ rows, r.length = bytesPerRow)
    (hsize : bytesPerRow * rows.length < 2 ^ 32) :
    LoadTexture_pixels bytesPerRow rows.length rows = some rows.reverse.flatten := by
  have h := LoadTexture_rowLoop_spec bytesPerRow rows hrows hsize rows.length 0 (by omega)
  simp only [List.take_zero, List.reverse_nil, List.flatten_nil, List.append_nil] at h
  unfold LoadTexture_pixels
  rw [Nat.mod_eq_of_lt hsize]
  exact h

theorem memcpy_length (dst src out : List Nat) (off n : Nat)
    (h : memcpy dst off src n = some out) : out.length = dst.length := by
  unfold memcpy at h
  split at h
  · rename_i hc
    obtain ⟨h1, h2⟩ := hc
    injection h with h
    subst h
    simp only [List.length_append, List.length_take, List.length_drop]
    omega
  · exact absurd h (by simp)

theorem LoadTexture_rowLoop_length (bytesPerRow height : Nat) (rows : List (List Nat)) :
    ∀ (n i : Nat) (data out : List Nat),
      LoadTexture_rowLoop bytesPerRow height rows n i data = some out →
      out.length = data.length := by
  intro n
  induction n with
  | zero =>
    intro i data out h
    simp only [LoadTexture_rowLoop, Option.some.injEq] at h
    rw [h]
  | succ n ih =>
    intro i data out h
    rw [LoadTexture_rowLoop] at h
    obtain ⟨row, -, h⟩ := Option.bind_eq_some.1 h
    obtain ⟨data', hcopy, h⟩ := Option.bind_eq_some.1 h
    rw [ih _ _ _ h, memcpy_length _ _ _ _ _ hcopy]

/-- Whatever the image, a pixel buffer that `LoadTexture` gets to build has
`bytesPerRow * height` bytes modulo `2^32`. -/
theorem LoadTexture_pixels_length (bytesPerRow height : Nat) (rows : List (List Nat))
    (out : List Nat) (h : LoadTexture_pixels bytesPerRow height rows = some out) :
    out.length = bytesPerRow * height % 2 ^ 32 := by
  unfold LoadTexture_pixels at h
  rw [LoadTexture_rowLoop_length _ _ _ _ _ _ _ h, List.length_replicate]

/-- For an image whose `bytesPerRow * height` stays below `2^32`: the pixel buffer has
exactly `bytesPerRow * height` bytes, its row `height-1-i` is source row `i`, it consists of
the source rows in reverse order (each exactly once), and inverting the rows of the result
gives back the source. -/
theorem LoadTexture_rows_inverted (bytesPerRow : Nat) (rows : List (List Nat))
    (hrows : ∀ r ∈ rows, r.length = bytesPerRow)
    (hsize : bytesPerRow * rows.length < 2 ^ 32) :
    ∃ data, LoadTexture_pixels bytesPerRow rows.length rows = some data ∧
      data.length = bytesPerRow * rows.length ∧
      (∀ i, i < rows.length →
        rows[i]? = some (bufferRow bytesPerRow data (rows.length - 1 - i))) ∧
      rows.getLast? = (if rows = [] then none else some (bufferRow bytesPerRow data 0)) ∧
      data = rows.reverse.flatten ∧ rows.reverse.Perm rows ∧
      LoadTexture_pixels bytesPerRow rows.length rows.reverse = some rows.flatten := by
  have hrev : ∀ r ∈ rows.reverse, r.length = bytesPerRow :=
    fun r hr => hrows r (List.mem_reverse.1 hr)
  have hrow : ∀ i, i < rows.length →
      rows[i]? = some (bufferRow bytesPerRow rows.reverse.flatten (rows.length - 1 - i)) := by
    intro i hi
    have h := bufferRow_flatten bytesPerRow rows.reverse hrev (rows.length - 1 - i)
      (by rw [List.length_reverse]; omega)
    rw [List.getElem?_reverse (by omega)] at h
    rw [← h]
    congr 1
    omega
  refine ⟨_, LoadTexture_pixels_eq bytesPerRow rows hrows hsize, ?_, hrow, ?_, rfl,
    List.reverse_perm rows, ?_⟩
  · rw [length_flatten_uniform bytesPerRow rows.reverse hrev, List.length_reverse]
  · split
    · rename_i he; rw [he]; rfl
    · rename_i hne
      have hpos : 0 < rows.length := List.length_pos.2 hne
      have h0 := bufferRow_flatten bytesPerRow rows.reverse hrev 0
        (by rw [List.length_reverse]; exact hpos)
      rw [← h0, List.getLast?_eq_head?_reverse, List.head?_eq_getElem?]
  · have h := LoadTexture_pixels_eq bytesPerRow rows.reverse hrev
      (by rw [List.length_reverse]; exact hsize)
    rw [List.length_reverse, List.reverse_reverse] at h
    exact h

theorem LoadTexture_rows_inverted_witness :
    (∀ r ∈ sampleImage, r.length = 6) ∧ 6 * sampleImage.length < 2 ^ 32 ∧
    ∃ data, LoadTexture_pixels 6 sampleImage.length sampleImage = some data ∧
      data.length = 6 * sampleImage.length ∧
      bufferRow 6 data 0 = [13, 14, 15, 16, 17, 18] ∧
      data = [13, 14, 15, 16, 17, 18, 7, 8, 9, 10, 11, 12, 1, 2, 3, 4, 5, 6] :=
  have h1 : ∀ r ∈ sampleImage, r.length = 6 := by decide
  have h2 : 6 * sampleImage.length < 2 ^ 32 := by decide
  match LoadTexture_rows_inverted 6 sampleImage h1 h2 with
  | ⟨data, hd, hl, _, _, he, _, _⟩ => ⟨h1, h2, data, hd, hl, by rw [he]; rfl, by rw [he]; rfl⟩

/-- C10, at the failing input: for an image of 1432 rows of 3000000 bytes the product
`bytesPerRow * height = 4296000000` does not fit `unsigned int`; the buffer is created with
`4296000000 mod 2^32 = 1032704` bytes, the first `memcpy` aims at offset `4293000000`, far
outside it, and no pixel buffer of `bytesPerRow * height` bytes is ever built. -/
theorem LoadTexture_pixels_overflow :
    hugeImage.length = 1432 ∧ (∀ r ∈ hugeImage, r.length = 3000000) ∧
    3000000 * 1432 % 2 ^ 32 = 1032704 ∧
    3000000 * (1432 - 1 - 0) % 2 ^ 32 = 4293000000 ∧
    LoadTexture_pixels 3000000 1432 hugeImage = none ∧
    ¬ ∃ data, LoadTexture_pixels 3000000 1432 hugeImage = some data ∧
      data.length = 3000000 * 1432 := by
  have hnone : LoadTexture_pixels 3000000 1432 hugeImage = none := by
    unfold LoadTexture_pixels
    show LoadTexture_rowLoop 3000000 1432 hugeImage (1431 + 1) 0 _ = none
    rw [LoadTexture_rowLoop]
    have hrow : hugeImage[0]? = some (List.replicate 3000000 0) := by
      unfold hugeImage
      rw [List.getElem?_replicate, if_pos (by decide)]
    rw [hrow, Option.some_bind]
    have hcopy : memcpy (List.replicate (3000000 * 1432 % 2 ^ 32) 0)
        (3000000 * (1432 - 1 - 0) % 2 ^ 32) (List.replicate 3000000 0) 3000000 = none := by
      unfold memcpy
      rw [if_neg]
      rintro ⟨h, -⟩
      rw [List.length_replicate] at h
      exact absurd h (by decide)
    rw [hcopy, Option.none_bind]
  refine ⟨?_, ?_, by decide, by decide, hnone, ?_⟩
  · unfold hugeImage; rw [List.length_replicate]
  · intro r hr
    unfold hugeImage at hr
    rw [List.eq_of_mem_replicate hr, List.length_replicate]
  · rintro ⟨data, hd, -⟩
    rw [hnone] at hd
    exact absurd hd (by simp)

/-! ## Renderer: the projection matrix -/

/-- C16: on a renderer that is not recording, `SetViewPosition` stores its three arguments as
camera position, yaw and tilt, and sets the projection matrix to
`perspective(20, 16/9, 0.1, 100) * (rotate(I, tilt, X) * rotate(I, yaw, Y)) * translate(I, pos)`,
the factors standing in this order; the camera state and the matrix that result are the same
from whatever renderer state the call starts, provided it is not recording. -/
theorem SetViewPosition_projection (ext : Ext) (r r' : Renderer) (pos : Vec3) (yaw tilt : F32)
    (hr : r.m_bIsMidFrame = false) (hr' : r'.m_bIsMidFrame = false) :
    (Renderer.SetViewPosition ext r pos yaw tilt).m_viewPos = pos ∧
    (Renderer.SetViewPosition ext r pos yaw tilt).m_viewYaw = yaw ∧
    (Renderer.SetViewPosition ext r pos yaw tilt).m_viewTilt = tilt ∧
    (Renderer.SetViewPosition ext r pos yaw tilt).m_matProjection
      = ext.matMul
          (ext.matMul (ext.perspective f64_20 f64_16_9 f64_0_1 f64_100)
            (ext.matMul (ext.rotate ext.matIdentity tilt ⟨f32_1, f32_0, f32_0⟩)
              (ext.rotate ext.matIdentity yaw ⟨f32_0, f32_1, f32_0⟩)))
          (ext.translate ext.matIdentity pos) ∧
    (Renderer.SetViewPosition ext r' pos yaw tilt).m_viewPos
      = (Renderer.SetViewPosition ext r pos yaw tilt).m_viewPos ∧
    (Renderer.SetViewPosition ext r' pos yaw tilt).m_viewYaw
      = (Renderer.SetViewPosition ext r pos yaw tilt).m_viewYaw ∧
    (Renderer.SetViewPosition ext r' pos yaw tilt).m_viewTilt
      = (Renderer.SetViewPosition ext r pos yaw tilt).m_viewTilt ∧
    (Renderer.SetViewPosition ext r' pos yaw tilt).m_matProjection
      = (Renderer.SetViewPosition ext r pos yaw tilt).m_matProjection := by
  simp [Renderer.SetViewPosition, Renderer.UpdateProjectionMatrix, hr, hr']

theorem SetViewPosition_projection_witness :
    sampleRenderer.m_bIsMidFrame = false ∧
    ({ sampleRenderer with m_viewPos := ⟨9, 9, 9⟩, m_viewYaw := 9, m_matProjection := [9] }
      : Renderer).m_bIsMidFrame = false ∧
    (Renderer.SetViewPosition symbolicExt sampleRenderer ⟨1, 2, 3⟩ 4 5).m_viewPos = ⟨1, 2, 3⟩ ∧
    (Renderer.SetViewPosition symbolicExt sampleRenderer ⟨1, 2, 3⟩ 4 5).m_matProjection
      = [30, 30, 20, f64_20, f64_16_9, f64_0_1, f64_100, 21,
         30, 22, 10, 5, f32_1, 0, 0, 23, 22, 10, 4, 0, f32_1, 0, 23, 31, 31,
         24, 10, 1, 2, 3, 25, 31] ∧
    (Renderer.SetViewPosition symbolicExt
      { sampleRenderer with m_viewPos := ⟨9, 9, 9⟩, m_viewYaw := 9, m_matProjection := [9] }
      ⟨1, 2, 3⟩ 4 5).m_matProjection
      = (Renderer.SetViewPosition symbolicExt sampleRenderer ⟨1, 2, 3⟩ 4 5).m_matProjection :=
  have h := SetViewPosition_projection symbolicExt sampleRenderer
    { sampleRenderer with m_viewPos := ⟨9, 9, 9⟩, m_viewYaw := 9, m_matProjection := [9] }
    ⟨1, 2, 3⟩ 4 5 rfl rfl
  ⟨rfl, rfl, h.1, h.2.2.2.1.trans rfl, h.2.2.2.2.2.2.2⟩

/-! ## Baked meshes: the uploaded vertex buffer -/

theorem length_read (s : IStream) (buf : List Nat) (n : Nat) (h : n ≤ buf.length) :
    (s.read buf n).1.length = buf.length := by
  unfold IStream.read
  split
  · simp only [List.length_append, List.length_take, List.length_drop]
    omega
  · rfl

theorem read_good (bytes buf : List Nat) (n : Nat) :
    (IStream.read ⟨bytes, true⟩ buf n).2.bytes = bytes.drop n := by
  simp [IStream.read]

theorem read_append_longer (xs rest buf : List Nat) (n : Nat) (hx : xs.length = n) :
    IStream.read ⟨xs ++ rest, true⟩ buf n = (xs ++ buf.drop n, ⟨rest, true⟩) := by
  subst hx
  simp [IStream.read]

/-- The static-mesh decoder, on a file with an even flag byte, the counts `nv` and `ni`,
`32 * nv` bytes of vertex data and `4 * ni` bytes of index data: the mesh has the 8-float
stride and exactly the vertex data of the file is read, but the vertex buffer uploaded is the
whole vector of `16 * nv` floats, that is `64 * nv` bytes: the vertex data followed by
`32 * nv` zero bytes. -/
theorem LoadBakedStaticMesh_vertexBuffer (uninit : Nat → Nat) (b nv ni : Nat)
    (vdata idata rest : List Nat) (hb : b < 256) (hbit : b % 2 = 0) (hnv : nv < 2 ^ 32)
    (hni : ni < 2 ^ 32) (hv : vdata.length = 32 * nv) (hi : idata.length = 4 * ni) :
    ∃ mesh, LoadBakedStaticMesh uninit
        (some (b :: (u32le nv ++ (u32le ni ++ (vdata ++ (idata ++ rest)))))) = some mesh ∧
      mesh.m_iStride = 32 ∧ mesh.m_iNumTris = nv / 3 ∧ mesh.m_iNumIndices = ni ∧
      mesh.vertexBuffer = vdata ++ List.replicate (32 * nv) 0 ∧
      mesh.indexBuffer = idata ∧
      mesh.vertexBuffer.length = 64 * nv := by
  have hflag : ¬ (intBits (toChar b) &&& 1 ≠ 0) := by
    rw [flag_bit_clear b hb hbit]; simp
  have h16 : 16 * nv * sizeofGLfloat = 64 * nv := by unfold sizeofGLfloat; omega
  have h8 : 8 * sizeofGLfloat * nv = 32 * nv := by unfold sizeofGLfloat; omega
  have hibuf : (List.replicate (ni * sizeofGLuint) 0).length ≤ 4 * ni := by
    rw [List.length_replicate]; unfold sizeofGLuint; omega
  have hread1 : readBytes ⟨vdata ++ (idata ++ rest), true⟩
      (List.replicate (16 * nv * sizeofGLfloat) 0) (8 * sizeofGLfloat * nv)
      = (vdata ++ List.replicate (32 * nv) 0, ⟨idata ++ rest, true⟩) := by
    rw [readBytes, read_append_longer vdata _ _ _ (by rw [hv, h8]), h16, h8,
      List.drop_replicate]
    congr 3
    omega
  have hread2 := readBytes_append idata rest (List.replicate (ni * sizeofGLuint) 0) (4 * ni)
    hi hibuf
  have e : LoadBakedStaticMesh uninit
      (some (b :: (u32le nv ++ (u32le ni ++ (vdata ++ (idata ++ rest))))))
      = some
        { m_iNumTris := nv / 3
          m_iNumIndices := ni
          m_iStride := 8 * sizeofGLfloat
          m_iOffPos := 0 * sizeofGLfloat
          m_iOffNormal := 3 * sizeofGLfloat
          m_iOffUV := 6 * sizeofGLfloat
          vertexBuffer := vdata ++ List.replicate (32 * nv) 0
          indexBuffer := idata
          attribs :=
            [GLCall.glVertexAttribPointer 0 3 (8 * sizeofGLfloat) (0 * sizeofGLfloat),
             GLCall.glVertexAttribPointer 1 2 (8 * sizeofGLfloat) (6 * sizeofGLfloat),
             GLCall.glVertexAttribPointer 2 3 (8 * sizeofGLfloat) (3 * sizeofGLfloat)] } := by
    simp only [LoadBakedStaticMesh, ifstream, readU8_cons b _ hb, Bool.not_true,
      Bool.false_eq_true, if_false, if_neg hflag, readU32_u32le uninit _ _ hnv,
      readU32_u32le uninit _ _ hni, hread1, hread2]
  refine ⟨_, e, rfl, rfl, rfl, rfl, rfl, ?_⟩
  show (vdata ++ List.replicate (32 * nv) 0).length = 64 * nv
  rw [List.length_append, List.length_replicate, hv]
  omega

/-- The animated-mesh decoder, on a file with a non-zero flag byte, the counts `nv` and `ni`,
`64 * nv` bytes of vertex data and `4 * ni` bytes of index data: the vertex buffer uploaded is
exactly the vertex data of the file, `nv` times the 16-float stride long, and the index buffer
is the index data. -/
theorem LoadAnimatedMesh_vertexBuffer (uninit : Nat → Nat) (b nv ni : Nat)
    (vdata idata rest : List Nat) (hb : b < 256) (hb0 : b ≠ 0) (hnv : nv < 2 ^ 32)
    (hni : ni < 2 ^ 32) (hv : vdata.length = 64 * nv) (hi : idata.length = 4 * ni) :
    ∃ mesh, LoadAnimatedMesh uninit
        (some (b :: (u32le nv ++ (u32le ni ++ (vdata ++ (idata ++ rest)))))) = some mesh ∧
      mesh.m_iStride = 64 ∧ mesh.vertexBuffer = vdata ∧ mesh.indexBuffer = idata ∧
      mesh.vertexBuffer.length = nv * mesh.m_iStride := by
  have hc : toChar b ≠ 0 := fun e => hb0 ((toChar_eq_zero b hb).1 e)
  have hflag : ¬ (intBits (if toChar b = 0 then (1 : Int) else 0) &&& 1 ≠ 0) := by
    rw [if_neg hc]; decide
  have h16 : 16 * sizeofGLfloat * nv = 64 * nv := by unfold sizeofGLfloat; omega
  have hbuf : (List.replicate (16 * nv * sizeofGLfloat) 0).length ≤ 16 * sizeofGLfloat * nv := by
    rw [List.length_replicate]; unfold sizeofGLfloat; omega
  have hibuf : (List.replicate (ni * sizeofGLuint) 0).length ≤ 4 * ni := by
    rw [List.length_replicate]; unfold sizeofGLuint; omega
  have hread1 := readBytes_append vdata (idata ++ rest)
    (List.replicate (16 * nv * sizeofGLfloat) 0) (16 * sizeofGLfloat * nv)
    (by rw [hv, h16]) hbuf
  have hread2 := readBytes_append idata rest (List.replicate (ni * sizeofGLuint) 0) (4 * ni)
    hi hibuf
  have e : LoadAnimatedMesh uninit
      (some (b :: (u32le nv ++ (u32le ni ++ (vdata ++ (idata ++ rest))))))
      = some
        { m_iNumTris := nv / 3
          m_iNumIndices := ni
          m_iStride := 16 * sizeofGLfloat
          m_iOffPos := 0 * sizeofGLfloat
          m_iOffNormal := 3 * sizeofGLfloat
          m_iOffUV := 6 * sizeofGLfloat
          m_iOffBoneWeights := 8 * sizeofGLfloat
          m_iOffBoneIds := 12 * sizeofGLfloat
          vertexBuffer := vdata
          indexBuffer := idata
          attribs :=
            [GLCall.glVertexAttribPointer 0 3 (16 * sizeofGLfloat) (0 * sizeofGLfloat),
             GLCall.glVertexAttribPointer 1 3 (16 * sizeofGLfloat) (3 * sizeofGLfloat),
             GLCall.glVertexAttribPointer 2 2 (16 * sizeofGLfloat) (6 * sizeofGLfloat),
             GLCall.glVertexAttribPointer 3 4 (16 * sizeofGLfloat) (8 * sizeofGLfloat),
             GLCall.glVertexAttribPointer 4 4 (16 * sizeofGLfloat) (12 * sizeofGLfloat)] } := by
    simp only [LoadAnimatedMesh, ifstream, readU8_cons b _ hb, Bool.not_true,
      Bool.false_eq_true, if_false, if_neg hflag, readU32_u32le uninit _ _ hnv,
      readU32_u32le uninit _ _ hni, hread1, hread2]
  refine ⟨_, e, rfl, rfl, rfl, ?_⟩
  show vdata.length = nv * (16 * sizeofGLfloat)
  rw [hv]; unfold sizeofGLfloat; omega

theorem LoadAnimatedMesh_vertexBuffer_witness :
    (1 : Nat) < 256 ∧ (1 : Nat) ≠ 0 ∧ (0 : Nat) < 2 ^ 32 ∧
    ∃ mesh, LoadAnimatedMesh (fun _ => 0) (some sampleSkinnedFile) = some mesh ∧
      mesh.m_iStride = 64 ∧ mesh.vertexBuffer = [] ∧ mesh.indexBuffer = [] ∧
      mesh.vertexBuffer.length = 0 * mesh.m_iStride :=
  ⟨by decide, by decide, by decide,
    LoadAnimatedMesh_vertexBuffer (fun _ => 0) 1 0 0 [] [] [] (by decide) (by decide)
      (by decide) (by decide) rfl rfl⟩

theorem LoadBakedStaticMesh_vertexBuffer_witness :
    (0 : Nat) < 256 ∧ 0 % 2 = 0 ∧ (0 : Nat) < 2 ^ 32 ∧
    ∃ mesh, LoadBakedStaticMesh (fun _ => 0) (some [0, 0, 0, 0, 0, 0, 0, 0, 0]) = some mesh ∧
      mesh.m_iStride = 32 ∧ mesh.m_iNumTris = 0 / 3 ∧ mesh.m_iNumIndices = 0 ∧
      mesh.vertexBuffer = [] ++ List.replicate (32 * 0) 0 ∧ mesh.indexBuffer = [] ∧
      mesh.vertexBuffer.length = 64 * 0 :=
  ⟨by decide, by decide, by decide,
    LoadBakedStaticMesh_vertexBuffer (fun _ => 0) 0 0 0 [] [] [] (by decide) (by decide)
      (by decide) (by decide) rfl rfl⟩

theorem length_sampleTriangleVertexBytes : sampleTriangleVertexBytes.length = 96 := by
  simp [sampleTriangleVertexBytes]

/-- C14, at the failing input: for a static mesh file declaring 3 vertices, the mesh returned
by `LoadBakedStaticMesh` has a stride of 32 bytes, so 3 vertices make 96 bytes, and 96 bytes of
vertex data are read from the file; but the vertex buffer uploaded has 192 bytes, the 96 read
followed by 96 zero bytes. -/
theorem LoadBakedStaticMesh_buffer_too_long :
    ∃ mesh, LoadBakedStaticMesh (fun _ => 0) (some sampleTriangleFile) = some mesh ∧
      mesh.m_iStride = 32 ∧ mesh.m_iNumTris = 1 ∧ mesh.m_iNumIndices = 3 ∧
      3 * mesh.m_iStride = 96 ∧
      mesh.vertexBuffer.length = 192 ∧
      mesh.vertexBuffer = sampleTriangleVertexBytes ++ List.replicate 96 0 ∧
      mesh.indexBuffer = [0, 0, 0, 0, 1, 0, 0, 0, 2, 0, 0, 0] := by
  obtain ⟨mesh, hm, hs, ht, hn, hvb, hib, hl⟩ :=
    LoadBakedStaticMesh_vertexBuffer (fun _ => 0) 0 3 3 sampleTriangleVertexBytes
      (u32le 0 ++ u32le 1 ++ u32le 2) [] (by decide) (by decide) (by decide) (by decide)
      length_sampleTriangleVertexBytes rfl
  have hfile : sampleTriangleFile = 0 :: (u32le 3 ++ (u32le 3 ++ (sampleTriangleVertexBytes
      ++ ((u32le 0 ++ u32le 1 ++ u32le 2) ++ [])))) := by
    simp [sampleTriangleFile]
  rw [← hfile] at hm
  exact ⟨mesh, hm, hs, ht, hn, by rw [hs], hl, hvb, hib⟩

/-! ## Decoders at the end of the stream -/

theorem readU8_lt (s : IStream) : (readU8 s).1 < 256 := by
  unfold readU8
  have h := Int.emod_lt_of_pos s.get.1 (show (0 : Int) < 256 by decide)
  have h0 := Int.emod_nonneg s.get.1 (show (256 : Int) ≠ 0 by decide)
  omega

theorem read_failed (buf : List Nat) (n : Nat) :
    IStream.read ⟨[], false⟩ buf n = (buf, ⟨[], false⟩) := by
  simp [IStream.read]

theorem readF32_failed (uninit : Nat → Nat) :
    readF32 uninit ⟨[], false⟩ = (leValue (readF32_ret uninit), ⟨[], false⟩) := by
  simp only [readF32, read_failed]

theorem readU32_failed (uninit : Nat → Nat) :
    readU32 uninit ⟨[], false⟩ = (leValue (readU32_ret uninit), ⟨[], false⟩) := by
  simp only [readU32, read_failed]

theorem readF64_failed (uninit : Nat → Nat) :
    readF64 uninit ⟨[], false⟩ = (leValue (readF64_ret uninit), ⟨[], false⟩) := by
  simp only [readF64, read_failed]

theorem readM44_failed (uninit : Nat → Nat) :
    readM44 uninit ⟨[], false⟩ = (leWords (readM44_ret uninit), ⟨[], false⟩) := by
  simp only [readM44, readBytes, read_failed]

/-- The locals of the four read functions are independent of one another: a content of
uninitialised memory can give each of them a value of its own. -/
theorem read_locals_independent :
    (readU32 sampleUninit ⟨[], false⟩).1 = 7 ∧
    (readF32 sampleUninit ⟨[], false⟩).1 = 32767 ∧
    (readF64 sampleUninit ⟨[], false⟩).1 = f64_0_5 ∧
    (readM44 sampleUninit ⟨[], false⟩).1 = mat4Identity := by
  rw [readU32_failed, readF32_failed, readF64_failed, readM44_failed]
  decide

/-- The skeleton decoder, restated for use by several results: a well-formed file decodes to
the bones it encodes. -/
theorem LoadSkeleton_encode (uninit : Nat → Nat) (bones : List Bone)
    (hcount : bones.length < 2 ^ 32) (hwf : ∀ b ∈ bones, b.wf) :
    LoadSkeleton uninit (some (encodeSkeleton bones)) = some ⟨bones⟩ := by
  simp only [LoadSkeleton, ifstream, encodeSkeleton, Bool.not_true, Bool.false_eq_true,
    if_false, readU32_u32le uninit _ _ hcount]
  have h := LoadSkeleton_boneLoop_encode uninit bones [] [] hwf
  simp only [List.append_nil, List.nil_append] at h
  rw [h]

theorem LoadSkeleton_childLoop_lt (n : Nat) :
    ∀ (s : IStream) (acc : List Nat), (∀ c ∈ acc, c < 256) →
      ∀ c ∈ (LoadSkeleton_childLoop n s acc).1, c < 256 := by
  induction n with
  | zero => intro s acc h; exact h
  | succ n ih =>
    intro s acc h
    rw [LoadSkeleton_childLoop]
    apply ih
    intro c hc
    rcases List.mem_append.1 hc with hc | hc
    · exact h c hc
    · rw [List.mem_singleton.1 hc]; exact readU8_lt s

theorem LoadSkeleton_bone_childIds_lt (uninit : Nat → Nat) (s : IStream) :
    ∀ c ∈ (LoadSkeleton_bone uninit s).1.childIds, c < 256 := by
  simp only [LoadSkeleton_bone]
  exact LoadSkeleton_childLoop_lt _ _ [] (by simp)

theorem LoadSkeleton_boneLoop_childIds_lt (uninit : Nat → Nat) (n : Nat) :
    ∀ (s : IStream) (acc : List Bone), (∀ b ∈ acc, ∀ c ∈ b.childIds, c < 256) →
      ∀ b ∈ (LoadSkeleton_boneLoop uninit n s acc).1, ∀ c ∈ b.childIds, c < 256 := by
  induction n with
  | zero => intro s acc h; exact h
  | succ n ih =>
    intro s acc h
    rw [LoadSkeleton_boneLoop]
    apply ih
    intro b hb
    rcases List.mem_append.1 hb with hb | hb
    · exact h b hb
    · rw [List.mem_singleton.1 hb]; exact LoadSkeleton_bone_childIds_lt uninit s

theorem LoadSkeleton_childIds_lt (uninit : Nat → Nat) (file : Option (List Nat))
    (sk : Skeleton) (h : LoadSkeleton uninit file = some sk) :
    ∀ b ∈ sk.bones, ∀ c ∈ b.childIds, c < 256 := by
  unfold LoadSkeleton at h
  simp only at h
  split at h
  · exact absurd h (by simp)
  · injection h with h
    subst h
    exact LoadSkeleton_boneLoop_childIds_lt uninit _ _ [] (by simp)

/-- C17, at the failing input: the well-formed skeleton file of one bone whose child list is
`[5]` decodes to that bone; its child id 5 is not smaller than the number of bones, 1. -/
theorem LoadSkeleton_keeps_stray_child :
    strayBone.wf ∧ encodeSkeleton [strayBone] = strayBoneBytes ∧
    ∃ sk, LoadSkeleton (fun _ => 0) (some strayBoneBytes) = some sk ∧
      sk.bones.length = 1 ∧ sk.bones.map Bone.childIds = [[5]] ∧
      ¬ (∀ b ∈ sk.bones, ∀ c ∈ b.childIds, c < sk.bones.length) := by
  have hb : encodeSkeleton [strayBone] = strayBoneBytes := rfl
  refine ⟨by decide, hb, ⟨[strayBone]⟩, ?_, rfl, rfl, by decide⟩
  rw [← hb]
  exact LoadSkeleton_encode (fun _ => 0) [strayBone] (by decide) (by decide)

/-- C17, amended: `LoadSkeleton` copies child ids without checking them. Every child id of a
skeleton it returns is a byte value, smaller than 256; and for a file that encodes a
well-formed list of bones, the child ids returned are the encoded ones, so that they are valid
bone indices of the skeleton exactly when the encoded ids are valid for the encoded list. -/
theorem LoadSkeleton_childIds_copied (uninit : Nat → Nat) (file : Option (List Nat))
    (sk : Skeleton) (bones : List Bone) (h : LoadSkeleton uninit file = some sk)
    (hcount : bones.length < 2 ^ 32) (hwf : ∀ b ∈ bones, b.wf) :
    (∀ b ∈ sk.bones, ∀ c ∈ b.childIds, c < 256) ∧
    ∃ sk', LoadSkeleton uninit (some (encodeSkeleton bones)) = some sk' ∧
      sk'.bones.length = bones.length ∧
      sk'.bones.map Bone.childIds = bones.map Bone.childIds ∧
      ((∀ b ∈ sk'.bones, ∀ c ∈ b.childIds, c < sk'.bones.length)
        ↔ (∀ b ∈ bones, ∀ c ∈ b.childIds, c < bones.length)) :=
  ⟨LoadSkeleton_childIds_lt uninit file sk h,
    ⟨bones⟩, LoadSkeleton_encode uninit bones hcount hwf, rfl, rfl, Iff.rfl⟩

theorem LoadSkeleton_childIds_copied_witness :
    LoadSkeleton (fun _ => 0) (some sampleSkeletonBytes) = some ⟨[sampleBone0, sampleBone1]⟩ ∧
    [sampleBone0, sampleBone1].length < 2 ^ 32 ∧ (∀ b ∈ [sampleBone0, sampleBone1], b.wf) ∧
    (∀ b ∈ [sampleBone0, sampleBone1], ∀ c ∈ b.childIds, c < 256) ∧
    ∃ sk', LoadSkeleton (fun _ => 0) (some (encodeSkeleton [sampleBone0, sampleBone1]))
        = some sk' ∧
      sk'.bones.length = 2 ∧ sk'.bones.map Bone.childIds = [[1], []] ∧
      ((∀ b ∈ sk'.bones, ∀ c ∈ b.childIds, c < sk'.bones.length)
        ↔ (∀ b ∈ [sampleBone0, sampleBone1], ∀ c ∈ b.childIds, c < 2)) :=
  have h0 : LoadSkeleton (fun _ => 0) (some sampleSkeletonBytes)
      = some ⟨[sampleBone0, sampleBone1]⟩ :=
    LoadSkeleton_encode (fun _ => 0) [sampleBone0, sampleBone1] (by decide) (by decide)
  have h1 : [sampleBone0, sampleBone1].length < 2 ^ 32 := by decide
  have h2 : ∀ b ∈ [sampleBone0, sampleBone1], b.wf := by decide
  have h := LoadSkeleton_childIds_copied (fun _ => 0) (some sampleSkeletonBytes)
    ⟨[sampleBone0, sampleBone1]⟩ [sampleBone0, sampleBone1] h0 h1 h2
  ⟨h0, h1, h2, h.1, h.2⟩

/-! ## The generated sphere: the claim -/

theorem length_flatMap_const {α β : Type} (l : List α) (f : α → List β) (k : Nat)
    (h : ∀ a, (f a).length = k) : (l.flatMap f).length = l.length * k := by
  induction l with
  | nil => simp
  | cons a l ih =>
    rw [List.flatMap_cons, List.length_append, h a, ih, List.length_cons]
    ring

theorem length_GenerateSphere_verts (ext : SphereExt) :
    (GenerateSphere_verts ext).length = 200 * 8 := by
  unfold GenerateSphere_verts
  rw [List.length_append, List.length_append,
    length_flatMap_const _ _ (18 * 8) (by
      intro i
      rw [length_flatMap_const _ _ 8 (by intro j; rfl), List.length_range']; rfl),
    List.length_range']
  rfl

theorem length_GenerateSphere_indices : GenerateSphere_indices.length = 1188 := by
  unfold GenerateSphere_indices
  rw [List.length_append, List.length_append,
    length_flatMap_const _ _ 3 (by intro i; rfl),
    length_flatMap_const _ _ (18 * 6) (by
      intro i
      rw [length_flatMap_const _ _ 6 (by intro j; rfl), List.length_range]; rfl),
    length_flatMap_const _ _ 3 (by intro i; rfl), List.length_range, List.length_range]
  rfl

theorem mem_GenerateSphere_indices (idx : Nat) :
    idx ∈ GenerateSphere_indices ↔
      (∃ i, i < 18 ∧ (idx = 0 ∨ idx = i + 2 ∨ idx = (i + 1) % 18 + 2)) ∨
      (∃ i, i < 10 ∧ ∃ j, j < 18 ∧
        (idx = j + (2 + 18 * (i + 0)) ∨ idx = j + (2 + 18 * (i + 1)) ∨
         idx = (j + 1) % 18 + (2 + 18 * (i + 0)) ∨ idx = (j + 1) % 18 + (2 + 18 * (i + 0)) ∨
         idx = j + (2 + 18 * (i + 1)) ∨ idx = (j + 1) % 18 + (2 + 18 * (i + 1)))) ∨
      (∃ i, i < 18 ∧ (idx = 1 ∨ idx = i + 182 ∨ idx = (i + 1) % 18 + 182)) := by
  have h182 : lastRingBaseIndex = 182 := rfl
  simp only [GenerateSphere_indices, List.mem_append, List.mem_flatMap, List.mem_range,
    List.mem_cons, List.mem_singleton, List.not_mem_nil, or_false, numCols, numRows,
    firstRingBaseIndex, h182, or_assoc]

/-- C18: the mesh built by `GenerateSphere` has 2 + 11 x 18 = 200 vertices of 8 floats (a
vertex buffer of 200 strides) and 18 x 3 + 10 x 18 x 6 + 18 x 3 = 1188 indices, hence 396
triangles; every index is smaller than 200, and each of the 11 rings, whose vertices are
numbered from `2 + 18 * ring` up to `2 + 18 * ring + 17`, is referenced by some index. -/
theorem GenerateSphere_counts (ext : SphereExt) :
    (GenerateSphere_verts ext).length = (2 + 11 * 18) * 8 ∧
    (GenerateSphere ext).vertexBuffer.length = 200 * (GenerateSphere ext).m_iStride ∧
    (GenerateSphere ext).m_iStride = 8 * 4 ∧
    GenerateSphere_indices.length = 18 * 3 + 10 * 18 * 6 + 18 * 3 ∧
    (GenerateSphere ext).m_iNumIndices = 1188 ∧
    (GenerateSphere ext).m_iNumTris = 1188 / 3 ∧
    (GenerateSphere ext).m_iNumTris = 396 ∧
    (GenerateSphere ext).indexBuffer = GenerateSphere_indices.flatMap u32le ∧
    (∀ idx ∈ GenerateSphere_indices, idx < 200) ∧
    (∀ ring, ring < 11 → ∃ idx ∈ GenerateSphere_indices,
      2 + 18 * ring ≤ idx ∧ idx < 2 + 18 * (ring + 1)) := by
  have hn : (GenerateSphere ext).m_iNumIndices = 1188 := length_GenerateSphere_indices
  have ht : (GenerateSphere ext).m_iNumTris = 1188 / 3 := by
    show GenerateSphere_indices.length / 3 = 1188 / 3
    rw [length_GenerateSphere_indices]
  refine ⟨length_GenerateSphere_verts ext, ?_, rfl, length_GenerateSphere_indices, hn, ht,
    ht, rfl, ?_, ?_⟩
  · show ((GenerateSphere_verts ext).flatMap u32le).length = 200 * (8 * sizeofGLfloat)
    rw [length_flatMap_u32le, length_GenerateSphere_verts]
    rfl
  · intro idx h
    rcases (mem_GenerateSphere_indices idx).1 h with
      ⟨i, hi, h⟩ | ⟨i, hi, j, hj, h⟩ | ⟨i, hi, h⟩ <;> omega
  · intro ring hr
    refine ⟨2 + 18 * ring, (mem_GenerateSphere_indices _).2 ?_, le_refl _, by omega⟩
    by_cases h0 : ring = 0
    · exact Or.inl ⟨0, by decide, Or.inr (Or.inl (by omega))⟩
    · exact Or.inr (Or.inl ⟨ring - 1, by omega, 0, by decide, Or.inr (Or.inl (by omega))⟩)

/-! ## The loader's caches: auxiliary facts -/

theorem cacheFind_assign_same (m : PtrMap) (key : String) (value : Ptr) :
    cacheFind (cacheAssign m key value) key = some value := by
  induction m with
  | nil => simp [cacheAssign, cacheFind]
  | cons e m ih =>
    obtain ⟨k, v⟩ := e
    by_cases h : k = key
    · simp [cacheAssign, cacheFind, h]
    · simp [cacheAssign, cacheFind, h, ih]

theorem cacheFind_assign_other (m : PtrMap) (key key' : String) (value : Ptr)
    (h : key ≠ key') :
    cacheFind (cacheAssign m key value) key' = cacheFind m key' := by
  induction m with
  | nil => simp [cacheAssign, cacheFind, h]
  | cons e m ih =>
    obtain ⟨k, v⟩ := e
    by_cases hk : k = key
    · subst hk
      simp [cacheAssign, cacheFind, h]
    · simp [cacheAssign, cacheFind, hk, ih]

theorem cacheFind_none_iff (m : PtrMap) (key : String) :
    cacheFind m key = none ↔ key ∉ cacheKeys m := by
  induction m with
  | nil => simp [cacheFind, cacheKeys]
  | cons e m ih =>
    obtain ⟨k, v⟩ := e
    by_cases hk : k = key
    · simp [cacheFind, cacheKeys, hk]
    · have hk' : ¬ key = k := fun e => hk e.symm
      simp only [cacheKeys] at ih
      simp [cacheFind, cacheKeys, hk, hk', ih]

theorem cacheKeys_assign_mem (m : PtrMap) (key : String) (value : Ptr)
    (h : key ∈ cacheKeys m) : cacheKeys (cacheAssign m key value) = cacheKeys m := by
  induction m with
  | nil => simp [cacheKeys] at h
  | cons e m ih =>
    obtain ⟨k, v⟩ := e
    by_cases hk : k = key
    · simp [cacheAssign, cacheKeys, hk]
    · have hk' : ¬ key = k := fun e => hk e.symm
      have hm : key ∈ cacheKeys m := by
        simp only [cacheKeys, List.map_cons, List.mem_cons] at h
        rcases h with h | h
        · exact absurd h hk'
        · exact h
      have := ih hm
      simp only [cacheKeys] at this
      simp [cacheAssign, cacheKeys, hk, this]

theorem cacheKeys_assign_not_mem (m : PtrMap) (key : String) (value : Ptr)
    (h : key ∉ cacheKeys m) : cacheKeys (cacheAssign m key value) = cacheKeys m ++ [key] := by
  induction m with
  | nil => simp [cacheAssign, cacheKeys]
  | cons e m ih =>
    obtain ⟨k, v⟩ := e
    have hk : ¬ k = key := fun e => h (by simp [cacheKeys, e])
    have hm : key ∉ cacheKeys m := fun e => h (by
      simp only [cacheKeys, List.map_cons, List.mem_cons]
      exact Or.inr e)
    have := ih hm
    simp only [cacheKeys] at this
    simp [cacheAssign, cacheKeys, hk, this]

theorem cacheKeys_assign_nodup (m : PtrMap) (key : String) (value : Ptr)
    (h : (cacheKeys m).Nodup) : (cacheKeys (cacheAssign m key value)).Nodup := by
  by_cases hk : key ∈ cacheKeys m
  · rw [cacheKeys_assign_mem m key value hk]; exact h
  · rw [cacheKeys_assign_not_mem m key value hk]
    exact List.Nodup.append h (List.nodup_singleton key) (by
      intro a ha hb
      rw [List.mem_singleton.1 hb] at ha
      exact hk ha)


theorem Loader.deref_alloc (l : Loader) (o o1 : Obj) (p : Ptr) (h : l.deref p = some o) :
    (l.alloc o1).2.deref p = some o := by
  unfold Loader.deref at h ⊢
  by_cases hp : p = 0
  · simp [hp] at h
  · simp only [hp, if_false] at h ⊢
    have hlt : p - 1 < l.objects.length := (List.getElem?_eq_some_iff.1 h).1
    simp only [Loader.alloc]
    rw [List.getElem?_append_left hlt]
    exact h

theorem Loader.deref_updateModel (l : Loader) (q : Ptr) (f : StaticModel → StaticModel)
    (p : Ptr) (t : LoadedTexture) (h : l.deref p = some (Obj.texture t)) :
    (l.updateModel q f).deref p = some (Obj.texture t) := by
  unfold Loader.updateModel
  split
  · rename_i m hq
    unfold Loader.deref at h hq ⊢
    by_cases hp : p = 0
    · simp [hp] at h
    · by_cases hq0 : q = 0
      · simp [hq0] at hq
      · simp only [hp, hq0, if_false] at h hq ⊢
        by_cases e : q - 1 = p - 1
        · rw [e, h] at hq
          exact absurd hq (by simp)
        · rw [List.getElem?_set_ne e]
          exact h
  · exact h

theorem Loader.texLe_refl (l : Loader) : l.texLe l :=
  ⟨rfl, fun _ _ h => h, fun h => h, Nat.le_refl _, fun _ _ h => h, fun h => h⟩

theorem Loader.texLe_trans {l1 l2 l3 : Loader} (h12 : l1.texLe l2) (h23 : l2.texLe l3) :
    l1.texLe l3 :=
  ⟨h23.1.trans h12.1, fun path p h => h23.2.1 path p (h12.2.1 path p h),
    fun h => h23.2.2.1 (h12.2.2.1 h), Nat.le_trans h12.2.2.2.1 h23.2.2.2.1,
    fun p t h => h23.2.2.2.2.1 p t (h12.2.2.2.2.1 p t h),
    fun h => h23.2.2.2.2.2 (h12.2.2.2.2.2 h)⟩

theorem Loader.texLe_alloc (l : Loader) (o : Obj) : l.texLe (l.alloc o).2 :=
  ⟨rfl, fun _ _ h => h, fun h => h, by simp [Loader.alloc],
    fun p _ h => Loader.deref_alloc l _ o p h,
    fun hok path p h => (hok path p h).imp fun _ ht => Loader.deref_alloc l _ o _ ht⟩

theorem Loader.updateModel_textures (l : Loader) (p : Ptr) (f : StaticModel → StaticModel) :
    (l.updateModel p f).m_textures = l.m_textures := by
  unfold Loader.updateModel
  split <;> rfl

theorem Loader.updateModel_staticModels (l : Loader) (p : Ptr)
    (f : StaticModel → StaticModel) :
    (l.updateModel p f).m_staticModels = l.m_staticModels := by
  unfold Loader.updateModel
  split <;> rfl

theorem Loader.updateModel_length (l : Loader) (p : Ptr) (f : StaticModel → StaticModel) :
    (l.updateModel p f).objects.length = l.objects.length := by
  unfold Loader.updateModel
  split
  · simp
  · rfl

theorem Loader.texLe_updateModel (l : Loader) (p : Ptr) (f : StaticModel → StaticModel) :
    l.texLe (l.updateModel p f) := by
  refine ⟨Loader.updateModel_staticModels l p f, ?_, ?_, ?_, ?_, ?_⟩
  · intro path q h
    rw [Loader.updateModel_textures]; exact h
  · intro h
    rw [Loader.updateModel_textures]; exact h
  · rw [Loader.updateModel_length]
  · intro q t h
    exact Loader.deref_updateModel l p f q t h
  · intro hok path q h
    rw [Loader.updateModel_textures] at h
    exact (hok path q h).imp fun t ht => Loader.deref_updateModel l p f q t ht

/-- What `LoadTexture` returns, case by case: a cache hit, a file that cannot be opened, or
a new texture. -/
theorem LoadTexture_cases (w : World) (l : Loader) (path : String) (format : TextureFormat)
    (r : Ret) (h : LoadTexture w l path format = some r) :
    (cacheFind l.m_textures path = some r.value ∧ r.loader = l ∧ r.events = []) ∨
    (cacheFind l.m_textures path = none ∧ r.value = 0 ∧ r.loader = l ∧
      r.events = [Event.fopen path]) ∨
    (cacheFind l.m_textures path = none ∧ r.value = l.objects.length + 1 ∧
      r.loader.m_textures = cacheAssign l.m_textures path (l.objects.length + 1) ∧
      r.loader.m_staticModels = l.m_staticModels ∧
      r.loader.m_animatedModels = l.m_animatedModels ∧
      (∃ img data, w.fopen path = some ⟨true, true, some img⟩ ∧
        LoadTexture_pixels (img.rowbytes % 2 ^ 32) img.height img.rows = some data ∧
        r.loader.objects = l.objects ++ [Obj.texture
          { m_width := img.width
            m_height := img.width
            internalFormat := LoadTexture_internalFormat format
            imageWidth := img.width
            imageHeight := img.height
            pixels := data }]) ∧
      r.events = [Event.fopen path, Event.png_read_png path]) := by
  unfold LoadTexture at h
  split at h
  · rename_i p hp
    injection h with h
    subst h
    exact Or.inl ⟨hp, rfl, rfl⟩
  · rename_i hp
    split at h
    · injection h with h
      subst h
      exact Or.inr (Or.inl ⟨hp, rfl, rfl, rfl⟩)
    · rename_i file hfile
      split at h
      · injection h with h
        subst h
        exact Or.inr (Or.inl ⟨hp, rfl, rfl, rfl⟩)
      · rename_i hrs
        split at h
        · injection h with h
          subst h
          exact Or.inr (Or.inl ⟨hp, rfl, rfl, rfl⟩)
        · rename_i his
          split at h
          · exact absurd h (by simp)
          · rename_i img himg
            cases hd : LoadTexture_pixels (img.rowbytes % 2 ^ 32) img.height img.rows with
            | none => rw [hd] at h; exact absurd h (by simp)
            | some data =>
              rw [hd] at h
              simp only [Option.some_bind] at h
              injection h with h
              subst h
              refine Or.inr (Or.inr ⟨hp, rfl, rfl, rfl, rfl, ⟨img, data, ?_, hd, rfl⟩, rfl⟩)
              rw [hfile]
              obtain ⟨rs, is, im⟩ := file
              simp only at hrs his himg
              simp only [Bool.not_eq_true, Bool.not_eq_false, Bool.not_eq_eq_eq_not,
                Bool.not_true, Bool.not_false] at hrs his
              simp [hrs, his, himg]

theorem LoadTexture_texLe (w : World) (l : Loader) (path : String) (format : TextureFormat)
    (r : Ret) (h : LoadTexture w l path format = some r) : l.texLe r.loader := by
  rcases LoadTexture_cases w l path format r h with ⟨_, hl, _⟩ | ⟨_, _, hl, _⟩ |
    ⟨hp, _, ht, hm, _, ⟨img, data, _, _, ho⟩, _⟩
  · rw [hl]; exact Loader.texLe_refl l
  · rw [hl]; exact Loader.texLe_refl l
  · have hderef : ∀ p t, l.deref p = some (Obj.texture t) →
        r.loader.deref p = some (Obj.texture t) := by
      intro p t hd
      have := Loader.deref_alloc l (Obj.texture t) (Obj.texture
          { m_width := img.width
            m_height := img.width
            internalFormat := LoadTexture_internalFormat format
            imageWidth := img.width
            imageHeight := img.height
            pixels := data }) p hd
      unfold Loader.deref at this ⊢
      rw [ho]
      exact this
    refine ⟨hm, ?_, ?_, ?_, hderef, ?_⟩
    · intro path1 p hf
      rw [ht, cacheFind_assign_other]
      · exact hf
      · intro e
        rw [e] at hp
        rw [hp] at hf
        exact absurd hf (by simp)
    · intro hn
      rw [ht]
      exact cacheKeys_assign_nodup _ _ _ hn
    · rw [ho]; simp
    · intro hok path1 p hf
      rw [ht] at hf
      by_cases e : path = path1
      · subst e
        rw [cacheFind_assign_same] at hf
        injection hf with hf
        subst hf
        refine ⟨{ m_width := img.width
                  m_height := img.width
                  internalFormat := LoadTexture_internalFormat format
                  imageWidth := img.width
                  imageHeight := img.height
                  pixels := data }, ?_⟩
        unfold Loader.deref
        rw [ho]
        simp
      · rw [cacheFind_assign_other _ _ _ _ e] at hf
        obtain ⟨t, ht1⟩ := hok path1 p hf
        exact ⟨t, hderef p t ht1⟩

theorem ProcessModelNode_texture_texLe (w : World) (l : Loader) (paths : List String)
    (format : TextureFormat) (r : Ret)
    (h : ProcessModelNode_texture w l paths format = some r) : l.texLe r.loader := by
  cases paths with
  | nil =>
    simp only [ProcessModelNode_texture] at h
    injection h with h
    subst h
    exact Loader.texLe_refl l
  | cons path rest => exact LoadTexture_texLe w l path format r h

theorem ProcessModelNode_mesh_texLe (w : World) (scene : aiScene) (model : Ptr)
    (meshIndex : Nat) (st st1 : Loader × List Event)
    (h : ProcessModelNode_mesh w scene model meshIndex st = some st1) : st.1.texLe st1.1 := by
  unfold ProcessModelNode_mesh at h
  cases hm : scene.mMeshes[meshIndex]? with
  | none => rw [hm] at h; exact absurd h (by simp)
  | some mesh =>
    rw [hm] at h
    simp only [Option.some_bind] at h
    cases hmat : scene.mMaterials[mesh.mMaterialIndex]? with
    | none => rw [hmat] at h; exact absurd h (by simp)
    | some material =>
      rw [hmat] at h
      simp only [Option.some_bind] at h
      cases hl : ProcessModelNode_texture w
          (((st.1.alloc (Obj.staticMesh (LoadStaticMesh mesh))).2).updateModel model
            (fun m => { m with m_meshes := m.m_meshes
              ++ [(st.1.alloc (Obj.staticMesh (LoadStaticMesh mesh))).1] }))
          material.diffuse TextureFormat.Color with
      | none => rw [hl] at h; exact absurd h (by simp)
      | some lambert =>
        rw [hl] at h
        simp only [Option.some_bind] at h
        cases hn : ProcessModelNode_texture w lambert.loader material.ambient
            TextureFormat.Normal with
        | none => rw [hn] at h; exact absurd h (by simp)
        | some normal =>
          rw [hn] at h
          simp only [Option.some_bind] at h
          injection h with h
          subst h
          exact Loader.texLe_trans (Loader.texLe_alloc _ _)
            (Loader.texLe_trans (Loader.texLe_updateModel _ _ _)
              (Loader.texLe_trans (ProcessModelNode_texture_texLe _ _ _ _ _ hl)
                (Loader.texLe_trans (ProcessModelNode_texture_texLe _ _ _ _ _ hn)
                  (Loader.texLe_trans (Loader.texLe_alloc _ _)
                    (Loader.texLe_updateModel _ _ _)))))

theorem ProcessModelNode_meshLoop_texLe (w : World) (scene : aiScene) (model : Ptr)
    (meshes : List Nat) (st st1 : Loader × List Event)
    (h : ProcessModelNode_meshLoop w scene model meshes st = some st1) :
    st.1.texLe st1.1 := by
  induction meshes generalizing st with
  | nil =>
    simp only [ProcessModelNode_meshLoop] at h
    injection h with h
    subst h
    exact Loader.texLe_refl _
  | cons meshIndex rest ih =>
    simp only [ProcessModelNode_meshLoop] at h
    cases hm : ProcessModelNode_mesh w scene model meshIndex st with
    | none => rw [hm] at h; exact absurd h (by simp)
    | some st2 =>
      rw [hm] at h
      simp only [Option.some_bind] at h
      exact Loader.texLe_trans (ProcessModelNode_mesh_texLe _ _ _ _ _ _ hm) (ih st2 h)

theorem ProcessModelNode_texLe (w : World) (scene : aiScene) (model : Ptr) (node : aiNode) :
    ∀ st st1 : Loader × List Event,
      ProcessModelNode w scene model node st = some st1 → st.1.texLe st1.1 := by
  refine aiNode.rec
    (motive_1 := fun node => ∀ st st1 : Loader × List Event,
      ProcessModelNode w scene model node st = some st1 → st.1.texLe st1.1)
    (motive_2 := fun children => ∀ st st1 : Loader × List Event,
      ProcessModelNode_children w scene model children st = some st1 → st.1.texLe st1.1)
    ?_ ?_ ?_ node
  · intro mMeshes mChildren ih st st1 h
    simp only [ProcessModelNode] at h
    cases hm : ProcessModelNode_meshLoop w scene model mMeshes st with
    | none => rw [hm] at h; exact absurd h (by simp)
    | some st2 =>
      rw [hm] at h
      exact Loader.texLe_trans (ProcessModelNode_meshLoop_texLe _ _ _ _ _ _ hm) (ih st2 st1 h)
  · intro st st1 h
    simp only [ProcessModelNode_children] at h
    injection h with h
    subst h
    exact Loader.texLe_refl _
  · intro child rest ihc ihr st st1 h
    simp only [ProcessModelNode_children] at h
    cases hm : ProcessModelNode w scene model child st with
    | none => rw [hm] at h; exact absurd h (by simp)
    | some st2 =>
      rw [hm] at h
      exact Loader.texLe_trans (ihc st st2 hm) (ihr st2 st1 h)

/-- What `LoadStaticModel` returns, case by case: a cache hit, a failed import, or a new
model. -/
theorem LoadStaticModel_cases (w : World) (l : Loader) (path : String) (r : Ret)
    (h : LoadStaticModel w l path = some r) :
    (cacheFind l.m_staticModels path = some r.value ∧ r.loader = l ∧ r.events = []) ∨
    (cacheFind l.m_staticModels path = none ∧ r.value = 0 ∧ r.loader = l ∧
      r.events = [Event.ReadFile path]) ∨
    (cacheFind l.m_staticModels path = none ∧ r.value = l.objects.length + 1 ∧
      ∃ st : Loader, l.texLe st ∧ l.objects.length + 1 ≤ st.objects.length ∧
        r.loader = { st with
          m_staticModels := cacheAssign l.m_staticModels path (l.objects.length + 1) }) := by
  unfold LoadStaticModel at h
  split at h
  · rename_i p hp
    injection h with h
    subst h
    exact Or.inl ⟨hp, rfl, rfl⟩
  · rename_i hp
    split at h
    · injection h with h
      subst h
      exact Or.inr (Or.inl ⟨hp, rfl, rfl, rfl⟩)
    · rename_i scene hscene
      split at h
      · injection h with h
        subst h
        exact Or.inr (Or.inl ⟨hp, rfl, rfl, rfl⟩)
      · split at h
        · injection h with h
          subst h
          exact Or.inr (Or.inl ⟨hp, rfl, rfl, rfl⟩)
        · rename_i root hroot
          cases hn : ProcessModelNode w scene (l.alloc (Obj.staticModel ⟨[], []⟩)).1 root
              ((l.alloc (Obj.staticModel ⟨[], []⟩)).2, [Event.ReadFile path]) with
          | none => rw [hn] at h; exact absurd h (by simp)
          | some st =>
            rw [hn] at h
            simp only [Option.some_bind] at h
            injection h with h
            subst h
            have hle := ProcessModelNode_texLe w scene _ root _ _ hn
            have hlen : l.objects.length + 1 ≤ st.1.objects.length := by
              have := hle.2.2.2.1
              simpa [Loader.alloc] using this
            refine Or.inr (Or.inr ⟨hp, rfl, st.1,
              Loader.texLe_trans (Loader.texLe_alloc l _) hle, hlen, ?_⟩)
            have hm : st.1.m_staticModels = l.m_staticModels := hle.1
            simp only [Loader.alloc, hm]

theorem Loader.le_refl (l : Loader) : l.le l :=
  ⟨fun _ _ h => h, fun _ _ h => h, fun _ _ h => h⟩

theorem Loader.le_trans {l1 l2 l3 : Loader} (h12 : l1.le l2) (h23 : l2.le l3) : l1.le l3 :=
  ⟨fun path p h => h23.1 path p (h12.1 path p h),
    fun path p h => h23.2.1 path p (h12.2.1 path p h),
    fun p t h => h23.2.2 p t (h12.2.2 p t h)⟩

theorem Loader.le_of_texLe {l1 l2 : Loader} (h : l1.texLe l2) : l1.le l2 :=
  ⟨h.2.1, fun path p hf => by rw [h.1]; exact hf, h.2.2.2.2.1⟩

theorem Loader.ok_of_texLe {l1 l2 : Loader} (h : l1.texLe l2) (hok : l1.ok) : l2.ok := by
  refine ⟨⟨?_, ?_⟩, h.2.2.1 hok.2.1, h.2.2.2.2.2 hok.2.2⟩
  · intro path p hf
    rw [h.1] at hf
    have := hok.1.1 path p hf
    have hlen := h.2.2.2.1
    exact ⟨this.1, Nat.le_trans this.2 hlen⟩
  · intro path1 path2 p h1 h2
    rw [h.1] at h1 h2
    exact hok.1.2 path1 path2 p h1 h2

theorem Loader.ok_init : Loader.init.ok := by
  refine ⟨⟨?_, ?_⟩, ?_, ?_⟩
  · intro path p h
    simp [Loader.init, cacheFind] at h
  · intro path1 path2 p h
    simp [Loader.init, cacheFind] at h
  · simp [Loader.init, cacheKeys]
  · intro path p h
    simp [Loader.init, cacheFind] at h

theorem LoadStaticModel_le (w : World) (l : Loader) (path : String) (r : Ret)
    (h : LoadStaticModel w l path = some r) : l.le r.loader := by
  rcases LoadStaticModel_cases w l path r h with ⟨_, hl, _⟩ | ⟨_, _, hl, _⟩ |
    ⟨hp, _, st, hle, _, hl⟩
  · rw [hl]; exact Loader.le_refl l
  · rw [hl]; exact Loader.le_refl l
  · rw [hl]
    refine ⟨hle.2.1, ?_, hle.2.2.2.2.1⟩
    intro path1 p hf
    show cacheFind (cacheAssign l.m_staticModels path (l.objects.length + 1)) path1 = some p
    rw [cacheFind_assign_other]
    · exact hf
    · intro e
      rw [e] at hp
      rw [hp] at hf
      exact absurd hf (by simp)

theorem LoadStaticModel_ok (w : World) (l : Loader) (path : String) (r : Ret)
    (hok : l.ok) (h : LoadStaticModel w l path = some r) : r.loader.ok := by
  rcases LoadStaticModel_cases w l path r h with ⟨_, hl, _⟩ | ⟨_, _, hl, _⟩ |
    ⟨hp, _, st, hle, hlen, hl⟩
  · rw [hl]; exact hok
  · rw [hl]; exact hok
  · rw [hl]
    have key : ∀ (path1 : String) (p : Nat),
        cacheFind (cacheAssign l.m_staticModels path (l.objects.length + 1)) path1 = some p →
        (path1 = path ∧ p = l.objects.length + 1) ∨
        (path1 ≠ path ∧ cacheFind l.m_staticModels path1 = some p) := by
      intro path1 (p : Nat) hf
      by_cases e : path = path1
      · subst e
        rw [cacheFind_assign_same] at hf
        injection hf with hf
        exact Or.inl ⟨rfl, hf.symm⟩
      · rw [cacheFind_assign_other _ _ _ _ e] at hf
        exact Or.inr ⟨fun e1 => e e1.symm, hf⟩
    refine ⟨⟨?_, ?_⟩, hle.2.2.1 hok.2.1, hle.2.2.2.2.2 hok.2.2⟩
    · intro path1 (p : Nat) hf
      show 0 < p ∧ p ≤ st.objects.length
      rcases key path1 p hf with ⟨_, e⟩ | ⟨_, hf1⟩
      · omega
      · have hp1 : (0 : Nat) < p ∧ p ≤ l.objects.length := hok.1.1 path1 p hf1
        omega
    · intro path1 path2 (p : Nat) h1 h2
      rcases key path1 p h1 with ⟨e1, v1⟩ | ⟨_, hf1⟩
      · rcases key path2 p h2 with ⟨e2, _⟩ | ⟨_, hf2⟩
        · rw [e1, e2]
        · have hp1 : (0 : Nat) < p ∧ p ≤ l.objects.length := hok.1.1 path2 p hf2
          omega
      · rcases key path2 p h2 with ⟨_, v2⟩ | ⟨_, hf2⟩
        · have hp1 : (0 : Nat) < p ∧ p ≤ l.objects.length := hok.1.1 path1 p hf1
          omega
        · exact hok.1.2 path1 path2 p hf1 hf2

theorem Loader.step_le (w : World) (l l1 : Loader) (c : LoaderCall)
    (h : Loader.step w l c = some l1) : l.le l1 := by
  cases c with
  | LoadTexture path format =>
    simp only [Loader.step, Option.map_eq_some'] at h
    obtain ⟨r, hr, e⟩ := h
    rw [← e]
    exact Loader.le_of_texLe (LoadTexture_texLe w l path format r hr)
  | LoadStaticModel path =>
    simp only [Loader.step, Option.map_eq_some'] at h
    obtain ⟨r, hr, e⟩ := h
    rw [← e]
    exact LoadStaticModel_le w l path r hr
  | LoadAnimatedModel path =>
    simp only [Loader.step, LoadAnimatedModel] at h
    injection h with h
    rw [← h]
    exact Loader.le_refl l

theorem Loader.step_ok (w : World) (l l1 : Loader) (c : LoaderCall) (hok : l.ok)
    (h : Loader.step w l c = some l1) : l1.ok := by
  cases c with
  | LoadTexture path format =>
    simp only [Loader.step, Option.map_eq_some'] at h
    obtain ⟨r, hr, e⟩ := h
    rw [← e]
    exact Loader.ok_of_texLe (LoadTexture_texLe w l path format r hr) hok
  | LoadStaticModel path =>
    simp only [Loader.step, Option.map_eq_some'] at h
    obtain ⟨r, hr, e⟩ := h
    rw [← e]
    exact LoadStaticModel_ok w l path r hok hr
  | LoadAnimatedModel path =>
    simp only [Loader.step, LoadAnimatedModel] at h
    injection h with h
    rw [← h]
    exact hok

theorem Loader.run_le (w : World) (calls : List LoaderCall) (l l2 : Loader)
    (h : Loader.run w l calls = some l2) : l.le l2 := by
  induction calls generalizing l with
  | nil =>
    simp only [Loader.run] at h
    injection h with h
    rw [← h]
    exact Loader.le_refl l
  | cons c rest ih =>
    simp only [Loader.run] at h
    cases hs : Loader.step w l c with
    | none => rw [hs] at h; exact absurd h (by simp)
    | some l1 =>
      rw [hs] at h
      simp only [Option.some_bind] at h
      exact Loader.le_trans (Loader.step_le w l l1 c hs) (ih l1 h)

theorem Loader.run_ok (w : World) (calls : List LoaderCall) (l l2 : Loader) (hok : l.ok)
    (h : Loader.run w l calls = some l2) : l2.ok := by
  induction calls generalizing l with
  | nil =>
    simp only [Loader.run] at h
    injection h with h
    rw [← h]
    exact hok
  | cons c rest ih =>
    simp only [Loader.run] at h
    cases hs : Loader.step w l c with
    | none => rw [hs] at h; exact absurd h (by simp)
    | some l1 =>
      rw [hs] at h
      simp only [Option.some_bind] at h
      exact ih l1 (Loader.step_ok w l l1 c hok hs) h

theorem LoadTexture_hit (w : World) (l : Loader) (path : String) (format : TextureFormat)
    (p : Ptr) (h : cacheFind l.m_textures path = some p) :
    LoadTexture w l path format = some ⟨p, l, []⟩ := by
  unfold LoadTexture
  rw [h]

theorem LoadStaticModel_hit (w : World) (l : Loader) (path : String) (p : Ptr)
    (h : cacheFind l.m_staticModels path = some p) :
    LoadStaticModel w l path = some ⟨p, l, []⟩ := by
  unfold LoadStaticModel
  rw [h]

theorem sample_LoadTexture :
    LoadTexture sampleWorld Loader.init sampleTexturePath TextureFormat.Color
      = some ⟨1, sampleTextureLoader, [Event.fopen sampleTexturePath,
          Event.png_read_png sampleTexturePath]⟩ := by
  decide

theorem sample_LoadStaticModel :
    LoadStaticModel sampleWorld Loader.init sampleModelPathA
      = some ⟨1, sampleModelLoader, [Event.ReadFile sampleModelPathA,
          Event.fopen sampleTexturePath, Event.png_read_png sampleTexturePath]⟩ := by
  decide

theorem sample_LoadStaticModel_later :
    Loader.run sampleWorld sampleTextureLoader [LoaderCall.LoadStaticModel sampleModelPathA]
      = some sampleLaterLoader := by
  decide

theorem sample_LoadTexture_again :
    Loader.run sampleWorld sampleModelLoader
      [LoaderCall.LoadTexture sampleTexturePath TextureFormat.Map] = some sampleModelLoader := by
  decide

theorem sample_LoadStaticModel_second :
    LoadStaticModel sampleWorld sampleModelLoader sampleModelPathB
      = some ⟨5, sampleTwoModelsLoader, [Event.ReadFile sampleModelPathB]⟩ := by
  decide

theorem LoadTexture_cached (w : World) (l : Loader) (path : String) (format : TextureFormat)
    (r : Ret) (h : LoadTexture w l path format = some r) (hv : r.value ≠ 0) :
    cacheFind r.loader.m_textures path = some r.value := by
  rcases LoadTexture_cases w l path format r h with ⟨hp, hl, _⟩ | ⟨_, h0, _⟩ |
    ⟨_, hval, ht, _⟩
  · rw [hl]; exact hp
  · exact absurd h0 hv
  · rw [ht, hval]
    exact cacheFind_assign_same _ _ _

theorem LoadStaticModel_cached (w : World) (l : Loader) (path : String) (r : Ret)
    (h : LoadStaticModel w l path = some r) (hv : r.value ≠ 0) :
    cacheFind r.loader.m_staticModels path = some r.value := by
  rcases LoadStaticModel_cases w l path r h with ⟨hp, hl, _⟩ | ⟨_, h0, _⟩ |
    ⟨_, hval, st, _, _, hl⟩
  · rw [hl]; exact hp
  · exact absurd h0 hv
  · rw [hl, hval]
    exact cacheFind_assign_same _ _ _

/-- Every texture that `LoadTexture` creates records the width of the image as its width and
as its height; the height of the image only reaches `glTexImage2D`. -/
theorem LoadTexture_new_texture (w : World) (l : Loader) (path : String)
    (format : TextureFormat) (r : Ret) (h : LoadTexture w l path format = some r)
    (hmiss : cacheFind l.m_textures path = none) (hv : r.value ≠ 0) :
    ∃ img t, w.fopen path = some ⟨true, true, some img⟩ ∧
      r.loader.deref r.value = some (Obj.texture t) ∧
      t.imageWidth = img.width ∧ t.imageHeight = img.height ∧
      t.m_width = img.width ∧ t.m_height = img.width := by
  rcases LoadTexture_cases w l path format r h with ⟨hp, _⟩ | ⟨_, h0, _⟩ |
    ⟨_, hval, _, _, _, ⟨img, data, hf, _, ho⟩, _⟩
  · rw [hmiss] at hp
    exact absurd hp (by simp)
  · exact absurd h0 hv
  · refine ⟨img,
      { m_width := img.width
        m_height := img.width
        internalFormat := LoadTexture_internalFormat format
        imageWidth := img.width
        imageHeight := img.height
        pixels := data }, hf, ?_, rfl, rfl, rfl, rfl⟩
    unfold Loader.deref
    rw [ho, hval]
    simp

/-! ## The recorded size of a texture: the claim -/

/-- Claim C11, refuted on an image of 2 pixels by 3 rows: `LoadTexture` decodes it and
returns a texture, the image handed to `glTexImage2D` is 2 wide and 3 high, but the texture
records the width 2 and the height 2. -/
theorem LoadTexture_height_is_width :
    ∃ r t, LoadTexture sampleWorld Loader.init sampleTexturePath TextureFormat.Color = some r ∧
      r.loader.deref r.value = some (Obj.texture t) ∧
      t.imageWidth = 2 ∧ t.imageHeight = 3 ∧ t.m_width = 2 ∧ t.m_height = 2 ∧
      t.m_height ≠ t.imageHeight :=
  ⟨_, sampleTexture, sample_LoadTexture, by decide, rfl, rfl, rfl, rfl, by decide⟩

/-! ## The model cache: the claim -/

/-- Claim C12: in every state that a new loader reaches by calls of its caching methods,
(1) when `LoadStaticModel` returns a model for a path, every later call for the path
returns the same pointer, makes no call to the importer and leaves the loader as it is;
(2) models returned for two different paths are different pointers; (3) when the path is
not cached and the import fails (no scene, an incomplete scene, or no root node),
`LoadStaticModel` returns `nullptr` and leaves the loader, its cache included, as it is. -/
theorem LoadStaticModel_cache_identity (w : World) (calls0 : List LoaderCall) (l : Loader)
    (hreach : Loader.run w Loader.init calls0 = some l) :
    (∀ path r calls l2, LoadStaticModel w l path = some r → r.value ≠ 0 →
      Loader.run w r.loader calls = some l2 →
      LoadStaticModel w l2 path = some ⟨r.value, l2, []⟩) ∧
    (∀ path1 path2 r1 calls l2 r2, path1 ≠ path2 →
      LoadStaticModel w l path1 = some r1 → r1.value ≠ 0 →
      Loader.run w r1.loader calls = some l2 →
      LoadStaticModel w l2 path2 = some r2 → r2.value ≠ 0 →
      r1.value ≠ r2.value) ∧
    (∀ path, cacheFind l.m_staticModels path = none →
      (w.ReadFile path = none ∨ ∃ scene, w.ReadFile path = some scene ∧
        (scene.mFlags &&& AI_SCENE_FLAGS_INCOMPLETE ≠ 0 ∨ scene.mRootNode = none)) →
      LoadStaticModel w l path = some ⟨0, l, [Event.ReadFile path]⟩) := by
  have hok : l.ok := Loader.run_ok w calls0 Loader.init l Loader.ok_init hreach
  refine ⟨?_, ?_, ?_⟩
  · intro path r calls l2 h hv hrun
    exact LoadStaticModel_hit w l2 path r.value
      ((Loader.run_le w calls r.loader l2 hrun).2.1 path r.value
        (LoadStaticModel_cached w l path r h hv))
  · intro path1 path2 r1 calls l2 r2 hne h1 hv1 hrun h2 hv2 e
    have hok2 : l2.ok :=
      Loader.run_ok w calls r1.loader l2 (LoadStaticModel_ok w l path1 r1 hok h1) hrun
    have hc1 : cacheFind l2.m_staticModels path1 = some r2.value := by
      rw [← e]
      exact (Loader.run_le w calls r1.loader l2 hrun).2.1 path1 r1.value
        (LoadStaticModel_cached w l path1 r1 h1 hv1)
    rcases LoadStaticModel_cases w l2 path2 r2 h2 with ⟨hp, _⟩ | ⟨_, h0, _⟩ |
      ⟨_, hval, _⟩
    · exact hne (hok2.1.2 path1 path2 r2.value hc1 hp)
    · exact hv2 h0
    · have hb := hok2.1.1 path1 r2.value hc1
      have hcontra : ∀ v n : Nat, 0 < v ∧ v ≤ n → v = n + 1 → False := by
        intro v n hvn hv1
        omega
      exact hcontra r2.value l2.objects.length hb hval
  · intro path hmiss hfail
    unfold LoadStaticModel
    rw [hmiss]
    rcases hfail with hnone | ⟨scene, hscene, hflag | hroot⟩
    · rw [hnone]
    · rw [hscene]
      simp only []
      rw [if_pos hflag]
    · rw [hscene]
      simp only [hroot]
      split <;> rfl

theorem LoadStaticModel_cache_identity_witness :
    Loader.run sampleWorld Loader.init [] = some Loader.init ∧
    LoadStaticModel sampleWorld Loader.init sampleModelPathA
      = some ⟨1, sampleModelLoader, [Event.ReadFile sampleModelPathA,
          Event.fopen sampleTexturePath, Event.png_read_png sampleTexturePath]⟩ ∧
    LoadStaticModel sampleWorld sampleModelLoader sampleModelPathA
      = some ⟨1, sampleModelLoader, []⟩ ∧
    LoadStaticModel sampleWorld sampleModelLoader sampleModelPathB
      = some ⟨5, sampleTwoModelsLoader, [Event.ReadFile sampleModelPathB]⟩ ∧
    (1 : Ptr) ≠ 5 ∧
    LoadStaticModel sampleWorld Loader.init sampleMissingPath
      = some ⟨0, Loader.init, [Event.ReadFile sampleMissingPath]⟩ :=
  have h := LoadStaticModel_cache_identity sampleWorld [] Loader.init rfl
  ⟨rfl, sample_LoadStaticModel,
    h.1 sampleModelPathA _ [LoaderCall.LoadTexture sampleTexturePath TextureFormat.Map]
      sampleModelLoader sample_LoadStaticModel (by decide) sample_LoadTexture_again,
    sample_LoadStaticModel_second,
    h.2.1 sampleModelPathA sampleModelPathB _
      [LoaderCall.LoadTexture sampleTexturePath TextureFormat.Map] sampleModelLoader _
      (by decide) sample_LoadStaticModel (by decide) sample_LoadTexture_again
      sample_LoadStaticModel_second (by decide),
    h.2.2 sampleMissingPath rfl (Or.inl rfl)⟩

/-! ## The texture cache: the claim -/

/-- Claim C13: in every state that a new loader reaches by calls of its caching methods,
when `LoadTexture` returns a texture for a path and a format, then after any further calls
`LoadTexture` for the path and any format returns the same pointer, makes no call to the
outside world (it neither opens nor decodes the file) and leaves the loader, its texture
cache included, as it is; the pointer is the address of a texture, which is still the same
texture; and the texture cache has at most one entry for a path. -/
theorem LoadTexture_cache_identity (w : World) (calls0 : List LoaderCall) (l : Loader)
    (path : String) (f1 f2 : TextureFormat) (r1 : Ret) (calls : List LoaderCall) (l2 : Loader)
    (hreach : Loader.run w Loader.init calls0 = some l)
    (h1 : LoadTexture w l path f1 = some r1) (hv : r1.value ≠ 0)
    (hlater : Loader.run w r1.loader calls = some l2) :
    LoadTexture w l2 path f2 = some ⟨r1.value, l2, []⟩ ∧
    (∃ t, r1.loader.deref r1.value = some (Obj.texture t) ∧
      l2.deref r1.value = some (Obj.texture t)) ∧
    (cacheKeys l2.m_textures).Nodup := by
  have hok : l.ok := Loader.run_ok w calls0 Loader.init l Loader.ok_init hreach
  have hok1 : r1.loader.ok := Loader.ok_of_texLe (LoadTexture_texLe w l path f1 r1 h1) hok
  have hok2 : l2.ok := Loader.run_ok w calls r1.loader l2 hok1 hlater
  have hle := Loader.run_le w calls r1.loader l2 hlater
  have hc := LoadTexture_cached w l path f1 r1 h1 hv
  obtain ⟨t, ht⟩ := hok1.2.2 path r1.value hc
  exact ⟨LoadTexture_hit w l2 path f2 r1.value (hle.1 path r1.value hc),
    ⟨t, ht, hle.2.2 r1.value t ht⟩, hok2.2.1⟩

theorem LoadTexture_cache_identity_witness :
    Loader.run sampleWorld Loader.init [] = some Loader.init ∧
    LoadTexture sampleWorld Loader.init sampleTexturePath TextureFormat.Color
      = some ⟨1, sampleTextureLoader, [Event.fopen sampleTexturePath,
          Event.png_read_png sampleTexturePath]⟩ ∧
    Loader.run sampleWorld sampleTextureLoader [LoaderCall.LoadStaticModel sampleModelPathA]
      = some sampleLaterLoader ∧
    LoadTexture sampleWorld sampleLaterLoader sampleTexturePath TextureFormat.Normal
      = some ⟨1, sampleLaterLoader, []⟩ ∧
    (∃ t, sampleTextureLoader.deref 1 = some (Obj.texture t) ∧
      sampleLaterLoader.deref 1 = some (Obj.texture t)) ∧
    (cacheKeys sampleLaterLoader.m_textures).Nodup :=
  have h := LoadTexture_cache_identity sampleWorld [] Loader.init sampleTexturePath
    TextureFormat.Color TextureFormat.Normal
    ⟨1, sampleTextureLoader, [Event.fopen sampleTexturePath,
      Event.png_read_png sampleTexturePath]⟩
    [LoaderCall.LoadStaticModel sampleModelPathA] sampleLaterLoader
    rfl sample_LoadTexture (by decide) sample_LoadStaticModel_later
  ⟨rfl, sample_LoadTexture, sample_LoadStaticModel_later, h.1, h.2.1, h.2.2⟩

end Helium
